import Mathlib

/-!
# Costmap maintenance controller (`costmap_2d/src/costmap_2d_ros.cpp`)

A shallow embedding of `Costmap2DROS`.

* C++ `double` is an arbitrary linearly ordered field `D` (exact arithmetic:
  rounding, infinities and NaN are not modelled); the library functions
  `sqrt`, `cos`, `sin`, `tf::getYaw`, `cv::convexHull` are parameters. Where a
  statement needs the values of a square root, `D` is the field of the real
  numbers and `sqrt` the real square root. The one place where the rounding
  of a `double` decides how often a loop runs, the angle of the circle loop of
  `clearRobotFootprint`, is computed with the rounding `World.fl`.
* The collaborators that the controller only calls (the grid engine
  `Costmap2D`, the observation buffers, the transform listener) are abstract:
  their operations are fields of the record `World`, and every call that
  mutates or queries the outside world is appended to the controller's `log`.
* The answers of the transform listener and of the buffers depend on when the
  call is made; the logical instant of a call is the number of collaborator
  calls logged so far.
* Each member function is one state transformer and the locks are not
  modelled; the loop of the worker thread is cut into the steps between which
  the foreground calls `start()` and `stop()` can come in.
-/

namespace costmap_2d

/-! ## Messages and geometry -/

/-- A `geometry_msgs::Point`. -/
structure Point (D : Type) where
  x : D
  y : D
  z : D
deriving DecidableEq, Repr

/-- A `geometry_msgs::Quaternion`. -/
structure Quat (D : Type) where
  x : D
  y : D
  z : D
  w : D
deriving DecidableEq, Repr

/-- A `geometry_msgs::Pose`. -/
structure Pose (D : Type) where
  position : Point D
  orientation : Quat D
deriving DecidableEq, Repr

/-- A `tf::Stamped<tf::Pose>`: origin, rotation and the time stamp. -/
structure StampedPose (D : Type) where
  origin : Point D
  rotation : Quat D
  stamp_ : D
deriving DecidableEq, Repr

/-- The value left by `setIdentity()` on a default constructed stamped pose. -/
def StampedPose.identity {D : Type} [Zero D] [One D] : StampedPose D :=
  { origin := ⟨0, 0, 0⟩, rotation := ⟨0, 0, 0, 1⟩, stamp_ := 0 }

/-- A `nav_msgs::MapMetaData`. -/
structure MapMetaData (D : Type) where
  resolution : D
  width : Nat
  height : Nat
  origin : Pose D

/-- A `nav_msgs::OccupancyGrid`: the frame of its header, the meta data and
the `int8` cell array. -/
structure OccupancyGrid (D : Type) where
  frame_id : String
  info : MapMetaData D
  data : List Int

/-- The message carries one cell value per cell, and the cell count fits the
`unsigned int` the controller counts cells with. -/
def OccupancyGrid.wellFormed {D : Type} (m : OccupancyGrid D) : Prop :=
  m.data.length = m.info.width * m.info.height ∧ m.info.width * m.info.height < 2 ^ 32

instance {D : Type} (m : OccupancyGrid D) : Decidable m.wellFormed := by
  unfold OccupancyGrid.wellFormed; exact inferInstance

/-! ## Collaborators -/

/-- The exceptions of the transform listener that the controller names. -/
inductive TfException where
  | LookupException
  | ConnectivityException
  | ExtrapolationException
deriving DecidableEq, Repr

/-- Every call the controller makes on a collaborator, in the order made; the
two queries of an observation buffer are logged with what they returned. -/
inductive Event (D Obs : Type) where
  | transformPose (target source : String)
  | lookupTransform (target source : String)
  | getObservations (buffer : Nat) (result : List Obs)
  | isCurrent (buffer : Nat) (result : Bool)
  | setGlobalFrame (buffer : Nat) (frame : String)
  | resetLastUpdated (buffer : Nat)
  | subscribe (subscriber : Nat)
  | unsubscribe (subscriber : Nat)
  | replaceFullMap (ox oy : D) (w h : Nat) (data : List Nat)
  | updateStaticMapWindow (ox oy : D) (w h : Nat) (data : List Nat)
  | updateOrigin (x y : D)
  | updateWorld (wx wy : D) (marking clearing : List Obs)
  | updateRadii (inscribed circumscribed : D)
  | setConvexPolygonCost (polygon : List (Point D)) (cost : Nat)
  | clearNonLethal (wx wy sx sy : D) (clear_no_info : Bool)
  | reinflateWindow (wx wy sx sy : D) (clear : Bool)
  | resetMapOutsideWindow (wx wy sx sy : D)
  | saveMap (file : String)
  | updateCostmapData (footprint : List (Point D)) (pose : StampedPose D)
  | publishVoxelGrid (frame : String)
deriving DecidableEq, Repr

/-- The grid engine `Costmap2D`, a collaborator known by its interface only:
`G` is the engine's state, the fields are the member functions called by the
controller, and `FREE_SPACE` is the engine's cost value for free space. -/
structure GridEngine (D G Obs : Type) where
  FREE_SPACE : Nat
  getResolution : G → D
  getOriginX : G → D
  getOriginY : G → D
  getSizeInMetersX : G → D
  getSizeInMetersY : G → D
  getCost : G → Nat → Nat → Nat
  getInscribedRadius : G → D
  getCircumscribedRadius : G → D
  getInflationRadius : G → D
  replaceFullMap : D → D → Nat → Nat → List Nat → G → G
  updateStaticMapWindow : D → D → Nat → Nat → List Nat → G → G
  updateOrigin : D → D → G → G
  updateWorld : D → D → List Obs → List Obs → G → G
  updateRadii : D → D → G → G
  setConvexPolygonCost : List (Point D) → Nat → G → Bool × G
  clearNonLethal : D → D → D → D → Bool → G → G
  reinflateWindow : D → D → D → D → Bool → G → G
  resetMapOutsideWindow : D → D → D → D → G → G

/-- Modelled from the spec: an `ObservationBuffer` (its class is not part of
the controller's source file) records the global frame it reports in; the
queue of observations, the persistence, the expected update rate and the
staleness clock are the abstract `contents`. -/
structure ObservationBuffer (β : Type) where
  global_frame_ : String
  contents : β

/-- Modelled from the spec: `ObservationBuffer::setGlobalFrame`, "update every
ObservationBuffer's recorded global frame to the new frame". -/
def ObservationBuffer.setGlobalFrame {β : Type} (new_global_frame : String)
    (b : ObservationBuffer β) : ObservationBuffer β :=
  { b with global_frame_ := new_global_frame }

/-- The time dependent member functions of an observation buffer, as functions
of the logical instant of the call: `getObservations` returns the unexpired
observations and the purged buffer, `isCurrent` the liveness predicate,
`resetLastUpdated` re-arms the staleness clock. -/
structure BufferOps (β Obs : Type) where
  getObservations : Nat → β → List Obs × β
  isCurrent : Nat → β → Bool
  resetLastUpdated : Nat → β → β

/-- The transform listener and the wall clock. `transformPose t target source`
is the outcome of `tf_.transformPose(target, identity pose in source)` at the
logical instant `t`, `lookupTransform` gives the translation of the looked up
transform (the image of the origin), `now t` is `ros::Time::now()` in seconds,
`resolve` is `tf::resolve`. -/
structure TransformListener (D : Type) where
  resolve : String → String → String
  now : Nat → D
  transformPose : Nat → String → String → Except TfException (StampedPose D)
  lookupTransform : Nat → String → String → Except TfException (Point D)

/-- The numeric library: `sqrt`, `cos`, `sin`, `tf::getYaw`, `M_PI`,
`std::numeric_limits<double>::max()` and `cv::convexHull` on planar points. -/
structure MathLib (D : Type) where
  sqrt : D → D
  cos : D → D
  sin : D → D
  getYaw : Quat D → D
  M_PI : D
  DBL_MAX : D
  convexHull : List (D × D) → List (D × D)

/-- Everything outside the controller. `fl x` is the `double` that the machine
stores for an operation whose exact result is `x` (the rounding of IEEE
arithmetic); the model applies it to the loop counter of the circle loop of
`clearRobotFootprint`, whose number of passes depends on it. -/
structure World (D β Obs G : Type) where
  tf : TransformListener D
  buf : BufferOps β Obs
  grid : GridEngine D G Obs
  math : MathLib D
  fl : D → D

/-! ## Controller state -/

/-- The data members of `Costmap2DROS` that the maintenance cycle uses.
`buffers` is the heap of shared `ObservationBuffer` objects; the three buffer
lists hold pointers into it, so a buffer may be in several lists.
`publisher_active` is `costmap_publisher_->active()`; an entry of
`observation_subscribers_` is `none` for a null pointer and otherwise tells
whether the subscriber is subscribed. -/
structure Costmap2DROS (D β Obs G : Type) where
  name_ : String
  costmap_ : G
  global_frame_ : String
  robot_base_frame_ : String
  tf_prefix_ : String
  transform_tolerance_ : D
  rolling_window_ : Bool
  save_debug_pgm_ : Bool
  publish_voxel_ : Bool
  publisher_active : Bool
  stop_updates_ : Bool
  initialized_ : Bool
  stopped_ : Bool
  current_ : Bool
  map_update_thread_shutdown_ : Bool
  footprint_spec_ : List (Point D)
  base_footprint_spec_ : List (Point D)
  buffers : Nat → ObservationBuffer β
  observation_buffers_ : List Nat
  marking_buffers_ : List Nat
  clearing_buffers_ : List Nat
  observation_subscribers_ : List (Option Bool)
  log : List (Event D Obs)

/-- What stops a member function before its end: an exception that the
controller does not catch, or behaviour the language leaves undefined. -/
inductive Fault where
  | uncaught (e : TfException)
  | undefinedBehaviour
deriving DecidableEq, Repr

section Controller

variable {D β Obs G : Type} [LinearOrderedField D]

/-- The outcome of a member function: the state it returns with, or the fault
that stopped it together with the state reached at that point. -/
abbrev Outcome (D β Obs G : Type) :=
  Except (Fault × Costmap2DROS D β Obs G) (Costmap2DROS D β Obs G)

/-- The state an outcome ends in, returned or not. -/
def Outcome.state (o : Outcome D β Obs G) : Costmap2DROS D β Obs G :=
  match o with
  | .ok st => st
  | .error (_, st) => st

/-- Append one collaborator call to the log. -/
def emit (e : Event D Obs) (st : Costmap2DROS D β Obs G) : Costmap2DROS D β Obs G :=
  { st with log := st.log ++ [e] }

/-! ## `updateStaticMap` -/

/-- The cast `(unsigned char)` of an `int8` cell value. -/
def castUChar (v : Int) : Nat := (v % 256).toNat

/-- The vector `new_map_data` built by the first loop of `updateStaticMap`:
`numCells = width * height` is an `unsigned int`, and entry `i` is
`(unsigned char) new_map.data[i]`. Reading past the end of `data` is
undefined: `none`. -/
def new_map_data (new_map : OccupancyGrid D) : Option (List Nat) :=
  let numCells := (new_map.info.width * new_map.info.height) % 2 ^ 32
  if numCells ≤ new_map.data.length then
    some ((new_map.data.take numCells).map castUChar)
  else none

/-- The resolution test of `updateStaticMap`:
`fabs(map_resolution - costmap_->getResolution()) > 1e-6`. -/
def resolutionMismatch (W : World D β Obs G) (st : Costmap2DROS D β Obs G)
    (new_map : OccupancyGrid D) : Prop :=
  |new_map.info.resolution - W.grid.getResolution st.costmap_| > 1 / 1000000

instance (W : World D β Obs G) (st : Costmap2DROS D β Obs G) (new_map : OccupancyGrid D) :
    Decidable (resolutionMismatch W st new_map) := by
  unfold resolutionMismatch; exact inferInstance

/-- The orientation test of `updateStaticMap`, as written:
`fabs(x) > 1e-6 && fabs(y) > 1e-6 && fabs(z) > 1e-6
 && (fabs(w) > 1e-6 || fabs(w - 1.0) > 1e-6)`. -/
def orientationRejected (q : Quat D) : Prop :=
  |q.x| > 1 / 1000000 ∧ |q.y| > 1 / 1000000 ∧ |q.z| > 1 / 1000000
    ∧ (|q.w| > 1 / 1000000 ∨ |q.w - 1| > 1 / 1000000)

instance (q : Quat D) : Decidable (orientationRejected q) := by
  unfold orientationRejected; exact inferInstance

/-- The loop of `updateStaticMap` over `observation_buffers_`: each buffer is
handed `setGlobalFrame(new_global_frame)`. -/
def setGlobalFrames (new_global_frame : String) (ptrs : List Nat)
    (st : Costmap2DROS D β Obs G) : Costmap2DROS D β Obs G :=
  ptrs.foldl
    (fun s p =>
      emit (.setGlobalFrame p new_global_frame)
        { s with buffers :=
            Function.update s.buffers p ((s.buffers p).setGlobalFrame new_global_frame) })
    st

/-- `Costmap2DROS::updateStaticMap`. -/
def updateStaticMap (W : World D β Obs G) (new_map : OccupancyGrid D)
    (st : Costmap2DROS D β Obs G) : Outcome D β Obs G :=
  match new_map_data new_map with
  | none => .error (.undefinedBehaviour, st)
  | some data =>
    let map_width := new_map.info.width
    let map_height := new_map.info.height
    let map_origin_x := new_map.info.origin.position.x
    let map_origin_y := new_map.info.origin.position.y
    if resolutionMismatch W st new_map then
      .ok st
    else if orientationRejected new_map.info.origin.orientation then
      .ok st
    else if W.tf.resolve st.tf_prefix_ new_map.frame_id
        ≠ W.tf.resolve st.tf_prefix_ st.global_frame_ then
      let new_global_frame := W.tf.resolve st.tf_prefix_ new_map.frame_id
      let st1 := setGlobalFrames new_global_frame st.observation_buffers_ st
      let st2 := emit (.replaceFullMap map_origin_x map_origin_y map_width map_height data)
        { st1 with costmap_ :=
            (W.grid.replaceFullMap map_origin_x map_origin_y map_width map_height data
              st1.costmap_) }
      .ok { st2 with global_frame_ := new_global_frame }
    else
      .ok (emit (.updateStaticMapWindow map_origin_x map_origin_y map_width map_height data)
        { st with costmap_ :=
            (W.grid.updateStaticMapWindow map_origin_x map_origin_y map_width map_height data
              st.costmap_) })

/-! ## `getRobotPose` -/

/-- `Costmap2DROS::getRobotPose`: the returned flag and the value left in the
out-parameter `global_pose`. The three exceptions are caught; otherwise the
pose is refused when `current_time - stamp > transform_tolerance_`. -/
def getRobotPose (W : World D β Obs G) (st : Costmap2DROS D β Obs G) :
    (Bool × StampedPose D) × Costmap2DROS D β Obs G :=
  let current_time := W.tf.now st.log.length
  let st1 := emit (.transformPose st.global_frame_ st.robot_base_frame_) st
  match W.tf.transformPose st.log.length st.global_frame_ st.robot_base_frame_ with
  | .error _ => ((false, StampedPose.identity), st1)
  | .ok global_pose =>
    if current_time - global_pose.stamp_ > st.transform_tolerance_ then
      ((false, global_pose), st1)
    else
      ((true, global_pose), st1)

/-! ## Observation fusion -/

/-- One pass of the loop body shared by `getMarkingObservations` and
`getClearingObservations`: `getObservations` appends to the caller's vector
and purges the buffer, then `current = buffer->isCurrent() && current`. -/
def readBuffer (W : World D β Obs G)
    (r : (Bool × List Obs) × Costmap2DROS D β Obs G) (p : Nat) :
    (Bool × List Obs) × Costmap2DROS D β Obs G :=
  let s := r.2
  let got := W.buf.getObservations s.log.length (s.buffers p).contents
  let s1 := emit (.getObservations p got.1)
    { s with buffers := Function.update s.buffers p { s.buffers p with contents := got.2 } }
  let cur := W.buf.isCurrent s1.log.length (s1.buffers p).contents
  ((cur && r.1.1, r.1.2 ++ got.1), emit (.isCurrent p cur) s1)

/-- `Costmap2DROS::getMarkingObservations`: the returned flag and the vector
`marking_observations` after the call. -/
def getMarkingObservations (W : World D β Obs G) (marking_observations : List Obs)
    (st : Costmap2DROS D β Obs G) : (Bool × List Obs) × Costmap2DROS D β Obs G :=
  st.marking_buffers_.foldl (readBuffer W) ((true, marking_observations), st)

/-- `Costmap2DROS::getClearingObservations`. -/
def getClearingObservations (W : World D β Obs G) (clearing_observations : List Obs)
    (st : Costmap2DROS D β Obs G) : (Bool × List Obs) × Costmap2DROS D β Obs G :=
  st.clearing_buffers_.foldl (readBuffer W) ((true, clearing_observations), st)

/-! ## Footprint -/

/-- Modelled from the spec: the helper `distance` of the class header (not part
of the source file), the Euclidean "distance to each vertex". -/
def distance (M : MathLib D) (x0 y0 x1 y1 : D) : D :=
  M.sqrt ((x1 - x0) * (x1 - x0) + (y1 - y0) * (y1 - y0))

/-- `Costmap2DROS::distanceToLine`. -/
def distanceToLine (M : MathLib D) (pX pY x0 y0 x1 y1 : D) : D :=
  let A := pX - x0
  let B := pY - y0
  let C := x1 - x0
  let D' := y1 - y0
  let dot := A * C + B * D'
  let len_sq := C * C + D' * D'
  let param := dot / len_sq
  if param < 0 then distance M pX pY x0 y0
  else if param > 1 then distance M pX pY x1 y1
  else distance M pX pY (x0 + param * C) (y0 + param * D')

/-- The body shared by the loop of `computeRadii` and by its closing step, for
the vertex `a` and the edge from `a` to `b`. -/
def radiiStep (M : MathLib D) (acc : D × D) (a b : Point D) : D × D :=
  let vertex_dist := distance M 0 0 a.x a.y
  let edge_dist := distanceToLine M 0 0 a.x a.y b.x b.y
  (min acc.1 (min vertex_dist edge_dist), max acc.2 (max vertex_dist edge_dist))

/-- `Costmap2DROS::computeRadii` on the footprint `footprint_spec_`: the pair
`(min_dist, max_dist)`. On an empty footprint the C++ reads `back()` of an
empty vector: `none`. -/
def computeRadii (M : MathLib D) (footprint_spec_ : List (Point D)) : Option (D × D) :=
  match footprint_spec_ with
  | [] => none
  | first :: rest =>
    let acc := ((first :: rest).zip rest).foldl (fun acc ab => radiiStep M acc ab.1 ab.2)
      (M.DBL_MAX, 0)
    some (radiiStep M acc ((first :: rest).getLast (List.cons_ne_nil first rest)) first)

/-- `Costmap2DROS::getOrientedFootprint(x, y, theta, oriented_footprint)`: the
vector `oriented_footprint` after the call. -/
def getOrientedFootprint (M : MathLib D) (footprint_spec_ : List (Point D)) (x y theta : D)
    (oriented_footprint : List (Point D)) : List (Point D) :=
  let cos_th := M.cos theta
  let sin_th := M.sin theta
  oriented_footprint ++ footprint_spec_.map (fun p =>
    { x := x + (p.x * cos_th - p.y * sin_th), y := y + (p.x * sin_th + p.y * cos_th), z := 0 })

/-- `Costmap2DROS::getOrientedFootprint(oriented_footprint)`, the overload that
resolves the pose itself; nothing is appended when the pose is unavailable. -/
def getOrientedFootprintAtRobot (W : World D β Obs G) (oriented_footprint : List (Point D))
    (st : Costmap2DROS D β Obs G) : List (Point D) × Costmap2DROS D β Obs G :=
  let r := getRobotPose W st
  if r.1.1 then
    let yaw := W.math.getYaw r.1.2.rotation
    (getOrientedFootprint W.math r.2.footprint_spec_ r.1.2.origin.x r.1.2.origin.y yaw
      oriented_footprint, r.2)
  else (oriented_footprint, r.2)

/-- The frames that `updateRobotFootprint` looks up relative to
`/base_footprint`, in the order of the calls. -/
def jointFrames : List String :=
  ["/r_elbow_flex_link", "/l_elbow_flex_link", "/r_wrist_roll_link", "/l_wrist_roll_link",
   "/r_gripper_r_finger_tip_link", "/r_gripper_l_finger_tip_link",
   "/l_gripper_r_finger_tip_link", "/l_gripper_l_finger_tip_link"]

/-- The `try` block of `updateRobotFootprint`: the lookups are made one after
the other and the first exception ends the block. The result is the list of
the translations `jt[i] * origin`. -/
def lookupJoints (W : World D β Obs G) :
    List String → Costmap2DROS D β Obs G →
      Except (TfException × Costmap2DROS D β Obs G) (List (Point D) × Costmap2DROS D β Obs G)
  | [], st => .ok ([], st)
  | f :: fs, st =>
    let st1 := emit (.lookupTransform "/base_footprint" f) st
    match W.tf.lookupTransform st.log.length "/base_footprint" f with
    | .error e => .error (e, st1)
    | .ok p =>
      match lookupJoints W fs st1 with
      | .error x => .error x
      | .ok (ps, st2) => .ok (p :: ps, st2)

/-- The padding of `updateRobotFootprint`:
`if (x < 0.0) x -= PADDING; else x += PADDING;` with `PADDING = 0.1`. -/
def padJoint (c : D) : D := if c < 0 then c - 1 / 10 else c + 1 / 10

/-- The array `jp` of `updateRobotFootprint`: the eight looked up points, then
the two gripper tips, each the average of the two finger tips. -/
def jointPoints (jt : List (Point D)) : List (Point D) :=
  let jp := fun i => jt.getD i ⟨0, 0, 0⟩
  let avg := fun (a b : Point D) =>
    ({ x := a.x / 2 + b.x / 2, y := a.y / 2 + b.y / 2, z := a.z / 2 + b.z / 2 } : Point D)
  jt ++ [avg (jp 4) (jp 5), avg (jp 6) (jp 7)]

/-- The vector `all_pts` of `updateRobotFootprint`: the padded joint points
`jp[i]` for `i` in `0..9` without `3 < i < 8`, `z` dropped, then the vertices
of the base footprint. The C++ holds these points in `float` (`cv::Point2f`);
the narrowing of a `double` is a rounding and is not modelled. -/
def all_pts (jp : List (Point D)) (base_footprint_spec_ : List (Point D)) : List (D × D) :=
  (((List.range 10).filter (fun i => ¬ (i > 3 ∧ i < 8))).map (fun i =>
      (padJoint (jp.getD i ⟨0, 0, 0⟩).x, padJoint (jp.getD i ⟨0, 0, 0⟩).y)))
    ++ base_footprint_spec_.map (fun p => (p.x, p.y))

/-- `Costmap2DROS::updateRobotFootprint`. A `LookupException` is caught and
ends the function; the other exceptions of the listener are not caught. -/
def updateRobotFootprint (W : World D β Obs G) (st : Costmap2DROS D β Obs G) :
    Outcome D β Obs G :=
  match lookupJoints W jointFrames st with
  | .error (.LookupException, st1) => .ok st1
  | .error (e, st1) => .error (.uncaught e, st1)
  | .ok (jt, st1) =>
    let hull_pts := W.math.convexHull (all_pts (jointPoints jt) st1.base_footprint_spec_)
    let st2 := { st1 with footprint_spec_ :=
      (hull_pts.map (fun q => ({ x := q.1, y := q.2, z := 0 } : Point D))) }
    match computeRadii W.math st2.footprint_spec_ with
    | none => .error (.undefinedBehaviour, st2)
    | some radii =>
      .ok (emit (.updateRadii radii.1 radii.2)
        { st2 with costmap_ := W.grid.updateRadii radii.1 radii.2 st2.costmap_ })

/-- The loop of `clearRobotFootprint` that approximates a circular footprint:
`while(angle < 2 * M_PI)` with `angle += step`, the sum rounded to a `double`;
`fuel` bounds the number of passes. -/
def circleFootprint (W : World D β Obs G) (g : G) (x y step : D) :
    Nat → D → List (Point D) → List (Point D)
  | 0, _, acc => acc
  | fuel + 1, angle, acc =>
    if angle < 2 * W.math.M_PI then
      circleFootprint W g x y step fuel (W.fl (angle + step))
        (acc ++ [{ x := W.grid.getInscribedRadius g * W.math.cos angle + x,
                   y := W.grid.getInscribedRadius g * W.math.sin angle + y, z := 0 }])
    else acc

/-- `Costmap2DROS::clearRobotFootprint(global_pose)`. The step of the circle
loop is `double step = 2 * M_PI / 72`, the quotient rounded (`2 * M_PI` is
exact). The number of passes of the loop depends on the rounding of the sums
`angle += step`: 72 passes when the sums are exact, 73 when the rounded sum of
72 steps is still below `2 * M_PI`, as it is in IEEE double arithmetic. The
loop is given the fuel 73: whenever the relative rounding error is at most
1/5402 (it is `2^-53` for a `double`) the test `angle < 2 * M_PI` ends the loop
within 73 passes, so that the fuel does not cut it (`circleFootprint_fuel`),
and the polygon has 72 or 73 vertices (`circleFootprint_length`); with the
rounding of binary64 it has 73 (`Demo.circleFootprint_double`). The call of
`clearNonLethal` leaves its fifth argument `clear_no_info` to the default,
`false`. -/
def clearRobotFootprintAt (W : World D β Obs G) (global_pose : StampedPose D)
    (st : Costmap2DROS D β Obs G) : Outcome D β Obs G :=
  match updateRobotFootprint W st with
  | .error e => .error e
  | .ok st1 =>
    let oriented_footprint :=
      if st1.footprint_spec_.length < 3 then
        circleFootprint W st1.costmap_ global_pose.origin.x global_pose.origin.y
          (W.fl (2 * W.math.M_PI / 72)) 73 0 []
      else
        getOrientedFootprint W.math st1.footprint_spec_ global_pose.origin.x
          global_pose.origin.y (W.math.getYaw global_pose.rotation) []
    let r := W.grid.setConvexPolygonCost oriented_footprint W.grid.FREE_SPACE st1.costmap_
    let st2 := emit (.setConvexPolygonCost oriented_footprint W.grid.FREE_SPACE)
      { st1 with costmap_ := r.2 }
    if !r.1 then .ok st2
    else
      let max_inflation_dist := 2 * (W.grid.getInflationRadius st2.costmap_
        + W.grid.getCircumscribedRadius st2.costmap_)
      let st3 := emit (.clearNonLethal global_pose.origin.x global_pose.origin.y
          max_inflation_dist max_inflation_dist false)
        { st2 with costmap_ := (W.grid.clearNonLethal global_pose.origin.x
            global_pose.origin.y max_inflation_dist max_inflation_dist false st2.costmap_) }
      let size := max_inflation_dist + 2 * W.grid.getInflationRadius st3.costmap_
      .ok (emit (.reinflateWindow global_pose.origin.x global_pose.origin.y size size false)
        { st3 with costmap_ := (W.grid.reinflateWindow global_pose.origin.x
            global_pose.origin.y size size false st3.costmap_) })

/-- `Costmap2DROS::clearRobotFootprint()`. -/
def clearRobotFootprint (W : World D β Obs G) (st : Costmap2DROS D β Obs G) :
    Outcome D β Obs G :=
  let r := getRobotPose W st
  if !r.1.1 then .ok r.2
  else clearRobotFootprintAt W r.1.2 r.2

/-! ## The update cycle -/

/-- The end of `updateMap`, after the footprint is cleared: the debug dump
`saveMap(name_ + ".pgm")`, the update of the publisher with the oriented
footprint and a newly resolved pose, and the voxel grid publication. -/
def exportMap (W : World D β Obs G) (st4 : Costmap2DROS D β Obs G) : Costmap2DROS D β Obs G :=
  let st5 := if st4.save_debug_pgm_ then emit (.saveMap (st4.name_ ++ ".pgm")) st4 else st4
  let st6 :=
    if st5.publisher_active then
      let f := getOrientedFootprintAtRobot W [] st5
      let g := getRobotPose W f.2
      emit (.updateCostmapData f.1 g.1.2) g.2
    else st5
  if st6.publish_voxel_ then emit (.publishVoxelGrid st6.global_frame_) st6 else st6

/-- The grid mutation of `updateMap`, from `current_ = current` to
`updateWorld`: the currency flag is stored, a rolling window is re-centred on
the robot position `(wx, wy)` with `updateOrigin`, and the fused observations
are pushed into the grid with `updateWorld`. -/
def applyObservations (W : World D β Obs G) (wx wy : D) (current : Bool)
    (observations clearing_observations : List Obs) (st : Costmap2DROS D β Obs G) :
    Costmap2DROS D β Obs G :=
  let st1 := { st with current_ := current }
  let st2 :=
    if st1.rolling_window_ then
      let origin_x := wx - W.grid.getSizeInMetersX st1.costmap_ / 2
      let origin_y := wy - W.grid.getSizeInMetersY st1.costmap_ / 2
      emit (.updateOrigin origin_x origin_y)
        { st1 with costmap_ := (W.grid.updateOrigin origin_x origin_y st1.costmap_) }
    else st1
  emit (.updateWorld wx wy observations clearing_observations)
    { st2 with costmap_ :=
        (W.grid.updateWorld wx wy observations clearing_observations st2.costmap_) }

/-- `Costmap2DROS::updateMap`. `current` is `true` when
`current && getMarkingObservations(observations)` is evaluated, so the marking
buffers are always read; `current && getClearingObservations(...)` evaluates
its right operand only when the first call returned `true`. -/
def updateMap (W : World D β Obs G) (st : Costmap2DROS D β Obs G) : Outcome D β Obs G :=
  let r := getRobotPose W st
  if !r.1.1 then .ok r.2
  else
    let wx := r.1.2.origin.x
    let wy := r.1.2.origin.y
    let m := getMarkingObservations W [] r.2
    let c := if m.1.1 then getClearingObservations W [] m.2 else ((false, []), m.2)
    match clearRobotFootprint W (applyObservations W wx wy c.1.1 m.1.2 c.1.2 c.2) with
    | .error e => .error e
    | .ok st4 => .ok (exportMap W st4)

/-! ## Life cycle -/

/-- The loops of `start` and `stop` over `observation_subscribers_`: every
non-null subscriber is subscribed (`active = true`) or unsubscribed. -/
def setSubscriptions (active : Bool) (st : Costmap2DROS D β Obs G) : Costmap2DROS D β Obs G :=
  (List.range st.observation_subscribers_.length).foldl
    (fun s i =>
      match s.observation_subscribers_.getD i none with
      | none => s
      | some _ =>
        emit (if active then .subscribe i else .unsubscribe i)
          { s with observation_subscribers_ :=
              (s.observation_subscribers_.set i (some active)) })
    st

/-- The loop of `start` over `observation_buffers_`: `resetLastUpdated()` on
every buffer. The test `if (observation_buffers_[i])` of the loop always
passes, the list holding no null pointer (see `addObservationBuffer`). -/
def resetBuffers (W : World D β Obs G) (st : Costmap2DROS D β Obs G) :
    Costmap2DROS D β Obs G :=
  st.observation_buffers_.foldl
    (fun s p =>
      emit (.resetLastUpdated p)
        { s with buffers := (Function.update s.buffers p
            { s.buffers p with
              contents := W.buf.resetLastUpdated s.log.length (s.buffers p).contents }) })
    st

/-- `Costmap2DROS::start` up to its last loop: the state in which the caller
starts polling `while(!initialized_) r.sleep();`. The call returns once
`initialized_` is `true`. -/
def start (W : World D β Obs G) (st : Costmap2DROS D β Obs G) : Costmap2DROS D β Obs G :=
  let st1 := if st.stopped_ then { setSubscriptions true st with stopped_ := false } else st
  let st2 := resetBuffers W st1
  { st2 with stop_updates_ := false }

/-- `Costmap2DROS::stop`. -/
def stop (st : Costmap2DROS D β Obs G) : Costmap2DROS D β Obs G :=
  let st1 := { st with stop_updates_ := true }
  let st2 := setSubscriptions false st1
  { st2 with initialized_ := false, stopped_ := true }

/-- The body of the `while` loop of `mapUpdateLoop`, one pass. -/
def mapUpdateLoopBody (W : World D β Obs G) (st : Costmap2DROS D β Obs G) :
    Outcome D β Obs G :=
  if !st.stop_updates_ then
    match updateMap W st with
    | .error e => .error e
    | .ok st1 => .ok { st1 with initialized_ := true }
  else .ok st

/-- The `while` loop of `mapUpdateLoop` run with nothing else in between, for
at most `n` passes (`n` counts how often `nh.ok()` holds). -/
def mapUpdateLoopPasses (W : World D β Obs G) :
    Nat → Costmap2DROS D β Obs G → Outcome D β Obs G
  | 0, st => .ok st
  | n + 1, st =>
    if st.map_update_thread_shutdown_ then .ok st
    else
      match mapUpdateLoopBody W st with
      | .error e => .error e
      | .ok st1 => mapUpdateLoopPasses W n st1

/-- `Costmap2DROS::mapUpdateLoop(frequency)` run with nothing else in between:
a frequency of zero returns before the loop. -/
def mapUpdateLoop (W : World D β Obs G) (frequency : D) (n : Nat)
    (st : Costmap2DROS D β Obs G) : Outcome D β Obs G :=
  if frequency = 0 then .ok st else mapUpdateLoopPasses W n st

/-! ## The worker thread among the foreground calls -/

/-- Where the worker thread stands in `mapUpdateLoop`: before the test of the
frequency, at the head of the loop, inside `if(!stop_updates_)` before the
call of `updateMap()`, after that call and before `initialized_ = true`, or
returned. -/
inductive WorkerPc where
  | entry
  | loopHead
  | callUpdate
  | setInitialized
  | returned
deriving DecidableEq, Repr

/-- The controller together with the position of its worker thread. -/
structure System (D β Obs G : Type) where
  ctrl : Costmap2DROS D β Obs G
  worker : WorkerPc

/-- The outcome of a call on the system: the state after it, or the fault that
ended the process together with the state reached. -/
abbrev SystemOutcome (D β Obs G : Type) := Except (Fault × System D β Obs G) (System D β Obs G)

/-- The state an outcome of the system ends in. -/
def SystemOutcome.state (o : SystemOutcome D β Obs G) : System D β Obs G :=
  match o with
  | .ok sys => sys
  | .error (_, sys) => sys

/-- One step of the worker thread through `mapUpdateLoop(frequency)`, the loop
cut where a foreground call can come in between: the test of the frequency;
the loop condition (`nh_ok` is the answer of `nh.ok()`) with the test of
`stop_updates_`, after which a paused worker sleeps and comes back to the head;
the call of `updateMap()`; the assignment `initialized_ = true`, after which
the worker sleeps and comes back to the head. -/
def workerStep (W : World D β Obs G) (frequency : D) (nh_ok : Bool) (sys : System D β Obs G) :
    SystemOutcome D β Obs G :=
  match sys.worker with
  | .entry =>
    if frequency = 0 then .ok { sys with worker := .returned }
    else .ok { sys with worker := .loopHead }
  | .loopHead =>
    if nh_ok && !sys.ctrl.map_update_thread_shutdown_ then
      if !sys.ctrl.stop_updates_ then .ok { sys with worker := .callUpdate }
      else .ok sys
    else .ok { sys with worker := .returned }
  | .callUpdate =>
    match updateMap W sys.ctrl with
    | .error (f, st) => .error (f, { sys with ctrl := st })
    | .ok st => .ok { ctrl := st, worker := .setInitialized }
  | .setInitialized =>
    .ok { ctrl := { sys.ctrl with initialized_ := true }, worker := .loopHead }
  | .returned => .ok sys

/-- The calls that interleave on one controller: the foreground calls
`start()` (up to its polling loop) and `stop()`, and a step of the worker
thread. -/
inductive Call where
  | start
  | stop
  | worker (nh_ok : Bool)
deriving DecidableEq, Repr

/-- Perform one call. -/
def perform (W : World D β Obs G) (frequency : D) (c : Call) (sys : System D β Obs G) :
    SystemOutcome D β Obs G :=
  match c with
  | .start => .ok { sys with ctrl := start W sys.ctrl }
  | .stop => .ok { sys with ctrl := stop sys.ctrl }
  | .worker nh_ok => workerStep W frequency nh_ok sys

/-- Perform a schedule of calls in order; a fault ends the process. -/
def run (W : World D β Obs G) (frequency : D) :
    List Call → System D β Obs G → SystemOutcome D β Obs G
  | [], sys => .ok sys
  | c :: cs, sys =>
    match perform W frequency c sys with
    | .error e => .error e
    | .ok sys1 => run W frequency cs sys1

/-! ## Foreground calls -/

/-- `Costmap2DROS::addObservationBuffer`: a null pointer is not added. With the
constructor, which pushes newly made buffers, this is the only writer of
`observation_buffers_`, so the list never holds a null pointer and the null
test in the loop of `start` always passes. -/
def addObservationBuffer (buffer : Option Nat) (st : Costmap2DROS D β Obs G) :
    Costmap2DROS D β Obs G :=
  match buffer with
  | none => st
  | some p => { st with observation_buffers_ := st.observation_buffers_ ++ [p] }

/-- The state in which `updateMap` calls `clearRobotFootprint()` when its pose
resolution succeeded: after the buffer reads and the grid mutation. -/
def updateMapWorld (W : World D β Obs G) (st : Costmap2DROS D β Obs G) :
    Costmap2DROS D β Obs G :=
  let r := getRobotPose W st
  let m := getMarkingObservations W [] r.2
  let c := if m.1.1 then getClearingObservations W [] m.2 else ((false, []), m.2)
  applyObservations W r.1.2.origin.x r.1.2.origin.y c.1.1 m.1.2 c.1.2 c.2

/-- `Costmap2DROS::setConvexPolygonCost`: the polygon is written to the grid,
then `updateMap()` is called; the result is the `success` flag of the grid
engine. -/
def setConvexPolygonCost (W : World D β Obs G) (polygon : List (Point D)) (cost_value : Nat)
    (st : Costmap2DROS D β Obs G) :
    Except (Fault × Costmap2DROS D β Obs G) (Bool × Costmap2DROS D β Obs G) :=
  let r := W.grid.setConvexPolygonCost polygon cost_value st.costmap_
  let st1 := emit (.setConvexPolygonCost polygon cost_value) { st with costmap_ := r.2 }
  match updateMap W st1 with
  | .error e => .error e
  | .ok st2 => .ok (r.1, st2)

/-- `Costmap2DROS::resetMapOutsideWindow`: nothing is done without a pose;
otherwise the grid outside the window around the robot is reset and
`updateMap()` is called. -/
def resetMapOutsideWindow (W : World D β Obs G) (size_x size_y : D)
    (st : Costmap2DROS D β Obs G) : Outcome D β Obs G :=
  let r := getRobotPose W st
  if !r.1.1 then .ok r.2
  else
    let wx := r.1.2.origin.x
    let wy := r.1.2.origin.y
    updateMap W (emit (.resetMapOutsideWindow wx wy size_x size_y)
      { r.2 with costmap_ := (W.grid.resetMapOutsideWindow wx wy size_x size_y r.2.costmap_) })

/-! ## Window copies -/

/-- The local variables of `getCostmapWindowCopy` at its call
`costmap.copyCostmapWindow(*costmap_, ll_x, ll_y, size_x, size_y)`. -/
structure CostmapWindow (D : Type) where
  ll_x : D
  ll_y : D
  ur_x : D
  ur_y : D
  size_x : D
  size_y : D
deriving DecidableEq, Repr

/-- `Costmap2DROS::getCostmapWindowCopy(win_center_x, win_center_y, win_size_x,
win_size_y, costmap)`: the window that the function computes and hands to
`copyCostmapWindow`. The function is `const`: the controller is not changed,
and the copy is written to the caller's `costmap`. -/
def getCostmapWindowCopy (W : World D β Obs G)
    (win_center_x win_center_y win_size_x win_size_y : D)
    (st : Costmap2DROS D β Obs G) : CostmapWindow D :=
  let ll_x := min (max (win_center_x - win_size_x) (W.grid.getOriginX st.costmap_))
    (W.grid.getSizeInMetersX st.costmap_)
  let ll_y := min (max (win_center_y - win_size_y) (W.grid.getOriginY st.costmap_))
    (W.grid.getSizeInMetersY st.costmap_)
  let ur_x := min (max (win_center_x + win_size_x) (W.grid.getOriginX st.costmap_))
    (W.grid.getSizeInMetersX st.costmap_)
  let ur_y := min (max (win_center_y + win_size_y) (W.grid.getOriginY st.costmap_))
    (W.grid.getSizeInMetersY st.costmap_)
  let size_x := ur_x - ll_x
  let size_y := ur_y - ll_y
  { ll_x := ll_x, ll_y := ll_y, ur_x := ur_x, ur_y := ur_y, size_x := size_x, size_y := size_y }

end Controller

/-! ## The footprint specification of the parameter server -/

/-- An `XmlRpc::XmlRpcValue`, by its type tag. -/
inductive XmlRpcValue (D : Type) where
  | TypeInvalid
  | TypeBoolean (b : Bool)
  | TypeInt (i : Int)
  | TypeDouble (d : D)
  | TypeString (s : String)
  | TypeDateTime
  | TypeBase64 (bytes : List Nat)
  | TypeArray (items : List (XmlRpcValue D))
  | TypeStruct (members : List (String × XmlRpcValue D))

section FootprintSpec

variable {D : Type} [LinearOrderedField D]

/-- The function `sign` of the source file: `x < 0.0 ? -1.0 : 1.0`. -/
def sign (x : D) : D := if x < 0 then -1 else 1

/-- The number read from one entry of a footprint point:
`point[k].getType() == TypeInt ? (int)(point[k]) : (double)(point[k])`, and
`none` when the entry is neither an integer nor a double. -/
def footprintNumber : XmlRpcValue D → Option D
  | .TypeInt i => some (i : D)
  | .TypeDouble d => some d
  | _ => none

/-- The message of the `std::runtime_error` thrown for a footprint that is not
a list of more than two entries. -/
def footprintListError : String :=
  "The footprint must be specified as list of lists on the parameter server with at least 3 points eg: [[x1, y1], [x2, y2], ..., [xn, yn]]"

/-- The message of the `std::runtime_error` thrown for an entry that is not a
list of two elements. -/
def footprintPointError : String :=
  "The footprint must be specified as list of lists on the parameter server eg: [[x1, y1], [x2, y2], ..., [xn, yn]], but this spec is not of that form"

/-- The message of the `std::runtime_error` thrown for a coordinate that is
not a number. -/
def footprintNumberError : String := "Values in the footprint specification must be numbers"

/-- The body of the loop of `loadRobotFootprint` for the entry `point`: the
entry must be a list of two numbers; each coordinate is padded with
`pt.x += sign(pt.x) * padding`. -/
def loadFootprintPoint (padding : D) (point : XmlRpcValue D) : Except String (Point D) :=
  match point with
  | .TypeArray [p0, p1] =>
    match footprintNumber p0 with
    | none => .error footprintNumberError
    | some x =>
      match footprintNumber p1 with
      | none => .error footprintNumberError
      | some y => .ok { x := x + sign x * padding, y := y + sign y * padding, z := 0 }
  | _ => .error footprintPointError

/-- The loop of `loadRobotFootprint` over the entries of the list; the first
exception ends it. -/
def loadFootprintPoints (padding : D) : List (XmlRpcValue D) → Except String (List (Point D))
  | [] => .ok []
  | point :: rest =>
    match loadFootprintPoint padding point with
    | .error e => .error e
    | .ok pt =>
      match loadFootprintPoints padding rest with
      | .error e => .error e
      | .ok pts => .ok (pt :: pts)

/-- `Costmap2DROS::loadRobotFootprint`. `footprint_padding` is the number that
`node.param` reads when `searchParam("footprint_padding")` finds the parameter
(the padding is 0.01 otherwise), `footprint` is the value of the parameter
`footprint` when `searchParam("footprint")` finds it. The two radius arguments
of the C++ function are not used by it. -/
def loadRobotFootprint (footprint_padding : Option D) (footprint : Option (XmlRpcValue D)) :
    Except String (List (Point D)) :=
  let padding :=
    match footprint_padding with
    | none => 1 / 100
    | some p => p
  match footprint with
  | none => .ok []
  | some footprint_list =>
    match footprint_list with
    | .TypeArray items =>
      if items.length > 2 then loadFootprintPoints padding items
      else .error footprintListError
    | _ => .error footprintListError

/-- The words of the specification for a malformed footprint parameter: the
value is not a list, or it has fewer than 3 entries, or some entry is not a
list of exactly 2 elements, or some coordinate (an element of an entry) is
neither an integer nor a double. -/
def malformedFootprint {D : Type} (footprint_list : XmlRpcValue D) : Prop :=
  (∀ items, footprint_list ≠ .TypeArray items)
    ∨ ∃ items, footprint_list = .TypeArray items
        ∧ (items.length < 3
          ∨ (∃ point ∈ items, ¬ ∃ coords, point = .TypeArray coords ∧ coords.length = 2)
          ∨ ∃ point ∈ items, ∃ coords, point = .TypeArray coords
              ∧ ∃ c ∈ coords, (∀ i, c ≠ .TypeInt i) ∧ ∀ d, c ≠ .TypeDouble d)

end FootprintSpec

/-! ## Reading the log -/

section LogClasses

variable {D β Obs G : Type} [LinearOrderedField D]

/-- A read of an observation buffer: `getObservations` or `isCurrent`. -/
def Event.isBufferRead : Event D Obs → Prop
  | .getObservations _ _ => True
  | .isCurrent _ _ => True
  | _ => False

/-- The grid mutation of an update cycle: `updateOrigin` or `updateWorld`. -/
def Event.isWorldUpdate : Event D Obs → Prop
  | .updateOrigin _ _ => True
  | .updateWorld _ _ _ _ => True
  | _ => False

/-- A lookup of a kinematic transform. -/
def Event.isJointLookup : Event D Obs → Prop
  | .lookupTransform _ _ => True
  | _ => False

/-- A call made by the footprint clearing step `clearRobotFootprint()`: its
own pose resolution, the kinematic lookups and the update of the radii of the
footprint recompute, `setConvexPolygonCost` with the cost `free`, and the two
window calls that follow it. -/
def Event.isFootprintClearing (free : Nat) : Event D Obs → Prop
  | .transformPose _ _ => True
  | .lookupTransform _ _ => True
  | .updateRadii _ _ => True
  | .setConvexPolygonCost _ cost => cost = free
  | .clearNonLethal _ _ _ _ _ => True
  | .reinflateWindow _ _ _ _ _ => True
  | _ => False

/-- A call made by the export at the end of `updateMap`: the debug dump, the
pose resolutions for the publisher, the publications. -/
def Event.isExport : Event D Obs → Prop
  | .transformPose _ _ => True
  | .saveMap _ => True
  | .updateCostmapData _ _ => True
  | .publishVoxelGrid _ => True
  | _ => False

/-- The state `st` after collaborator calls `evs` that left the grid `g`, the
active footprint `f`, the buffer heap `b` and the currency flag `cur`; all
other members are those of `st`. -/
def Costmap2DROS.touch (st : Costmap2DROS D β Obs G) (g : G) (f : List (Point D))
    (b : Nat → ObservationBuffer β) (cur : Bool) (evs : List (Event D Obs)) :
    Costmap2DROS D β Obs G :=
  { st with costmap_ := g, footprint_spec_ := f, buffers := b, current_ := cur,
            log := st.log ++ evs }

/-- The state `st'` is `st` after collaborator calls that all satisfy `P` and
that changed at most the grid and the active footprint. -/
def GridStep (P : Event D Obs → Prop) (st st' : Costmap2DROS D β Obs G) : Prop :=
  ∃ g f evs, st' = st.touch g f st.buffers st.current_ evs ∧ ∀ e ∈ evs, P e

/-- The state `st'` is `st` after further collaborator calls, with the flags
`initialized_`, `stop_updates_` and `map_update_thread_shutdown_` as they
were. -/
def FlagsKept (st st' : Costmap2DROS D β Obs G) : Prop :=
  st'.initialized_ = st.initialized_ ∧ st'.stop_updates_ = st.stop_updates_
    ∧ st'.map_update_thread_shutdown_ = st.map_update_thread_shutdown_
    ∧ ∃ evs, st'.log = st.log ++ evs

/-- The state in the result of `lookupJoints`, reached normally or not. -/
def lookupJointsState
    (r : Except (TfException × Costmap2DROS D β Obs G)
      (List (Point D) × Costmap2DROS D β Obs G)) : Costmap2DROS D β Obs G :=
  match r with
  | .ok (_, st) => st
  | .error (_, st) => st

end LogClasses

/-! ## The contract of the windowed grid update -/

section Contract

variable {D G Obs : Type} [LinearOrderedField D]

/-- The cell `(mx, my)` of the grid `g` lies outside the window of `w × h`
cells whose lower left corner is `(ox, oy)` in world coordinates: the square of
the cell and the rectangle of the window have no interior point in common. -/
def cellOutsideWindow (E : GridEngine D G Obs) (g : G) (ox oy : D) (w h : Nat)
    (mx my : Nat) : Prop :=
  let res := E.getResolution g
  let cx := E.getOriginX g + mx * res
  let cy := E.getOriginY g + my * res
  cx + res ≤ ox ∨ ox + w * res ≤ cx ∨ cy + res ≤ oy ∨ oy + h * res ≤ cy

instance (E : GridEngine D G Obs) (g : G) (ox oy : D) (w h mx my : Nat) :
    Decidable (cellOutsideWindow E g ox oy w h mx my) := by
  unfold cellOutsideWindow; exact inferInstance

/-- Modelled from the spec: `Costmap2D::updateStaticMapWindow` (the grid engine
is not part of the controller's source file) is to "overwrite only the
snapshot's footprint of cells, leaving any out-of-snapshot region of the live
grid unchanged": the cost of every cell outside the window is what it was. -/
def WindowedUpdateContract (E : GridEngine D G Obs) : Prop :=
  ∀ (g : G) (ox oy : D) (w h : Nat) (data : List Nat) (mx my : Nat),
    cellOutsideWindow E g ox oy w h mx my →
      E.getCost (E.updateStaticMapWindow ox oy w h data g) mx my = E.getCost g mx my

end Contract

/-! ## Convex polygons -/

section Polygon

variable {D : Type} [LinearOrderedField D]

/-- The vertex number `i` of the closed polygon `footprint_spec_`, counted
cyclically: the vertex after the last one is the first. -/
def vertexAt (footprint_spec_ : List (Point D)) (i : Nat) : Point D :=
  footprint_spec_.getD (i % footprint_spec_.length) ⟨0, 0, 0⟩

/-- The edges of the closed polygon in the order in which `computeRadii` visits
them: from each vertex to the next, the last edge from the last vertex to the
first. -/
def polygonEdges (footprint_spec_ : List (Point D)) : List (Point D × Point D) :=
  (List.range footprint_spec_.length).map
    (fun i => (vertexAt footprint_spec_ i, vertexAt footprint_spec_ (i + 1)))

/-- Twice the signed area of the triangle `o a b` in the plane: positive when
`b` lies to the left of the directed line from `o` to `a`. -/
def turn (o a b : Point D) : D :=
  (a.x - o.x) * (b.y - o.y) - (a.y - o.y) * (b.x - o.x)

/-- The point `(x, y)` lies in the closed region bounded by the polygon: on
the inner side of the line of every edge, which is the left side for
`s = 1` (vertices in counter-clockwise order) and the right side for
`s = -1` (clockwise order). -/
def insidePolygon (s : D) (footprint_spec_ : List (Point D)) (x y : D) : Prop :=
  ∀ i < footprint_spec_.length,
    0 ≤ s * turn (vertexAt footprint_spec_ i) (vertexAt footprint_spec_ (i + 1)) ⟨x, y, 0⟩

/-- The polygon is convex with its vertices in the order given by `s`: every
vertex lies on the inner side of the line of every edge, and the boundary
makes a proper turn at every vertex (no three consecutive vertices on a
line). -/
def convexPolygon (s : D) (footprint_spec_ : List (Point D)) : Prop :=
  (∀ i < footprint_spec_.length, ∀ j < footprint_spec_.length,
      0 ≤ s * turn (vertexAt footprint_spec_ i) (vertexAt footprint_spec_ (i + 1))
        (vertexAt footprint_spec_ j))
    ∧ ∀ i < footprint_spec_.length,
      0 < s * turn (vertexAt footprint_spec_ i) (vertexAt footprint_spec_ (i + 1))
        (vertexAt footprint_spec_ (i + 2))

/-- The point `(x, y)` lies on the boundary of the polygon: on the edge from
some vertex to the next one, the closing edge from the last vertex to the
first included. -/
def onBoundary (footprint_spec_ : List (Point D)) (x y : D) : Prop :=
  ∃ i < footprint_spec_.length, ∃ t, 0 ≤ t ∧ t ≤ 1
    ∧ x = (vertexAt footprint_spec_ i).x
        + t * ((vertexAt footprint_spec_ (i + 1)).x - (vertexAt footprint_spec_ i).x)
    ∧ y = (vertexAt footprint_spec_ i).y
        + t * ((vertexAt footprint_spec_ (i + 1)).y - (vertexAt footprint_spec_ i).y)

/-- The point `(x, y)` lies inside the footprint: in the filled polygon, the
convex hull of the planar vertices of `footprint_spec_`. -/
def insideFootprint (footprint_spec_ : List (Point D)) (x y : D) : Prop :=
  (x, y) ∈ convexHull D {q : D × D | ∃ v ∈ footprint_spec_, q = (v.x, v.y)}

/-- What `cv::convexHull(points, hull)` promises for its output `hull_pts` on
the input `pts`: the output points are input points, and they span the same
convex hull as the input. -/
def isConvexHullOf (hull_pts pts : List (D × D)) : Prop :=
  (∀ q ∈ hull_pts, q ∈ pts)
    ∧ convexHull D {q : D × D | q ∈ hull_pts} = convexHull D {q : D × D | q ∈ pts}

end Polygon

/-! ## A concrete world

Small collaborators over the rationals, used to evaluate the model on concrete
inputs. -/

namespace Demo

/-- The state of a small grid engine. -/
structure Grid where
  origin_x : ℚ
  origin_y : ℚ
  resolution : ℚ
  size_x : Nat
  size_y : Nat
  inscribed : ℚ
  circumscribed : ℚ
  inflation : ℚ
  cost : Nat → Nat → Nat

/-- A small grid engine: the static map operations copy cell values, the
sensor update marks the cell under the robot with the number of marking
observations, polygon costs are written to the cell of the first vertex. -/
def engine : GridEngine ℚ Grid Nat where
  FREE_SPACE := 0
  getResolution g := g.resolution
  getOriginX g := g.origin_x
  getOriginY g := g.origin_y
  getSizeInMetersX g := g.size_x * g.resolution
  getSizeInMetersY g := g.size_y * g.resolution
  getCost g mx my := g.cost mx my
  getInscribedRadius g := g.inscribed
  getCircumscribedRadius g := g.circumscribed
  getInflationRadius g := g.inflation
  replaceFullMap ox oy w h data g :=
    { g with origin_x := ox, origin_y := oy, size_x := w, size_y := h,
             cost := fun mx my => data.getD (my * w + mx) 0 }
  updateStaticMapWindow ox oy w h data g :=
    { g with cost := (fun mx my =>
        if g.origin_x + mx * g.resolution + g.resolution ≤ ox
            ∨ ox + w * g.resolution ≤ g.origin_x + mx * g.resolution
            ∨ g.origin_y + my * g.resolution + g.resolution ≤ oy
            ∨ oy + h * g.resolution ≤ g.origin_y + my * g.resolution then
          g.cost mx my
        else
          data.getD
            (⌊(g.origin_y + my * g.resolution - oy) / g.resolution + 1 / 2⌋.toNat * w
              + ⌊(g.origin_x + mx * g.resolution - ox) / g.resolution + 1 / 2⌋.toNat) 0) }
  updateOrigin x y g := { g with origin_x := x, origin_y := y }
  updateWorld wx wy marking _ g :=
    { g with cost := (fun mx my =>
        if mx = ⌊(wx - g.origin_x) / g.resolution⌋.toNat
            ∧ my = ⌊(wy - g.origin_y) / g.resolution⌋.toNat then
          marking.length
        else g.cost mx my) }
  updateRadii i c g := { g with inscribed := i, circumscribed := c }
  setConvexPolygonCost polygon c g :=
    match polygon with
    | [] => (false, g)
    | p :: _ =>
      (true, { g with cost := (fun mx my =>
        if mx = ⌊(p.x - g.origin_x) / g.resolution⌋.toNat
            ∧ my = ⌊(p.y - g.origin_y) / g.resolution⌋.toNat then c
        else g.cost mx my) })
  clearNonLethal _ _ _ _ _ g := g
  reinflateWindow _ _ _ _ _ g := g
  resetMapOutsideWindow _ _ _ _ g := g

/-- The contents of a small observation buffer: the queued observations and
whether the source is live. -/
structure Queue where
  observations : List Nat
  live : Bool
deriving DecidableEq, Repr

/-- A small buffer implementation: nothing expires. -/
def bufferOps : BufferOps Queue Nat where
  getObservations _ q := (q.observations, q)
  isCurrent _ q := q.live
  resetLastUpdated _ q := { q with live := true }

/-- Frame resolution in the manner of `tf::resolve`: a frame id that starts
with a slash is kept, any other is put under the prefix. -/
def resolve (pfx frame : String) : String :=
  match frame.data with
  | '/' :: _ => frame
  | _ =>
    match pfx.data with
    | [] => "/" ++ frame
    | '/' :: _ => pfx ++ "/" ++ frame
    | _ => "/" ++ pfx ++ "/" ++ frame

/-- A listener given by its answers; the wall clock reads `t / 10` seconds at
the logical instant `t`. -/
def listener (poses : Nat → Except TfException (StampedPose ℚ))
    (joints : Nat → String → Except TfException (Point ℚ)) : TransformListener ℚ where
  resolve := resolve
  now t := (t : ℚ) / 10
  transformPose t _ _ := poses t
  lookupTransform t _ source := joints t source

/-- Twice the signed area of the triangle `o a b`. -/
def cross (o a b : ℚ × ℚ) : ℚ :=
  (a.1 - o.1) * (b.2 - o.2) - (a.2 - o.2) * (b.1 - o.1)

/-- Push a point on a hull chain (last point first), dropping the points that
would make a clockwise or straight turn. -/
def pushHull (p : ℚ × ℚ) : List (ℚ × ℚ) → List (ℚ × ℚ)
  | [] => [p]
  | b :: rest =>
    match rest with
    | [] => [p, b]
    | a :: _ => if cross a b p ≤ 0 then pushHull p rest else p :: b :: rest

/-- The convex hull by the monotone chain method. -/
def convexHull (pts : List (ℚ × ℚ)) : List (ℚ × ℚ) :=
  let sorted := pts.insertionSort (fun a b => a.1 < b.1 ∨ (a.1 = b.1 ∧ a.2 ≤ b.2))
  let lower := sorted.foldl (fun hull p => pushHull p hull) []
  let upper := sorted.reverse.foldl (fun hull p => pushHull p hull) []
  lower.tail.reverse ++ upper.tail.reverse

/-- Rational stand-ins for the numeric library: the square root truncated to
three decimals, Taylor polynomials for cosine and sine, the small angle yaw. -/
def mathLib : MathLib ℚ where
  sqrt x := (Nat.sqrt ⌊x * 1000000⌋.toNat : ℚ) / 1000
  cos x := 1 - x ^ 2 / 2 + x ^ 4 / 24
  sin x := x - x ^ 3 / 6 + x ^ 5 / 120
  getYaw q := 2 * (q.w * q.z + q.x * q.y)
  M_PI := 355 / 113
  DBL_MAX := 10 ^ 308
  convexHull := convexHull

/-- The world made of the small collaborators and a listener; the rational
numbers are not rounded. -/
def world (poses : Nat → Except TfException (StampedPose ℚ))
    (joints : Nat → String → Except TfException (Point ℚ)) :
    World ℚ Queue Nat Grid where
  tf := listener poses joints
  buf := bufferOps
  grid := engine
  math := mathLib
  fl := id

/-- A pose at `(1, 1)` without rotation, stamped `stamp`. -/
def poseAt (stamp : ℚ) : StampedPose ℚ :=
  { origin := ⟨1, 1, 0⟩, rotation := ⟨0, 0, 0, 1⟩, stamp_ := stamp }

/-- A listener that always has a fresh pose. -/
def freshPoses (t : Nat) : Except TfException (StampedPose ℚ) := .ok (poseAt ((t : ℚ) / 10))

/-- A listener whose pose is always 0.3 s old, the default tolerance. -/
def agedPoses (t : Nat) : Except TfException (StampedPose ℚ) :=
  .ok (poseAt ((t : ℚ) / 10 - 3 / 10))

/-- A listener whose transform publisher has stalled: the pose is always the
one stamped 0. -/
def stalledPoses (_ : Nat) : Except TfException (StampedPose ℚ) := .ok (poseAt 0)

/-- A listener without any transform path. -/
def noPoses (_ : Nat) : Except TfException (StampedPose ℚ) := .error .LookupException

/-- A robot base without arm links: every joint lookup fails. -/
def noJoints (_ : Nat) (_ : String) : Except TfException (Point ℚ) := .error .LookupException

/-- A grid of 4 × 4 cells of 5 cm with origin `(0, 0)`, all free. -/
def grid0 : Grid :=
  { origin_x := 0, origin_y := 0, resolution := 1 / 20, size_x := 4, size_y := 4,
    inscribed := 1 / 4, circumscribed := 1 / 2, inflation := 11 / 20, cost := fun _ _ => 0 }

/-- A square footprint of half-width 1/4. -/
def square : List (Point ℚ) :=
  [⟨1 / 4, 1 / 4, 0⟩, ⟨-1 / 4, 1 / 4, 0⟩, ⟨-1 / 4, -1 / 4, 0⟩, ⟨1 / 4, -1 / 4, 0⟩]

/-- A running controller in frame `/map` with two buffers: buffer 0 marks and
clears, buffer 1 clears only. -/
def controller : Costmap2DROS ℚ Queue Nat Grid where
  name_ := "local_costmap"
  costmap_ := grid0
  global_frame_ := "/map"
  robot_base_frame_ := "/base_link"
  tf_prefix_ := ""
  transform_tolerance_ := 3 / 10
  rolling_window_ := true
  save_debug_pgm_ := false
  publish_voxel_ := false
  publisher_active := false
  stop_updates_ := false
  initialized_ := true
  stopped_ := false
  current_ := true
  map_update_thread_shutdown_ := false
  footprint_spec_ := square
  base_footprint_spec_ := square
  buffers := fun p =>
    if p = 0 then ⟨"/map", ⟨[11, 12], true⟩⟩ else ⟨"/map", ⟨[21], true⟩⟩
  observation_buffers_ := [0, 1]
  marking_buffers_ := [0]
  clearing_buffers_ := [0, 1]
  observation_subscribers_ := [some true, some true]
  log := []

/-- The controller with a marking source that has gone stale: buffer 0, which
marks and clears, is not current; buffer 1, which only clears, is current and
holds the observation 21. -/
def staleController : Costmap2DROS ℚ Queue Nat Grid :=
  { controller with
    buffers := fun p =>
      if p = 0 then ⟨"/map", ⟨[11, 12], false⟩⟩ else ⟨"/map", ⟨[21], true⟩⟩ }

/-- A 2 × 2 snapshot of 5 cm cells at the origin, reported in `frame`, with
the origin orientation `q`. -/
def snapshot (frame : String) (resolution : ℚ) (q : Quat ℚ) : OccupancyGrid ℚ :=
  { frame_id := frame,
    info := { resolution := resolution, width := 2, height := 2,
              origin := { position := ⟨0, 0, 0⟩, orientation := q } },
    data := [0, 100, -1, 0] }

/-- A robot with two arms stretched forward: the answers of the listener for
the eight links that `updateRobotFootprint` looks up; any other frame is
unknown. -/
def armJoints (_ : Nat) (frame : String) : Except TfException (Point ℚ) :=
  if frame = "/r_elbow_flex_link" then .ok ⟨0, -1 / 10, 4 / 5⟩
  else if frame = "/l_elbow_flex_link" then .ok ⟨0, 1 / 10, 4 / 5⟩
  else if frame = "/r_wrist_roll_link" then .ok ⟨1 / 2, -1 / 10, 4 / 5⟩
  else if frame = "/l_wrist_roll_link" then .ok ⟨1 / 2, 1 / 10, 4 / 5⟩
  else if frame = "/r_gripper_r_finger_tip_link" then .ok ⟨13 / 20, -1 / 5, 4 / 5⟩
  else if frame = "/r_gripper_l_finger_tip_link" then .ok ⟨13 / 20, -1 / 10, 4 / 5⟩
  else if frame = "/l_gripper_r_finger_tip_link" then .ok ⟨13 / 20, 1 / 10, 4 / 5⟩
  else if frame = "/l_gripper_l_finger_tip_link" then .ok ⟨13 / 20, 1 / 5, 4 / 5⟩
  else .error .LookupException

/-- The grid `grid0` after the rolling window has moved its origin to
`(1, 1)`: the grid covers `[1, 1.2] × [1, 1.2]`. -/
def rolledGrid : Grid := { grid0 with origin_x := 1, origin_y := 1 }

/-- The controller on the grid `rolledGrid`. -/
def rolledController : Costmap2DROS ℚ Queue Nat Grid := { controller with costmap_ := rolledGrid }

/-- The rounding of IEEE binary64 arithmetic in the normal range: the number
with 53 significant bits that is nearest to `x`, the one with an even last bit
when two are equally near. The range of the exponent is not bounded. -/
def roundToDouble (x : ℚ) : ℚ :=
  if x = 0 then 0
  else
    let q : ℚ := 2 ^ (Int.log 2 |x| - 52)
    let n := |x| / q
    let f := ⌊n⌋
    let N := if n - f < 1 / 2 then f else if 1 / 2 < n - f then f + 1
      else if f % 2 = 0 then f else f + 1
    (if x < 0 then -1 else 1) * (N : ℚ) * q

/-- The constant `M_PI` of `math.h`, `3.14159265358979323846`, as a `double`:
`0x400921FB54442D18`. -/
def M_PI : ℚ := 884279719003555 / 281474976710656

/-- The world of the small collaborators in which a `double` is rounded as the
machine does it. -/
def doubleWorld (poses : Nat → Except TfException (StampedPose ℚ))
    (joints : Nat → String → Except TfException (Point ℚ)) :
    World ℚ Queue Nat Grid :=
  { world poses joints with math := { mathLib with M_PI := M_PI }, fl := roundToDouble }

/-- The values of `angle` at the tests `angle < 2 * M_PI` of the circle loop of
`clearRobotFootprint` in binary64 arithmetic, in units of `2^-56`. -/
def doubleAngles : List ℕ :=
  [0, 6288211335136391, 12576422670272782, 18864634005409172,
   25152845340545564, 31441056675681956, 37729268010818344, 44017479345954736,
   50305690681091128, 56593902016227520, 62882113351363912, 69170324686500304,
   75458536021636688, 81746747356773072, 88034958691909456, 94323170027045840,
   100611381362182224, 106899592697318608, 113187804032454992, 119476015367591376,
   125764226702727760, 132052438037864144, 138340649373000528, 144628860708136928,
   150917072043273312, 157205283378409696, 163493494713546080, 169781706048682464,
   176069917383818848, 182358128718955232, 188646340054091616, 194934551389228000,
   201222762724364384, 207510974059500768, 213799185394637152, 220087396729773536,
   226375608064909920, 232663819400046304, 238952030735182688, 245240242070319072,
   251528453405455456, 257816664740591840, 264104876075728224, 270393087410864608,
   276681298746000992, 282969510081137376, 289257721416273792, 295545932751410176,
   301834144086546560, 308122355421682944, 314410566756819328, 320698778091955712,
   326986989427092096, 333275200762228480, 339563412097364864, 345851623432501248,
   352139834767637632, 358428046102774016, 364716257437910400, 371004468773046784,
   377292680108183168, 383580891443319552, 389869102778455936, 396157314113592320,
   402445525448728704, 408733736783865088, 415021948119001472, 421310159454137856,
   427598370789274240, 433886582124410624, 440174793459547008, 446463004794683392,
   452751216129819776, 459039427464956160]

end Demo

/-! ## Lemmas on `updateStaticMap` -/

section StaticMapLemmas

set_option linter.unusedSectionVars false

variable {D β Obs G : Type} [LinearOrderedField D]

theorem new_map_data_of_wellFormed (new_map : OccupancyGrid D) (hwf : new_map.wellFormed) :
    new_map_data new_map = some (new_map.data.map castUChar) := by
  obtain ⟨hlen, hlt⟩ := hwf
  unfold new_map_data
  simp only [Nat.mod_eq_of_lt hlt]
  rw [← hlen]
  simp

theorem setGlobalFrames_log (f : String) (ptrs : List Nat) (st : Costmap2DROS D β Obs G) :
    (setGlobalFrames f ptrs st).log = st.log ++ ptrs.map (fun p => Event.setGlobalFrame p f) := by
  induction ptrs generalizing st with
  | nil => simp [setGlobalFrames]
  | cons p ps ih =>
    have h := ih (emit (.setGlobalFrame p f)
      { st with buffers := Function.update st.buffers p ((st.buffers p).setGlobalFrame f) })
    simp only [setGlobalFrames, List.foldl_cons] at h ⊢
    rw [h]
    simp [emit]

theorem setGlobalFrames_frame (f : String) (ptrs : List Nat) (st : Costmap2DROS D β Obs G)
    (p : Nat) :
    ((setGlobalFrames f ptrs st).buffers p).global_frame_
      = if p ∈ ptrs then f else (st.buffers p).global_frame_ := by
  induction ptrs generalizing st with
  | nil => simp [setGlobalFrames]
  | cons q qs ih =>
    have h := ih (emit (.setGlobalFrame q f)
      { st with buffers := Function.update st.buffers q ((st.buffers q).setGlobalFrame f) })
    simp only [setGlobalFrames, List.foldl_cons] at h ⊢
    rw [h]
    by_cases hq : p ∈ qs
    · simp [hq]
    · by_cases hpq : p = q
      · subst hpq
        simp [hq, emit, ObservationBuffer.setGlobalFrame]
      · simp [hq, hpq, emit, Function.update_noteq hpq]

theorem setGlobalFrames_contents (f : String) (ptrs : List Nat) (st : Costmap2DROS D β Obs G)
    (p : Nat) :
    ((setGlobalFrames f ptrs st).buffers p).contents = (st.buffers p).contents := by
  induction ptrs generalizing st with
  | nil => simp [setGlobalFrames]
  | cons q qs ih =>
    have h := ih (emit (.setGlobalFrame q f)
      { st with buffers := Function.update st.buffers q ((st.buffers q).setGlobalFrame f) })
    simp only [setGlobalFrames, List.foldl_cons] at h ⊢
    rw [h]
    by_cases hpq : p = q
    · subst hpq
      simp [emit, ObservationBuffer.setGlobalFrame]
    · simp [emit, Function.update_noteq hpq]

theorem setGlobalFrames_costmap (f : String) (ptrs : List Nat) (st : Costmap2DROS D β Obs G) :
    (setGlobalFrames f ptrs st).costmap_ = st.costmap_ := by
  induction ptrs generalizing st with
  | nil => simp [setGlobalFrames]
  | cons q qs ih =>
    have h := ih (emit (.setGlobalFrame q f)
      { st with buffers := Function.update st.buffers q ((st.buffers q).setGlobalFrame f) })
    simp only [setGlobalFrames, List.foldl_cons] at h ⊢
    rw [h]
    simp [emit]

theorem setGlobalFrames_tf_prefix (f : String) (ptrs : List Nat)
    (st : Costmap2DROS D β Obs G) :
    (setGlobalFrames f ptrs st).tf_prefix_ = st.tf_prefix_ := by
  induction ptrs generalizing st with
  | nil => rfl
  | cons q qs ih =>
    have h := ih (emit (.setGlobalFrame q f)
      { st with buffers := Function.update st.buffers q ((st.buffers q).setGlobalFrame f) })
    simp only [setGlobalFrames, List.foldl_cons] at h ⊢
    rw [h]
    rfl

theorem updateStaticMap_global_frame_resolved (W : World D β Obs G)
    (st : Costmap2DROS D β Obs G) (new_map : OccupancyGrid D)
    (hidem : ∀ pfx f, W.tf.resolve pfx (W.tf.resolve pfx f) = W.tf.resolve pfx f)
    (hgf : W.tf.resolve st.tf_prefix_ st.global_frame_ = st.global_frame_) :
    W.tf.resolve (updateStaticMap W new_map st).state.tf_prefix_
        (updateStaticMap W new_map st).state.global_frame_
      = (updateStaticMap W new_map st).state.global_frame_ := by
  have hpfx : ∀ f ptrs, (setGlobalFrames f ptrs st).tf_prefix_ = st.tf_prefix_ :=
    fun f ptrs => setGlobalFrames_tf_prefix f ptrs st
  unfold updateStaticMap
  cases new_map_data new_map with
  | none => exact hgf
  | some data =>
    dsimp only
    split
    · exact hgf
    · split
      · exact hgf
      · split
        · simp only [Outcome.state, emit, hpfx]
          exact hidem _ _
        · exact hgf

theorem updateStaticMap_of_resolutionMismatch (W : World D β Obs G)
    (st : Costmap2DROS D β Obs G) (new_map : OccupancyGrid D) (hwf : new_map.wellFormed)
    (hres : resolutionMismatch W st new_map) : updateStaticMap W new_map st = .ok st := by
  unfold updateStaticMap
  rw [new_map_data_of_wellFormed new_map hwf]
  simp only [if_pos hres]

theorem updateStaticMap_of_new_frame (W : World D β Obs G) (st : Costmap2DROS D β Obs G)
    (new_map : OccupancyGrid D) (hwf : new_map.wellFormed)
    (hres : ¬ resolutionMismatch W st new_map)
    (hori : ¬ orientationRejected new_map.info.origin.orientation)
    (hne : W.tf.resolve st.tf_prefix_ new_map.frame_id
      ≠ W.tf.resolve st.tf_prefix_ st.global_frame_) :
    updateStaticMap W new_map st
      = .ok { emit (.replaceFullMap new_map.info.origin.position.x
                new_map.info.origin.position.y new_map.info.width new_map.info.height
                (new_map.data.map castUChar))
              { setGlobalFrames (W.tf.resolve st.tf_prefix_ new_map.frame_id)
                  st.observation_buffers_ st with
                costmap_ := (W.grid.replaceFullMap new_map.info.origin.position.x
                  new_map.info.origin.position.y new_map.info.width new_map.info.height
                  (new_map.data.map castUChar)
                  (setGlobalFrames (W.tf.resolve st.tf_prefix_ new_map.frame_id)
                    st.observation_buffers_ st).costmap_) } with
              global_frame_ := W.tf.resolve st.tf_prefix_ new_map.frame_id } := by
  unfold updateStaticMap
  rw [new_map_data_of_wellFormed new_map hwf]
  simp only [if_neg hres, if_neg hori, if_pos hne]

theorem updateStaticMap_of_same_frame (W : World D β Obs G) (st : Costmap2DROS D β Obs G)
    (new_map : OccupancyGrid D) (hwf : new_map.wellFormed)
    (hres : ¬ resolutionMismatch W st new_map)
    (hori : ¬ orientationRejected new_map.info.origin.orientation)
    (heq : W.tf.resolve st.tf_prefix_ new_map.frame_id
      = W.tf.resolve st.tf_prefix_ st.global_frame_) :
    updateStaticMap W new_map st
      = .ok (emit (.updateStaticMapWindow new_map.info.origin.position.x
                new_map.info.origin.position.y new_map.info.width new_map.info.height
                (new_map.data.map castUChar))
              { st with costmap_ := (W.grid.updateStaticMapWindow
                  new_map.info.origin.position.x new_map.info.origin.position.y
                  new_map.info.width new_map.info.height (new_map.data.map castUChar)
                  st.costmap_) }) := by
  unfold updateStaticMap
  rw [new_map_data_of_wellFormed new_map hwf]
  simp only [if_neg hres, if_neg hori, heq, ne_eq, not_true_eq_false, if_false]

theorem Demo.engine_windowedUpdateContract : WindowedUpdateContract Demo.engine := by
  intro g ox oy w h data mx my hout
  simp only [cellOutsideWindow, Demo.engine] at hout
  simp only [Demo.engine, if_pos hout]

end StaticMapLemmas

/-! ## Static map reconciliation: C1 to C4 -/

section StaticMap

variable {D β Obs G : Type} [LinearOrderedField D]

/-- C1: a snapshot that passes the resolution and the orientation test and
whose resolved frame id differs from the (resolved) current global frame makes
`updateStaticMap` hand `setGlobalFrame(new frame)` to every observation buffer,
so that each records the new frame, then replace the whole grid with
`replaceFullMap` on the origin, width, height and cells of the snapshot, with
no windowed update, and adopt the new frame as `global_frame_`. -/
theorem updateStaticMap_frame_change (W : World D β Obs G) (st : Costmap2DROS D β Obs G)
    (new_map : OccupancyGrid D) (hwf : new_map.wellFormed)
    (hres : ¬ resolutionMismatch W st new_map)
    (hori : ¬ orientationRejected new_map.info.origin.orientation)
    (hne : W.tf.resolve st.tf_prefix_ new_map.frame_id
      ≠ W.tf.resolve st.tf_prefix_ st.global_frame_) :
    ∃ st', updateStaticMap W new_map st = .ok st'
      ∧ (∀ p ∈ st.observation_buffers_,
          (st'.buffers p).global_frame_ = W.tf.resolve st.tf_prefix_ new_map.frame_id)
      ∧ st'.costmap_ = W.grid.replaceFullMap new_map.info.origin.position.x
          new_map.info.origin.position.y new_map.info.width new_map.info.height
          (new_map.data.map castUChar) st.costmap_
      ∧ st'.log = st.log
          ++ st.observation_buffers_.map (fun p =>
              Event.setGlobalFrame p (W.tf.resolve st.tf_prefix_ new_map.frame_id))
          ++ [Event.replaceFullMap new_map.info.origin.position.x
              new_map.info.origin.position.y new_map.info.width new_map.info.height
              (new_map.data.map castUChar)]
      ∧ (∀ ox oy w h d, Event.updateStaticMapWindow ox oy w h d ∉ st'.log.drop st.log.length)
      ∧ st'.global_frame_ = W.tf.resolve st.tf_prefix_ new_map.frame_id := by
  refine ⟨_, updateStaticMap_of_new_frame W st new_map hwf hres hori hne, ?_, ?_, ?_, ?_, rfl⟩
  · intro p hp
    simp [emit, setGlobalFrames_frame, hp]
  · simp [emit, setGlobalFrames_costmap]
  · simp [emit, setGlobalFrames_log]
  · intro ox oy w h d
    simp [emit, setGlobalFrames_log]

/-- C1, on a concrete input: the controller in frame `/map` receives a valid
snapshot reported in `/odom`. -/
theorem updateStaticMap_frame_change_witness :
    ∃ st', updateStaticMap (Demo.world Demo.freshPoses Demo.noJoints)
        (Demo.snapshot "/odom" (1 / 20) ⟨0, 0, 0, 1⟩) Demo.controller = .ok st'
      ∧ (st'.buffers 0).global_frame_ = "/odom" ∧ (st'.buffers 1).global_frame_ = "/odom"
      ∧ st'.log = [Event.setGlobalFrame 0 "/odom", Event.setGlobalFrame 1 "/odom",
          Event.replaceFullMap 0 0 2 2 [0, 100, 255, 0]]
      ∧ st'.global_frame_ = "/odom" := by
  obtain ⟨st', h, hb, -, hl, -, hg⟩ :=
    updateStaticMap_frame_change (Demo.world Demo.freshPoses Demo.noJoints) Demo.controller
      (Demo.snapshot "/odom" (1 / 20) ⟨0, 0, 0, 1⟩) (by decide)
      (by simp [resolutionMismatch, Demo.world, Demo.engine, Demo.controller, Demo.grid0,
            Demo.snapshot])
      (by simp [orientationRejected, Demo.snapshot])
      (by decide)
  have hr : Demo.resolve "" "/odom" = "/odom" := by decide
  refine ⟨st', h, ?_, ?_, ?_, ?_⟩
  · simpa [Demo.world, Demo.listener, Demo.controller, Demo.snapshot, hr] using
      hb 0 (by simp [Demo.controller])
  · simpa [Demo.world, Demo.listener, Demo.controller, Demo.snapshot, hr] using
      hb 1 (by simp [Demo.controller])
  · simpa [Demo.world, Demo.listener, Demo.controller, Demo.snapshot, hr, castUChar] using hl
  · simpa [Demo.world, Demo.listener, Demo.controller, Demo.snapshot, hr] using hg

/-- C2: a snapshot that passes the resolution and the orientation test and
whose resolved frame id equals the (resolved) current global frame makes
`updateStaticMap` perform exactly one grid call, `updateStaticMapWindow` on the
origin, width and height of the snapshot itself, and no full replacement; the
global frame id and every observation buffer are left as they were; and, the
windowed update of the engine keeping to its window, no cell outside the
bounds of the snapshot changes its cost. -/
theorem updateStaticMap_same_frame (W : World D β Obs G) (st : Costmap2DROS D β Obs G)
    (new_map : OccupancyGrid D) (hwf : new_map.wellFormed)
    (hres : ¬ resolutionMismatch W st new_map)
    (hori : ¬ orientationRejected new_map.info.origin.orientation)
    (heq : W.tf.resolve st.tf_prefix_ new_map.frame_id
      = W.tf.resolve st.tf_prefix_ st.global_frame_)
    (hwin : WindowedUpdateContract W.grid) :
    ∃ st', updateStaticMap W new_map st = .ok st'
      ∧ st'.costmap_ = W.grid.updateStaticMapWindow new_map.info.origin.position.x
          new_map.info.origin.position.y new_map.info.width new_map.info.height
          (new_map.data.map castUChar) st.costmap_
      ∧ st'.log = st.log ++ [Event.updateStaticMapWindow new_map.info.origin.position.x
          new_map.info.origin.position.y new_map.info.width new_map.info.height
          (new_map.data.map castUChar)]
      ∧ (∀ ox oy w h d, Event.replaceFullMap ox oy w h d ∉ st'.log.drop st.log.length)
      ∧ (∀ mx my, cellOutsideWindow W.grid st.costmap_ new_map.info.origin.position.x
            new_map.info.origin.position.y new_map.info.width new_map.info.height mx my →
          W.grid.getCost st'.costmap_ mx my = W.grid.getCost st.costmap_ mx my)
      ∧ st'.global_frame_ = st.global_frame_
      ∧ st'.buffers = st.buffers := by
  refine ⟨_, updateStaticMap_of_same_frame W st new_map hwf hres hori heq, rfl, rfl, ?_, ?_,
    rfl, rfl⟩
  · intro ox oy w h d
    simp [emit]
  · intro mx my hout
    exact hwin st.costmap_ _ _ _ _ _ mx my hout

/-- C2, on a concrete input: the controller in frame `/map` receives a valid
2 × 2 snapshot reported in `/map`; the cell `(3, 3)` lies outside of it. -/
theorem updateStaticMap_same_frame_witness :
    ∃ st', updateStaticMap (Demo.world Demo.freshPoses Demo.noJoints)
        (Demo.snapshot "/map" (1 / 20) ⟨0, 0, 0, 1⟩) Demo.controller = .ok st'
      ∧ st'.log = [Event.updateStaticMapWindow 0 0 2 2 [0, 100, 255, 0]]
      ∧ Demo.engine.getCost st'.costmap_ 3 3 = Demo.engine.getCost Demo.controller.costmap_ 3 3
      ∧ st'.global_frame_ = "/map" := by
  obtain ⟨st', h, -, hl, -, hc, hg, -⟩ :=
    updateStaticMap_same_frame (Demo.world Demo.freshPoses Demo.noJoints) Demo.controller
      (Demo.snapshot "/map" (1 / 20) ⟨0, 0, 0, 1⟩) (by decide)
      (by simp [resolutionMismatch, Demo.world, Demo.engine, Demo.controller, Demo.grid0,
            Demo.snapshot])
      (by simp [orientationRejected, Demo.snapshot])
      (by decide) Demo.engine_windowedUpdateContract
  refine ⟨st', h, ?_, ?_, ?_⟩
  · simpa [Demo.controller, Demo.snapshot, castUChar] using hl
  · refine hc 3 3 ?_
    simp only [cellOutsideWindow, Demo.world, Demo.engine, Demo.controller, Demo.grid0,
      Demo.snapshot]
    norm_num
  · simpa [Demo.controller] using hg

/-- C3: a snapshot whose resolution differs from the resolution of the live
grid by more than `1e-6` is rejected and nothing changes: `updateStaticMap`
returns the state it was called in (grid, global frame id, buffers and log of
collaborator calls included), whatever the frame of the snapshot. -/
theorem updateStaticMap_resolution_rejected (W : World D β Obs G)
    (st : Costmap2DROS D β Obs G) (new_map : OccupancyGrid D) (hwf : new_map.wellFormed)
    (hres : |new_map.info.resolution - W.grid.getResolution st.costmap_| > 1 / 1000000) :
    updateStaticMap W new_map st = .ok st
      ∧ (updateStaticMap W new_map st).state.costmap_ = st.costmap_
      ∧ (updateStaticMap W new_map st).state.global_frame_ = st.global_frame_
      ∧ (updateStaticMap W new_map st).state.buffers = st.buffers
      ∧ (updateStaticMap W new_map st).state.log = st.log := by
  have h := updateStaticMap_of_resolutionMismatch W st new_map hwf hres
  rw [h]
  exact ⟨rfl, rfl, rfl, rfl, rfl⟩

/-- C3, on a concrete input: a snapshot of 10 cm cells, in a new frame, for a
grid of 5 cm cells. -/
theorem updateStaticMap_resolution_rejected_witness :
    updateStaticMap (Demo.world Demo.freshPoses Demo.noJoints)
        (Demo.snapshot "/odom" (1 / 10) ⟨0, 0, 0, 1⟩) Demo.controller = .ok Demo.controller :=
  (updateStaticMap_resolution_rejected (Demo.world Demo.freshPoses Demo.noJoints)
      Demo.controller (Demo.snapshot "/odom" (1 / 10) ⟨0, 0, 0, 1⟩) (by decide)
      (by
        simp only [Demo.world, Demo.engine, Demo.controller, Demo.grid0, Demo.snapshot]
        rw [abs_of_pos (by norm_num)]
        norm_num)).1

/-- C4, the code at a rotated origin: the orientation `(0, 0, 3/5, 4/5)` is a
rotation about z by about 74 degrees, the test of `updateStaticMap` does not
reject it (it asks for x, y and z to be all non-zero), and the snapshot is
applied to the grid by a windowed update. -/
theorem updateStaticMap_accepts_rotation_about_z :
    (⟨0, 0, 3 / 5, 4 / 5⟩ : Quat ℚ) ≠ ⟨0, 0, 0, 1⟩
      ∧ ¬ orientationRejected (⟨0, 0, 3 / 5, 4 / 5⟩ : Quat ℚ)
      ∧ ∃ st', updateStaticMap (Demo.world Demo.freshPoses Demo.noJoints)
          (Demo.snapshot "/map" (1 / 20) ⟨0, 0, 3 / 5, 4 / 5⟩) Demo.controller = .ok st'
        ∧ st'.log = [Event.updateStaticMapWindow 0 0 2 2 [0, 100, 255, 0]]
        ∧ st'.costmap_ = Demo.engine.updateStaticMapWindow 0 0 2 2 [0, 100, 255, 0]
            Demo.controller.costmap_
        ∧ Demo.engine.getCost st'.costmap_ 1 0 = 100
        ∧ Demo.engine.getCost Demo.controller.costmap_ 1 0 = 0 := by
  have hq : ¬ orientationRejected (⟨0, 0, 3 / 5, 4 / 5⟩ : Quat ℚ) := by
    simp [orientationRejected]
  refine ⟨by simp, hq, _, updateStaticMap_of_same_frame _ _ _ (by decide)
    (by simp [resolutionMismatch, Demo.world, Demo.engine, Demo.controller, Demo.grid0,
          Demo.snapshot])
    (by simpa [Demo.snapshot] using hq) (by decide), ?_, ?_, ?_, ?_⟩
  · simp [emit, Demo.controller, Demo.snapshot, castUChar]
  · simp [emit, Demo.world, Demo.controller, Demo.snapshot, castUChar]
  · simp only [emit, Demo.world, Demo.engine, Demo.controller, Demo.grid0, Demo.snapshot]
    norm_num [castUChar]
    rfl
  · simp [Demo.engine, Demo.controller, Demo.grid0]

end StaticMap

/-! ## Lemmas on the update cycle -/

section CycleLemmas

set_option linter.unusedSectionVars false

variable {D β Obs G : Type} [LinearOrderedField D]

theorem touch_touch (st : Costmap2DROS D β Obs G) (g g' : G) (f f' : List (Point D))
    (b b' : Nat → ObservationBuffer β) (c c' : Bool) (evs evs' : List (Event D Obs)) :
    (st.touch g f b c evs).touch g' f' b' c' evs' = st.touch g' f' b' c' (evs ++ evs') := by
  simp [Costmap2DROS.touch, List.append_assoc]

theorem touch_self (st : Costmap2DROS D β Obs G) :
    st.touch st.costmap_ st.footprint_spec_ st.buffers st.current_ [] = st := by
  cases st
  simp [Costmap2DROS.touch]

theorem emit_touch (st : Costmap2DROS D β Obs G) (e : Event D Obs) :
    emit e st = st.touch st.costmap_ st.footprint_spec_ st.buffers st.current_ [e] := by
  cases st
  rfl

theorem getRobotPose_state (W : World D β Obs G) (st : Costmap2DROS D β Obs G) :
    (getRobotPose W st).2 = emit (.transformPose st.global_frame_ st.robot_base_frame_) st := by
  unfold getRobotPose
  cases W.tf.transformPose st.log.length st.global_frame_ st.robot_base_frame_ with
  | error e => rfl
  | ok p =>
    dsimp only
    split <;> rfl

theorem getRobotPose_touch (W : World D β Obs G) (st : Costmap2DROS D β Obs G) :
    (getRobotPose W st).2 = st.touch st.costmap_ st.footprint_spec_ st.buffers st.current_
      [.transformPose st.global_frame_ st.robot_base_frame_] := by
  rw [getRobotPose_state, emit_touch]

theorem readBuffer_touch (W : World D β Obs G)
    (r : (Bool × List Obs) × Costmap2DROS D β Obs G) (p : Nat) :
    ∃ b e1 e2, (readBuffer W r p).2
        = r.2.touch r.2.costmap_ r.2.footprint_spec_ b r.2.current_ [e1, e2]
      ∧ Event.isBufferRead e1 ∧ Event.isBufferRead e2 := by
  exact ⟨Function.update r.2.buffers p
      { r.2.buffers p with
        contents := (W.buf.getObservations r.2.log.length (r.2.buffers p).contents).2 },
    .getObservations p (W.buf.getObservations r.2.log.length (r.2.buffers p).contents).1,
    .isCurrent p (W.buf.isCurrent (r.2.log.length + 1)
      (W.buf.getObservations r.2.log.length (r.2.buffers p).contents).2), by
      simp [readBuffer, emit, Costmap2DROS.touch], trivial, trivial⟩

theorem readBuffers_touch (W : World D β Obs G) (ptrs : List Nat)
    (r : (Bool × List Obs) × Costmap2DROS D β Obs G) :
    ∃ b evs, (ptrs.foldl (readBuffer W) r).2
        = r.2.touch r.2.costmap_ r.2.footprint_spec_ b r.2.current_ evs
      ∧ ∀ e ∈ evs, Event.isBufferRead e := by
  induction ptrs generalizing r with
  | nil => exact ⟨r.2.buffers, [], by simp [touch_self], by simp⟩
  | cons p ps ih =>
    obtain ⟨b, evs, h, hev⟩ := ih (readBuffer W r p)
    obtain ⟨b1, e1, e2, h1, he1, he2⟩ := readBuffer_touch W r p
    refine ⟨b, [e1, e2] ++ evs, ?_, ?_⟩
    · rw [List.foldl_cons, h, h1, touch_touch]
      rfl
    · intro e he
      simp only [List.mem_append, List.mem_cons, List.mem_singleton, List.not_mem_nil,
        or_false] at he
      rcases he with (he | he) | he
      · subst he; exact he1
      · subst he; exact he2
      · exact hev e he

theorem lookupJoints_touch (W : World D β Obs G) (fs : List String)
    (st : Costmap2DROS D β Obs G) :
    ∃ evs, lookupJointsState (lookupJoints W fs st)
        = st.touch st.costmap_ st.footprint_spec_ st.buffers st.current_ evs
      ∧ ∀ e ∈ evs, Event.isJointLookup e := by
  induction fs generalizing st with
  | nil => exact ⟨[], by simp [lookupJoints, lookupJointsState, touch_self], by simp⟩
  | cons f fs ih =>
    unfold lookupJoints
    cases W.tf.lookupTransform st.log.length "/base_footprint" f with
    | error e =>
      exact ⟨[.lookupTransform "/base_footprint" f], by simp [lookupJointsState, emit_touch],
        by simp [Event.isJointLookup]⟩
    | ok pt =>
      obtain ⟨evs, h, hev⟩ := ih (emit (.lookupTransform "/base_footprint" f) st)
      refine ⟨.lookupTransform "/base_footprint" f :: evs, ?_, ?_⟩
      · dsimp only
        cases hr : lookupJoints W fs (emit (.lookupTransform "/base_footprint" f) st) with
        | error x =>
          rw [hr] at h
          obtain ⟨e, s1⟩ := x
          simp only [lookupJointsState] at h ⊢
          rw [h, emit_touch, touch_touch]
          rfl
        | ok x =>
          rw [hr] at h
          obtain ⟨ps, s1⟩ := x
          simp only [lookupJointsState] at h ⊢
          rw [h, emit_touch, touch_touch]
          rfl
      · intro e he
        simp only [List.mem_cons] at he
        rcases he with he | he
        · subst he; trivial
        · exact hev e he

theorem isFootprintClearing_of_isJointLookup (free : Nat) (e : Event D Obs)
    (h : Event.isJointLookup e) : Event.isFootprintClearing free e := by
  cases e <;> simp_all [Event.isJointLookup, Event.isFootprintClearing]

theorem updateRobotFootprint_touch (W : World D β Obs G) (st : Costmap2DROS D β Obs G)
    (free : Nat) :
    ∃ g f evs, (updateRobotFootprint W st).state = st.touch g f st.buffers st.current_ evs
      ∧ ∀ e ∈ evs, Event.isFootprintClearing free e := by
  obtain ⟨evs, h, hev⟩ := lookupJoints_touch W jointFrames st
  have hev' : ∀ e ∈ evs, Event.isFootprintClearing free e := fun e he =>
    isFootprintClearing_of_isJointLookup free e (hev e he)
  unfold updateRobotFootprint
  cases hr : lookupJoints W jointFrames st with
  | error x =>
    rw [hr] at h
    obtain ⟨e, s1⟩ := x
    simp only [lookupJointsState] at h
    cases e <;> exact ⟨_, _, evs, by simpa [Outcome.state] using h, hev'⟩
  | ok x =>
    rw [hr] at h
    obtain ⟨jt, s1⟩ := x
    simp only [lookupJointsState] at h
    subst h
    dsimp only
    split
    · exact ⟨st.costmap_, (W.math.convexHull (all_pts (jointPoints jt)
          st.base_footprint_spec_)).map (fun q => ({ x := q.1, y := q.2, z := 0 } : Point D)),
        evs, by simp [Outcome.state, Costmap2DROS.touch], hev'⟩
    · rename_i radii _
      refine ⟨W.grid.updateRadii radii.1 radii.2 st.costmap_,
        (W.math.convexHull (all_pts (jointPoints jt)
          st.base_footprint_spec_)).map (fun q => ({ x := q.1, y := q.2, z := 0 } : Point D)),
        evs ++ [.updateRadii radii.1 radii.2], ?_, ?_⟩
      · simp [Outcome.state, emit, Costmap2DROS.touch, List.append_assoc]
      · intro e he
        simp only [List.mem_append, List.mem_singleton] at he
        rcases he with he | he
        · exact hev' e he
        · subst he; trivial

theorem gridStep_refl (P : Event D Obs → Prop) (st : Costmap2DROS D β Obs G) :
    GridStep P st st :=
  ⟨st.costmap_, st.footprint_spec_, [], (touch_self st).symm, by simp⟩

theorem gridStep_trans {P : Event D Obs → Prop} {s1 s2 s3 : Costmap2DROS D β Obs G}
    (h12 : GridStep P s1 s2) (h23 : GridStep P s2 s3) : GridStep P s1 s3 := by
  obtain ⟨g, f, evs, h, hev⟩ := h12
  obtain ⟨g', f', evs', h', hev'⟩ := h23
  subst h
  refine ⟨g', f', evs ++ evs', ?_, ?_⟩
  · rw [h', touch_touch]
    rfl
  · intro e he
    rcases List.mem_append.mp he with he | he
    · exact hev e he
    · exact hev' e he

theorem gridStep_mono {P Q : Event D Obs → Prop} {s1 s2 : Costmap2DROS D β Obs G}
    (hPQ : ∀ e, P e → Q e) (h : GridStep P s1 s2) : GridStep Q s1 s2 := by
  obtain ⟨g, f, evs, h, hev⟩ := h
  exact ⟨g, f, evs, h, fun e he => hPQ e (hev e he)⟩

theorem gridStep_of_emit {P : Event D Obs → Prop} (st : Costmap2DROS D β Obs G) (e : Event D Obs)
    (he : P e) : GridStep P st (emit e st) :=
  ⟨st.costmap_, st.footprint_spec_, [e], emit_touch st e, by simpa using he⟩

theorem gridStep_of_emit_grid {P : Event D Obs → Prop} (st : Costmap2DROS D β Obs G)
    (e : Event D Obs) (g : G) (he : P e) :
    GridStep P st (emit e { st with costmap_ := g }) :=
  ⟨g, st.footprint_spec_, [e], by cases st; rfl, by simpa using he⟩

theorem gridStep_log {P : Event D Obs → Prop} {s1 s2 : Costmap2DROS D β Obs G}
    (h : GridStep P s1 s2) : ∃ evs, s2.log = s1.log ++ evs ∧ ∀ e ∈ evs, P e := by
  obtain ⟨g, f, evs, h, hev⟩ := h
  exact ⟨evs, by rw [h]; rfl, hev⟩

theorem updateRobotFootprint_step (W : World D β Obs G) (st : Costmap2DROS D β Obs G)
    (free : Nat) :
    GridStep (Event.isFootprintClearing free) st (updateRobotFootprint W st).state :=
  updateRobotFootprint_touch W st free

theorem clearRobotFootprintAt_step (W : World D β Obs G) (global_pose : StampedPose D)
    (st : Costmap2DROS D β Obs G) :
    GridStep (Event.isFootprintClearing W.grid.FREE_SPACE) st
      (clearRobotFootprintAt W global_pose st).state := by
  have h := updateRobotFootprint_step W st W.grid.FREE_SPACE
  unfold clearRobotFootprintAt
  cases hr : updateRobotFootprint W st with
  | error x =>
    rw [hr] at h
    exact h
  | ok st1 =>
    rw [hr] at h
    refine gridStep_trans h ?_
    dsimp only
    have h2 : ∀ poly, GridStep (Event.isFootprintClearing W.grid.FREE_SPACE) st1
        (emit (.setConvexPolygonCost poly W.grid.FREE_SPACE)
          { st1 with costmap_ :=
            (W.grid.setConvexPolygonCost poly W.grid.FREE_SPACE st1.costmap_).2 }) :=
      fun poly => gridStep_of_emit_grid st1 _ _ rfl
    split <;> split
    · exact h2 _
    · refine gridStep_trans (h2 _) (gridStep_trans (gridStep_of_emit_grid _ _ _ ?_)
        (gridStep_of_emit_grid _ _ _ ?_)) <;> trivial
    · exact h2 _
    · refine gridStep_trans (h2 _) (gridStep_trans (gridStep_of_emit_grid _ _ _ ?_)
        (gridStep_of_emit_grid _ _ _ ?_)) <;> trivial

theorem clearRobotFootprint_step (W : World D β Obs G) (st : Costmap2DROS D β Obs G) :
    GridStep (Event.isFootprintClearing W.grid.FREE_SPACE) st
      (clearRobotFootprint W st).state := by
  unfold clearRobotFootprint
  have h1 : GridStep (Event.isFootprintClearing W.grid.FREE_SPACE) st (getRobotPose W st).2 := by
    rw [getRobotPose_state]
    exact gridStep_of_emit st _ trivial
  dsimp only
  split
  · exact h1
  · exact gridStep_trans h1 (clearRobotFootprintAt_step W _ _)

theorem getOrientedFootprintAtRobot_state (W : World D β Obs G) (out : List (Point D))
    (st : Costmap2DROS D β Obs G) :
    (getOrientedFootprintAtRobot W out st).2 = (getRobotPose W st).2 := by
  unfold getOrientedFootprintAtRobot
  dsimp only
  split <;> rfl

theorem exportMap_step (W : World D β Obs G) (st4 : Costmap2DROS D β Obs G) :
    GridStep Event.isExport st4 (exportMap W st4) := by
  unfold exportMap
  dsimp only
  have h5 : GridStep Event.isExport st4
      (if st4.save_debug_pgm_ then emit (.saveMap (st4.name_ ++ ".pgm")) st4 else st4) := by
    split
    · exact gridStep_of_emit _ _ trivial
    · exact gridStep_refl _ _
  generalize (if st4.save_debug_pgm_ then emit (.saveMap (st4.name_ ++ ".pgm")) st4 else st4)
    = st5 at h5 ⊢
  have h6 : GridStep Event.isExport st5
      (if st5.publisher_active then
        emit (.updateCostmapData (getOrientedFootprintAtRobot W [] st5).1
            (getRobotPose W (getOrientedFootprintAtRobot W [] st5).2).1.2)
          (getRobotPose W (getOrientedFootprintAtRobot W [] st5).2).2
      else st5) := by
    split
    · rw [getOrientedFootprintAtRobot_state, getRobotPose_state, getRobotPose_state]
      refine gridStep_trans (gridStep_of_emit _ _ ?_)
        (gridStep_trans (gridStep_of_emit _ _ ?_) (gridStep_of_emit _ _ ?_)) <;> trivial
    · exact gridStep_refl _ _
  generalize (if st5.publisher_active then
        emit (.updateCostmapData (getOrientedFootprintAtRobot W [] st5).1
            (getRobotPose W (getOrientedFootprintAtRobot W [] st5).2).1.2)
          (getRobotPose W (getOrientedFootprintAtRobot W [] st5).2).2
      else st5) = st6 at h6 ⊢
  refine gridStep_trans h5 (gridStep_trans h6 ?_)
  split
  · exact gridStep_of_emit _ _ trivial
  · exact gridStep_refl _ _

theorem updateMap_of_unavailable (W : World D β Obs G) (st : Costmap2DROS D β Obs G)
    (h : (getRobotPose W st).1.1 = false) :
    updateMap W st = .ok (emit (.transformPose st.global_frame_ st.robot_base_frame_) st) := by
  unfold updateMap
  simp only [h, Bool.not_false, if_true, getRobotPose_state]

theorem applyObservations_touch (W : World D β Obs G) (wx wy : D) (current : Bool)
    (mo co : List Obs) (st : Costmap2DROS D β Obs G) :
    ∃ g, applyObservations W wx wy current mo co st
      = st.touch g st.footprint_spec_ st.buffers current
          ((if st.rolling_window_ then
              [Event.updateOrigin (wx - W.grid.getSizeInMetersX st.costmap_ / 2)
                (wy - W.grid.getSizeInMetersY st.costmap_ / 2)]
            else []) ++ [Event.updateWorld wx wy mo co]) := by
  unfold applyObservations
  dsimp only
  cases hroll : st.rolling_window_
  · exact ⟨W.grid.updateWorld wx wy mo co st.costmap_, by simp [emit, Costmap2DROS.touch, hroll]⟩
  · exact ⟨W.grid.updateWorld wx wy mo co
      (W.grid.updateOrigin (wx - W.grid.getSizeInMetersX st.costmap_ / 2)
        (wy - W.grid.getSizeInMetersY st.costmap_ / 2) st.costmap_),
      by simp [emit, Costmap2DROS.touch, hroll]⟩

theorem getMarkingObservations_touch (W : World D β Obs G) (acc : List Obs)
    (st : Costmap2DROS D β Obs G) :
    ∃ b evs, (getMarkingObservations W acc st).2
        = st.touch st.costmap_ st.footprint_spec_ b st.current_ evs
      ∧ ∀ e ∈ evs, Event.isBufferRead e :=
  readBuffers_touch W st.marking_buffers_ ((true, acc), st)

theorem getClearingObservations_touch (W : World D β Obs G) (acc : List Obs)
    (st : Costmap2DROS D β Obs G) :
    ∃ b evs, (getClearingObservations W acc st).2
        = st.touch st.costmap_ st.footprint_spec_ b st.current_ evs
      ∧ ∀ e ∈ evs, Event.isBufferRead e :=
  readBuffers_touch W st.clearing_buffers_ ((true, acc), st)

theorem updateMap_of_available (W : World D β Obs G) (st : Costmap2DROS D β Obs G)
    (h : (getRobotPose W st).1.1 = true)
    (m c : (Bool × List Obs) × Costmap2DROS D β Obs G)
    (hm : m = getMarkingObservations W [] (getRobotPose W st).2)
    (hc : c = if m.1.1 then getClearingObservations W [] m.2 else ((false, []), m.2)) :
    ∃ g f b reads rest,
      (updateMap W st).state = st.touch g f b c.1.1
        (Event.transformPose st.global_frame_ st.robot_base_frame_ :: reads
          ++ ((if st.rolling_window_ then
                [Event.updateOrigin
                  ((getRobotPose W st).1.2.origin.x - W.grid.getSizeInMetersX st.costmap_ / 2)
                  ((getRobotPose W st).1.2.origin.y - W.grid.getSizeInMetersY st.costmap_ / 2)]
              else [])
            ++ [Event.updateWorld (getRobotPose W st).1.2.origin.x
                  (getRobotPose W st).1.2.origin.y m.1.2 c.1.2])
          ++ rest)
      ∧ c.2.log = st.log ++ Event.transformPose st.global_frame_ st.robot_base_frame_ :: reads
      ∧ (∀ e ∈ reads, Event.isBufferRead e)
      ∧ (∀ e ∈ rest, Event.isFootprintClearing W.grid.FREE_SPACE e ∨ Event.isExport e) := by
  obtain ⟨bm, rm, hmt, hrm⟩ := getMarkingObservations_touch W [] (getRobotPose W st).2
  rw [← hm, getRobotPose_touch, touch_touch] at hmt
  have hct : ∃ bc rc, c.2 = st.touch st.costmap_ st.footprint_spec_ bc st.current_
      (Event.transformPose st.global_frame_ st.robot_base_frame_ :: rc)
      ∧ ∀ e ∈ rc, Event.isBufferRead e := by
    by_cases hcur : m.1.1 = true
    · obtain ⟨bc, rc, hcl, hrc⟩ := getClearingObservations_touch W [] m.2
      rw [if_pos hcur] at hc
      rw [← hc, hmt, touch_touch] at hcl
      refine ⟨bc, rm ++ rc, hcl, ?_⟩
      intro e he
      rcases List.mem_append.mp he with he | he
      · exact hrm e he
      · exact hrc e he
    · rw [if_neg hcur] at hc
      exact ⟨bm, rm, by rw [hc]; exact hmt, hrm⟩
  obtain ⟨bc, rc, hcl, hrc⟩ := hct
  obtain ⟨g3, h3⟩ := applyObservations_touch W (getRobotPose W st).1.2.origin.x
    (getRobotPose W st).1.2.origin.y c.1.1 m.1.2 c.1.2 c.2
  have hclear := clearRobotFootprint_step W
    (applyObservations W (getRobotPose W st).1.2.origin.x (getRobotPose W st).1.2.origin.y
      c.1.1 m.1.2 c.1.2 c.2)
  have hu : updateMap W st
      = match clearRobotFootprint W (applyObservations W (getRobotPose W st).1.2.origin.x
          (getRobotPose W st).1.2.origin.y c.1.1 m.1.2 c.1.2 c.2) with
        | .error e => .error e
        | .ok st4 => .ok (exportMap W st4) := by
    subst hm hc
    unfold updateMap
    simp only [h, Bool.not_true, Bool.false_eq_true, if_false]
  have hfinal : GridStep
      (fun e => Event.isFootprintClearing W.grid.FREE_SPACE e ∨ Event.isExport e)
      (applyObservations W (getRobotPose W st).1.2.origin.x (getRobotPose W st).1.2.origin.y
        c.1.1 m.1.2 c.1.2 c.2) (updateMap W st).state := by
    rw [hu]
    cases hr : clearRobotFootprint W (applyObservations W (getRobotPose W st).1.2.origin.x
        (getRobotPose W st).1.2.origin.y c.1.1 m.1.2 c.1.2 c.2) with
    | error x =>
      rw [hr] at hclear
      exact gridStep_mono (fun e he => Or.inl he) hclear
    | ok st4 =>
      rw [hr] at hclear
      exact gridStep_trans (gridStep_mono (fun e he => Or.inl he) hclear)
        (gridStep_mono (fun e he => Or.inr he) (exportMap_step W st4))
  obtain ⟨g, f, rest, hfin, hrest⟩ := hfinal
  rw [h3, hcl] at hfin
  refine ⟨g, f, bc, rc, rest, ?_, by rw [hcl]; rfl, hrc, hrest⟩
  rw [hfin]
  simp [Costmap2DROS.touch]

end CycleLemmas

/-! ## Pose resolution and the update cycle: C5 to C9 -/

section Cycle

set_option linter.unusedSectionVars false

variable {D β Obs G : Type} [LinearOrderedField D]

/-- C5: when pose resolution is unavailable, `updateMap` returns normally (no
failure is reported) in a state where the grid, with its origin, contents and
radii, the active footprint, the buffers and the currency flag are what they
were; the only collaborator call of the cycle is the pose resolution itself,
so the grid engine is not called. -/
theorem updateMap_skips_without_pose (W : World D β Obs G) (st : Costmap2DROS D β Obs G)
    (h : (getRobotPose W st).1.1 = false) :
    ∃ st', updateMap W st = .ok st'
      ∧ st'.costmap_ = st.costmap_
      ∧ W.grid.getOriginX st'.costmap_ = W.grid.getOriginX st.costmap_
      ∧ W.grid.getOriginY st'.costmap_ = W.grid.getOriginY st.costmap_
      ∧ (∀ mx my, W.grid.getCost st'.costmap_ mx my = W.grid.getCost st.costmap_ mx my)
      ∧ st'.footprint_spec_ = st.footprint_spec_
      ∧ W.grid.getInscribedRadius st'.costmap_ = W.grid.getInscribedRadius st.costmap_
      ∧ W.grid.getCircumscribedRadius st'.costmap_ = W.grid.getCircumscribedRadius st.costmap_
      ∧ st'.buffers = st.buffers
      ∧ st'.current_ = st.current_
      ∧ st'.log = st.log ++ [Event.transformPose st.global_frame_ st.robot_base_frame_] :=
  ⟨_, updateMap_of_unavailable W st h, rfl, rfl, rfl, fun _ _ => rfl, rfl, rfl, rfl, rfl, rfl,
    rfl⟩

/-- C5, on a concrete input: the listener has no transform path. -/
theorem updateMap_skips_without_pose_witness :
    ∃ st', updateMap (Demo.world Demo.noPoses Demo.noJoints) Demo.controller = .ok st'
      ∧ st'.costmap_ = Demo.controller.costmap_
      ∧ st'.footprint_spec_ = Demo.controller.footprint_spec_
      ∧ st'.log = [Event.transformPose "/map" "/base_link"] := by
  obtain ⟨st', h, hg, -, -, -, hf, -, -, -, -, hl⟩ :=
    updateMap_skips_without_pose (Demo.world Demo.noPoses Demo.noJoints) Demo.controller rfl
  exact ⟨st', h, hg, hf, by simpa [Demo.controller] using hl⟩

/-- C6: `getRobotPose` returns `false` exactly when the lookup throws one of
the three exceptions or succeeds with `current_time - stamp` strictly greater
than `transform_tolerance_`. A pose whose age equals the tolerance is accepted,
and every accepted pose is the looked up pose with an age of at most the
tolerance. -/
theorem getRobotPose_unavailable_iff (W : World D β Obs G) (st : Costmap2DROS D β Obs G) :
    ((getRobotPose W st).1.1 = false ↔
        (∃ e, W.tf.transformPose st.log.length st.global_frame_ st.robot_base_frame_
            = .error e)
        ∨ ∃ p, W.tf.transformPose st.log.length st.global_frame_ st.robot_base_frame_ = .ok p
            ∧ W.tf.now st.log.length - p.stamp_ > st.transform_tolerance_)
      ∧ (∀ p, W.tf.transformPose st.log.length st.global_frame_ st.robot_base_frame_ = .ok p →
          W.tf.now st.log.length - p.stamp_ = st.transform_tolerance_ →
          (getRobotPose W st).1 = (true, p))
      ∧ (∀ p, (getRobotPose W st).1 = (true, p) →
          W.tf.transformPose st.log.length st.global_frame_ st.robot_base_frame_ = .ok p
            ∧ W.tf.now st.log.length - p.stamp_ ≤ st.transform_tolerance_) := by
  unfold getRobotPose
  cases hr : W.tf.transformPose st.log.length st.global_frame_ st.robot_base_frame_ with
  | error e =>
    refine ⟨?_, ?_, ?_⟩
    · simp
    · intro p hp
      cases hp
    · intro p hp
      simp at hp
  | ok q =>
    dsimp only
    by_cases hage : W.tf.now st.log.length - q.stamp_ > st.transform_tolerance_
    · simp only [if_pos hage]
      refine ⟨?_, ?_, ?_⟩
      · simp [hage]
      · intro p hp heq
        cases hp
        exact absurd heq (ne_of_gt hage)
      · intro p hp
        simp at hp
    · simp only [if_neg hage]
      refine ⟨?_, ?_, ?_⟩
      · simp [hage]
      · intro p hp _
        cases hp
        rfl
      · intro p hp
        simp only [Prod.mk.injEq, true_and] at hp
        subst hp
        exact ⟨rfl, not_lt.mp hage⟩

/-- C6, on a concrete input: a pose whose age is the tolerance, 0.3 s, is
accepted; a failed lookup is not. -/
theorem getRobotPose_unavailable_iff_witness :
    (getRobotPose (Demo.world Demo.agedPoses Demo.noJoints) Demo.controller).1
        = (true, Demo.poseAt (-3 / 10))
      ∧ (getRobotPose (Demo.world Demo.noPoses Demo.noJoints) Demo.controller).1.1 = false := by
  constructor
  · have h := (getRobotPose_unavailable_iff (Demo.world Demo.agedPoses Demo.noJoints)
      Demo.controller).2.1 (Demo.poseAt (-3 / 10))
      (by
        simp [Demo.world, Demo.listener, Demo.agedPoses, Demo.controller]
        norm_num)
      (by
        simp only [Demo.world, Demo.listener, Demo.controller, Demo.poseAt]
        norm_num)
    exact h
  · exact (getRobotPose_unavailable_iff (Demo.world Demo.noPoses Demo.noJoints)
      Demo.controller).1.mpr (Or.inl ⟨.LookupException, rfl⟩)

/-- C8, the code at a stale marking source: the marking buffer 0 is not
current, so `current && getClearingObservations(...)` does not evaluate its
right operand: the clearing buffers 0 and 1 are not read (the only
`getObservations` call of the cycle is the marking read of buffer 0) and
`updateWorld` receives an empty clearing list although buffer 1 holds the
observation 21. -/
theorem updateMap_skips_clearing_read :
    Demo.staleController.clearing_buffers_ = [0, 1]
      ∧ Demo.bufferOps.getObservations 0 (Demo.staleController.buffers 1).contents
          = ([21], (Demo.staleController.buffers 1).contents)
      ∧ (getRobotPose (Demo.world Demo.freshPoses Demo.noJoints) Demo.staleController).1.1 = true
      ∧ ∃ rest,
          (updateMap (Demo.world Demo.freshPoses Demo.noJoints) Demo.staleController).state.log
            = [Event.transformPose "/map" "/base_link", Event.getObservations 0 [11, 12],
                Event.isCurrent 0 false, Event.updateOrigin (9 / 10) (9 / 10),
                Event.updateWorld 1 1 [11, 12] []] ++ rest
          ∧ ∀ e ∈ rest, ¬ Event.isBufferRead e := by
  have hp : getRobotPose (Demo.world Demo.freshPoses Demo.noJoints) Demo.staleController
      = ((true, Demo.poseAt 0),
          emit (.transformPose "/map" "/base_link") Demo.staleController) := by
    simp [getRobotPose, Demo.world, Demo.listener, Demo.freshPoses, Demo.staleController,
      Demo.controller, Demo.poseAt]
    norm_num
  refine ⟨rfl, rfl, by rw [hp], ?_⟩
  obtain ⟨g, f, b, reads, rest, hst, hreads, -, hrest⟩ :=
    updateMap_of_available (Demo.world Demo.freshPoses Demo.noJoints) Demo.staleController
      (by rw [hp]) _ _ rfl rfl
  have hm : getMarkingObservations (Demo.world Demo.freshPoses Demo.noJoints) []
      (emit (.transformPose "/map" "/base_link") Demo.staleController)
      = ((false, [11, 12]),
          (emit (.transformPose "/map" "/base_link") Demo.staleController).touch
            Demo.staleController.costmap_ Demo.staleController.footprint_spec_
            Demo.staleController.buffers Demo.staleController.current_
            [Event.getObservations 0 [11, 12], Event.isCurrent 0 false]) := by
    simp [getMarkingObservations, readBuffer, emit, Costmap2DROS.touch, Demo.world,
      Demo.bufferOps, Demo.staleController, Demo.controller]
  rw [hp] at hreads hst
  simp only [hm] at hreads hst
  have hreads' : reads = [Event.getObservations 0 [11, 12], Event.isCurrent 0 false] := by
    simpa [Costmap2DROS.touch, emit, Demo.staleController, Demo.controller] using hreads.symm
  subst hreads'
  refine ⟨rest, ?_, ?_⟩
  · rw [hst]
    simp only [Costmap2DROS.touch, Demo.world, Demo.engine, Demo.staleController,
      Demo.controller, Demo.grid0, Demo.poseAt]
    norm_num
  · intro e he
    rcases hrest e he with h1 | h1 <;> cases e <;>
      simp_all [Event.isFootprintClearing, Event.isExport, Event.isBufferRead]

end Cycle

/-! ## Life cycle: C10 -/

section LifeCycle

set_option linter.unusedSectionVars false

variable {D β Obs G : Type} [LinearOrderedField D]

theorem flagsKept_refl (st : Costmap2DROS D β Obs G) : FlagsKept st st :=
  ⟨rfl, rfl, rfl, [], by simp⟩

theorem flagsKept_trans {s1 s2 s3 : Costmap2DROS D β Obs G} (h12 : FlagsKept s1 s2)
    (h23 : FlagsKept s2 s3) : FlagsKept s1 s3 := by
  obtain ⟨a1, a2, a3, evs, a4⟩ := h12
  obtain ⟨b1, b2, b3, evs', b4⟩ := h23
  exact ⟨b1.trans a1, b2.trans a2, b3.trans a3, evs ++ evs', by rw [b4, a4, List.append_assoc]⟩

theorem flagsKept_foldl {α : Type} (f : Costmap2DROS D β Obs G → α → Costmap2DROS D β Obs G)
    (hf : ∀ s a, FlagsKept s (f s a)) (l : List α) (st : Costmap2DROS D β Obs G) :
    FlagsKept st (l.foldl f st) := by
  induction l generalizing st with
  | nil => exact flagsKept_refl st
  | cons a l ih => exact flagsKept_trans (hf st a) (ih (f st a))

theorem setSubscriptions_flagsKept (active : Bool) (st : Costmap2DROS D β Obs G) :
    FlagsKept st (setSubscriptions active st) := by
  unfold setSubscriptions
  apply flagsKept_foldl
  intro s i
  dsimp only
  split
  · exact flagsKept_refl s
  · exact ⟨rfl, rfl, rfl, [_], rfl⟩

theorem resetBuffers_flagsKept (W : World D β Obs G) (st : Costmap2DROS D β Obs G) :
    FlagsKept st (resetBuffers W st) := by
  unfold resetBuffers
  apply flagsKept_foldl
  intro s p
  exact ⟨rfl, rfl, rfl, [_], rfl⟩

theorem start_initialized (W : World D β Obs G) (st : Costmap2DROS D β Obs G) :
    (start W st).initialized_ = st.initialized_ ∧ ∃ evs, (start W st).log = st.log ++ evs := by
  unfold start
  dsimp only
  have h1 : FlagsKept st
      (if st.stopped_ then { setSubscriptions true st with stopped_ := false } else st) := by
    split
    · obtain ⟨a1, a2, a3, evs, a4⟩ := setSubscriptions_flagsKept true st
      exact ⟨a1, a2, a3, evs, a4⟩
    · exact flagsKept_refl st
  obtain ⟨a1, -, -, evs, a4⟩ := flagsKept_trans h1 (resetBuffers_flagsKept W _)
  exact ⟨a1, evs, a4⟩

theorem stop_initialized (st : Costmap2DROS D β Obs G) : (stop st).initialized_ = false := rfl

theorem updateMap_log_head (W : World D β Obs G) (st : Costmap2DROS D β Obs G) :
    ∃ evs, (updateMap W st).state.log
      = st.log ++ Event.transformPose st.global_frame_ st.robot_base_frame_ :: evs := by
  cases h : (getRobotPose W st).1.1
  · rw [updateMap_of_unavailable W st h]
    exact ⟨[], rfl⟩
  · obtain ⟨g, f, b, reads, rest, hst, -, -, -⟩ := updateMap_of_available W st h _ _ rfl rfl
    rw [hst]
    exact ⟨_, rfl⟩

theorem updateMap_initialized (W : World D β Obs G) (st : Costmap2DROS D β Obs G) :
    (updateMap W st).state.initialized_ = st.initialized_ := by
  cases h : (getRobotPose W st).1.1
  · rw [updateMap_of_unavailable W st h]
    rfl
  · obtain ⟨g, f, b, reads, rest, hst, -, -, -⟩ := updateMap_of_available W st h _ _ rfl rfl
    rw [hst]
    rfl

theorem stop_log (st : Costmap2DROS D β Obs G) : ∃ evs, (stop st).log = st.log ++ evs := by
  obtain ⟨-, -, -, evs, h⟩ := setSubscriptions_flagsKept false { st with stop_updates_ := true }
  exact ⟨evs, h⟩

theorem run_cons_ok (W : World D β Obs G) (frequency : D) (c : Call) (cs : List Call)
    (sys sys1 : System D β Obs G) (h : perform W frequency c sys = .ok sys1) :
    run W frequency (c :: cs) sys = run W frequency cs sys1 := by
  simp only [run, h]

theorem run_cons_error (W : World D β Obs G) (frequency : D) (c : Call) (cs : List Call)
    (sys : System D β Obs G) (e : Fault × System D β Obs G)
    (h : perform W frequency c sys = .error e) :
    run W frequency (c :: cs) sys = .error e := by
  simp only [run, h]

theorem perform_initialized (W : World D β Obs G) (frequency : D) (c : Call)
    (sys : System D β Obs G)
    (h : (perform W frequency c sys).state.ctrl.initialized_ = true) :
    sys.ctrl.initialized_ = true
      ∨ ((∃ nh_ok, c = Call.worker nh_ok) ∧ sys.worker = WorkerPc.setInitialized) := by
  cases c with
  | start =>
    left
    rw [← (start_initialized W sys.ctrl).1]
    exact h
  | stop => cases h
  | worker nh_ok =>
    obtain ⟨ctrl, pc⟩ := sys
    cases pc with
    | entry =>
      left
      simp only [perform, workerStep] at h
      split at h <;> exact h
    | loopHead =>
      left
      simp only [perform, workerStep] at h
      split at h
      · split at h <;> exact h
      · exact h
    | callUpdate =>
      left
      simp only [perform, workerStep] at h
      show ctrl.initialized_ = true
      rw [← updateMap_initialized W ctrl]
      cases hu : updateMap W ctrl with
      | error x =>
        rw [hu] at h
        exact h
      | ok st1 =>
        rw [hu] at h
        exact h
    | setInitialized => exact Or.inr ⟨⟨nh_ok, rfl⟩, rfl⟩
    | returned => exact Or.inl h

theorem run_initialized_split (W : World D β Obs G) (frequency : D) (cs : List Call)
    (sys : System D β Obs G)
    (h : (run W frequency cs sys).state.ctrl.initialized_ = true) :
    sys.ctrl.initialized_ = true
      ∨ ∃ pre suf nh_ok, cs = pre ++ Call.worker nh_ok :: suf
          ∧ (run W frequency pre sys).state.worker = WorkerPc.setInitialized := by
  induction cs generalizing sys with
  | nil => exact Or.inl h
  | cons c cs ih =>
    cases hper : perform W frequency c sys with
    | error e =>
      rw [run_cons_error W frequency c cs sys e hper] at h
      have h' : (perform W frequency c sys).state.ctrl.initialized_ = true := by
        rw [hper]
        exact h
      rcases perform_initialized W frequency c sys h' with h1 | ⟨⟨nh_ok, hc⟩, hw⟩
      · exact Or.inl h1
      · exact Or.inr ⟨[], cs, nh_ok, by rw [hc]; rfl, hw⟩
    | ok sys1 =>
      rw [run_cons_ok W frequency c cs sys sys1 hper] at h
      rcases ih sys1 h with h1 | ⟨pre, suf, nh_ok, hcs, hw⟩
      · have h' : (perform W frequency c sys).state.ctrl.initialized_ = true := by
          rw [hper]
          exact h1
        rcases perform_initialized W frequency c sys h' with h2 | ⟨⟨nh_ok, hc⟩, hw⟩
        · exact Or.inl h2
        · exact Or.inr ⟨[], cs, nh_ok, by rw [hc]; rfl, hw⟩
      · refine Or.inr ⟨c :: pre, suf, nh_ok, by rw [hcs]; rfl, ?_⟩
        rw [run_cons_ok W frequency c pre sys sys1 hper]
        exact hw

theorem perform_keeps_restart_invariant (W : World D β Obs G) (frequency : D)
    (base : List (Event D Obs)) (c : Call) (sys : System D β Obs G)
    (hinv : ∃ evs, sys.ctrl.log = base ++ evs
      ∧ (sys.worker = WorkerPc.setInitialized ∨ sys.ctrl.initialized_ = true →
          ∃ gf bf, Event.transformPose gf bf ∈ evs)) :
    ∃ evs, (perform W frequency c sys).state.ctrl.log = base ++ evs
      ∧ ((perform W frequency c sys).state.worker = WorkerPc.setInitialized
            ∨ (perform W frequency c sys).state.ctrl.initialized_ = true →
          ∃ gf bf, Event.transformPose gf bf ∈ evs) := by
  obtain ⟨evs, hlog, hinit⟩ := hinv
  have hext : ∀ evs', (∃ gf bf, Event.transformPose gf bf ∈ evs) →
      ∃ gf bf, Event.transformPose gf bf ∈ evs ++ evs' := by
    rintro evs' ⟨gf, bf, hmem⟩
    exact ⟨gf, bf, List.mem_append_left _ hmem⟩
  cases c with
  | start =>
    obtain ⟨hi, evs', hl⟩ := start_initialized W sys.ctrl
    refine ⟨evs ++ evs', ?_, ?_⟩
    · show (start W sys.ctrl).log = _
      rw [hl, hlog, List.append_assoc]
    · intro h
      exact hext evs' (hinit (h.imp id (fun h => hi ▸ h)))
  | stop =>
    obtain ⟨evs', hl⟩ := stop_log sys.ctrl
    refine ⟨evs ++ evs', ?_, ?_⟩
    · show (stop sys.ctrl).log = _
      rw [hl, hlog, List.append_assoc]
    · intro h
      rcases h with h | h
      · exact hext evs' (hinit (Or.inl h))
      · cases h
  | worker nh_ok =>
    obtain ⟨ctrl, pc⟩ := sys
    cases pc with
    | entry =>
      refine ⟨evs, ?_, ?_⟩
      · simp only [perform, workerStep]
        split <;> exact hlog
      · simp only [perform, workerStep]
        split
        · rintro (h | h)
          · cases h
          · exact hinit (Or.inr h)
        · rintro (h | h)
          · cases h
          · exact hinit (Or.inr h)
    | loopHead =>
      refine ⟨evs, ?_, ?_⟩
      · simp only [perform, workerStep]
        split
        · split <;> exact hlog
        · exact hlog
      · simp only [perform, workerStep]
        split
        · split
          · rintro (h | h)
            · cases h
            · exact hinit (Or.inr h)
          · exact hinit
        · rintro (h | h)
          · cases h
          · exact hinit (Or.inr h)
    | callUpdate =>
      obtain ⟨evs', hl⟩ := updateMap_log_head W ctrl
      refine ⟨evs ++ Event.transformPose ctrl.global_frame_ ctrl.robot_base_frame_ :: evs',
        ?_, fun _ => ⟨_, _, List.mem_append_right _ (List.mem_cons_self _ _)⟩⟩
      simp only [perform, workerStep]
      cases hu : updateMap W ctrl with
      | error x =>
        rw [hu] at hl
        have hl' : x.2.log
            = ctrl.log ++ Event.transformPose ctrl.global_frame_ ctrl.robot_base_frame_
                :: evs' := hl
        show x.2.log = _
        rw [hl', show ctrl.log = base ++ evs from hlog, List.append_assoc]
      | ok st1 =>
        rw [hu] at hl
        have hl' : st1.log
            = ctrl.log ++ Event.transformPose ctrl.global_frame_ ctrl.robot_base_frame_
                :: evs' := hl
        show st1.log = _
        rw [hl', show ctrl.log = base ++ evs from hlog, List.append_assoc]
    | setInitialized => exact ⟨evs, hlog, fun _ => hinit (Or.inl rfl)⟩
    | returned => exact ⟨evs, hlog, hinit⟩

theorem run_keeps_restart_invariant (W : World D β Obs G) (frequency : D)
    (base : List (Event D Obs)) (cs : List Call) (sys : System D β Obs G)
    (hinv : ∃ evs, sys.ctrl.log = base ++ evs
      ∧ (sys.worker = WorkerPc.setInitialized ∨ sys.ctrl.initialized_ = true →
          ∃ gf bf, Event.transformPose gf bf ∈ evs)) :
    ∃ evs, (run W frequency cs sys).state.ctrl.log = base ++ evs
      ∧ ((run W frequency cs sys).state.worker = WorkerPc.setInitialized
            ∨ (run W frequency cs sys).state.ctrl.initialized_ = true →
          ∃ gf bf, Event.transformPose gf bf ∈ evs) := by
  induction cs generalizing sys with
  | nil => exact hinv
  | cons c cs ih =>
    have hstep := perform_keeps_restart_invariant W frequency base c sys hinv
    cases hper : perform W frequency c sys with
    | error e =>
      rw [run_cons_error W frequency c cs sys e hper]
      rw [hper] at hstep
      exact hstep
    | ok sys1 =>
      rw [run_cons_ok W frequency c cs sys sys1 hper]
      rw [hper] at hstep
      exact ih sys1 hstep

theorem workerPass_eq_body (W : World D β Obs G) (frequency : D) (a b : Bool)
    (ctrl : Costmap2DROS D β Obs G) (hf : frequency ≠ 0)
    (hshut : ctrl.map_update_thread_shutdown_ = false) (hstop : ctrl.stop_updates_ = false) :
    run W frequency [Call.worker true, Call.worker true, Call.worker a, Call.worker b]
        { ctrl := ctrl, worker := WorkerPc.entry }
      = match mapUpdateLoop W frequency 1 ctrl with
        | .ok st => .ok { ctrl := st, worker := WorkerPc.loopHead }
        | .error (f, st) => .error (f, { ctrl := st, worker := WorkerPc.callUpdate }) := by
  cases hu : updateMap W ctrl with
  | error x =>
    obtain ⟨f, st⟩ := x
    simp [run, perform, workerStep, mapUpdateLoop, mapUpdateLoopPasses, mapUpdateLoopBody,
      hf, hshut, hstop, hu]
  | ok st1 =>
    simp [run, perform, workerStep, mapUpdateLoop, mapUpdateLoopPasses, mapUpdateLoopBody,
      hf, hshut, hstop, hu]

theorem run_skipped_pass (W : World D β Obs G) (frequency : D) (a b : Bool)
    (sys : System D β Obs G) (hw : sys.worker = WorkerPc.callUpdate)
    (hpose : (getRobotPose W sys.ctrl).1.1 = false) :
    run W frequency [Call.worker a, Call.worker b] sys
      = .ok { ctrl := { emit (.transformPose sys.ctrl.global_frame_ sys.ctrl.robot_base_frame_)
                          sys.ctrl with initialized_ := true },
              worker := WorkerPc.loopHead } := by
  obtain ⟨ctrl, pc⟩ := sys
  subst hw
  simp only [run, perform, workerStep, updateMap_of_unavailable W ctrl hpose]

/-- C10, as the code has it. In every state reached by `stop()`, then `start()`,
then any schedule of foreground calls and steps of the worker thread: if
`initialized_` is `true`, then since the `stop()` the worker has executed
`initialized_ = true`, the step that follows its call of `updateMap()`; and if
the worker was not inside a pass at the `stop()`, that call of `updateMap` was
made since the `start()`: its pose resolution is in the log after the calls of
`start()`. Nothing requires the cycle to be successful: a pass whose
`updateMap` is skipped because the pose is unavailable sets `initialized_`
with the grid unchanged and the pose resolution as its only call. -/
theorem initialized_after_restart (W : World D β Obs G) (frequency : D) :
    (∀ (sys : System D β Obs G) (calls : List Call),
        (run W frequency (Call.stop :: Call.start :: calls) sys).state.ctrl.initialized_ = true →
        ∃ pre suf nh_ok, Call.start :: calls = pre ++ Call.worker nh_ok :: suf
          ∧ (run W frequency (Call.stop :: pre) sys).state.worker = WorkerPc.setInitialized)
      ∧ (∀ (sys : System D β Obs G) (calls : List Call),
        sys.worker ≠ WorkerPc.callUpdate → sys.worker ≠ WorkerPc.setInitialized →
        (run W frequency (Call.stop :: Call.start :: calls) sys).state.ctrl.initialized_ = true →
        ∃ evs gf bf,
          (run W frequency (Call.stop :: Call.start :: calls) sys).state.ctrl.log
              = (start W (stop sys.ctrl)).log ++ evs
            ∧ Event.transformPose gf bf ∈ evs)
      ∧ (∀ (sys : System D β Obs G) (a b : Bool),
        sys.worker = WorkerPc.callUpdate → (getRobotPose W sys.ctrl).1.1 = false →
        ∃ sys', run W frequency [Call.worker a, Call.worker b] sys = .ok sys'
          ∧ sys'.ctrl.initialized_ = true
          ∧ sys'.ctrl.costmap_ = sys.ctrl.costmap_
          ∧ sys'.ctrl.log
              = sys.ctrl.log
                ++ [Event.transformPose sys.ctrl.global_frame_ sys.ctrl.robot_base_frame_]) := by
  refine ⟨?_, ?_, ?_⟩
  · intro sys calls h
    have hstop : perform W frequency Call.stop sys = .ok { sys with ctrl := stop sys.ctrl } := rfl
    rw [run_cons_ok W frequency _ _ sys _ hstop] at h
    rcases run_initialized_split W frequency _ _ h with h1 | ⟨pre, suf, nh_ok, hcs, hw⟩
    · cases h1
    · exact ⟨pre, suf, nh_ok, hcs, by rw [run_cons_ok W frequency _ _ sys _ hstop]; exact hw⟩
  · intro sys calls hw1 hw2 h
    have hrun : run W frequency (Call.stop :: Call.start :: calls) sys
        = run W frequency calls { sys with ctrl := start W (stop sys.ctrl) } := rfl
    rw [hrun] at h ⊢
    obtain ⟨evs, hlog, hi⟩ := run_keeps_restart_invariant W frequency
      (start W (stop sys.ctrl)).log calls { sys with ctrl := start W (stop sys.ctrl) }
      ⟨[], by simp, fun h => by
        rcases h with h | h
        · exact absurd h hw2
        · rw [(start_initialized W (stop sys.ctrl)).1, stop_initialized] at h
          cases h⟩
    obtain ⟨gf, bf, hmem⟩ := hi (Or.inr h)
    exact ⟨evs, gf, bf, hlog, hmem⟩
  · intro sys a b hw hpose
    exact ⟨_, run_skipped_pass W frequency a b sys hw hpose, rfl, rfl, rfl⟩

/-- C10, the claim as stated fails: after `stop()`, `start()` and one pass of
the worker (loop head, `updateMap()`, `initialized_ = true`) in a world where
no pose can be resolved, `initialized_` is `true` although no cycle was
successful: every pose lookup fails, the grid is the one before `stop()` and
the log holds no `updateOrigin` and no `updateWorld`. -/
theorem initialized_without_successful_cycle :
    ∃ sys', run (Demo.world Demo.noPoses Demo.noJoints) 5
        [Call.stop, Call.start, Call.worker true, Call.worker true, Call.worker true]
        { ctrl := Demo.controller, worker := WorkerPc.loopHead } = .ok sys'
      ∧ sys'.ctrl.initialized_ = true
      ∧ (∀ t target source,
          (Demo.world Demo.noPoses Demo.noJoints).tf.transformPose t target source
            = .error .LookupException)
      ∧ sys'.ctrl.costmap_ = Demo.controller.costmap_
      ∧ ∀ e ∈ sys'.ctrl.log, ¬ Event.isWorldUpdate e := by
  have hpass := run_skipped_pass (Demo.world Demo.noPoses Demo.noJoints) (5 : ℚ) true true
    { ctrl := start (Demo.world Demo.noPoses Demo.noJoints) (stop Demo.controller),
      worker := WorkerPc.callUpdate } rfl rfl
  refine ⟨_, hpass, rfl, fun _ _ _ => rfl, rfl, ?_⟩
  have hlog : (start (Demo.world Demo.noPoses Demo.noJoints) (stop Demo.controller)).log
      = [Event.unsubscribe 0, Event.unsubscribe 1, Event.subscribe 0, Event.subscribe 1,
          Event.resetLastUpdated 0, Event.resetLastUpdated 1] := rfl
  intro e he
  simp only [emit, hlog, List.cons_append, List.nil_append, List.mem_cons,
    List.mem_singleton, List.not_mem_nil, or_false] at he
  rcases he with he | he | he | he | he | he | he <;> subst he <;>
    simp [Event.isWorldUpdate]

/-- C10 as the code has it, on a concrete input: the worker stands at the head
of its loop when the controller is stopped and started again, then makes one
pass while no pose can be resolved; `initialized_` is set and the pose
resolution of that pass is in the log after the calls of `start()`. -/
theorem initialized_after_restart_witness :
    (run (Demo.world Demo.noPoses Demo.noJoints) 5
        [Call.stop, Call.start, Call.worker true, Call.worker true, Call.worker true]
        { ctrl := Demo.controller, worker := WorkerPc.loopHead }).state.ctrl.initialized_ = true
      ∧ ∃ evs gf bf,
        (run (Demo.world Demo.noPoses Demo.noJoints) 5
            [Call.stop, Call.start, Call.worker true, Call.worker true, Call.worker true]
            { ctrl := Demo.controller, worker := WorkerPc.loopHead }).state.ctrl.log
          = (start (Demo.world Demo.noPoses Demo.noJoints) (stop Demo.controller)).log ++ evs
        ∧ Event.transformPose gf bf ∈ evs := by
  have hpass := run_skipped_pass (Demo.world Demo.noPoses Demo.noJoints) (5 : ℚ) true true
    { ctrl := start (Demo.world Demo.noPoses Demo.noJoints) (stop Demo.controller),
      worker := WorkerPc.callUpdate } rfl rfl
  have hrun : run (Demo.world Demo.noPoses Demo.noJoints) 5
      [Call.stop, Call.start, Call.worker true, Call.worker true, Call.worker true]
      { ctrl := Demo.controller, worker := WorkerPc.loopHead } = .ok _ := hpass
  have hinit : (run (Demo.world Demo.noPoses Demo.noJoints) 5
      [Call.stop, Call.start, Call.worker true, Call.worker true, Call.worker true]
      { ctrl := Demo.controller, worker := WorkerPc.loopHead }).state.ctrl.initialized_
        = true := by
    rw [hrun]
    rfl
  exact ⟨hinit, (initialized_after_restart (Demo.world Demo.noPoses Demo.noJoints) 5).2.1
    { ctrl := Demo.controller, worker := WorkerPc.loopHead }
    [Call.worker true, Call.worker true, Call.worker true] (by decide) (by decide) hinit⟩

end LifeCycle

/-! ## Pause and resume: C11 to C13 -/

section Pause

set_option linter.unusedSectionVars false

variable {D β Obs G : Type} [LinearOrderedField D]

theorem setSubscriptions_eq (active : Bool) (st : Costmap2DROS D β Obs G) :
    ∃ subs evs, setSubscriptions active st
        = { st with observation_subscribers_ := subs, log := st.log ++ evs }
      ∧ ∀ e ∈ evs, ∃ i, e = if active then Event.subscribe i else Event.unsubscribe i := by
  unfold setSubscriptions
  generalize List.range st.observation_subscribers_.length = l
  induction l generalizing st with
  | nil => exact ⟨st.observation_subscribers_, [], by simp, by simp⟩
  | cons i l ih =>
    rw [List.foldl_cons]
    cases hi : st.observation_subscribers_.getD i none with
    | none =>
      simp only [hi]
      exact ih st
    | some v =>
      simp only [hi]
      obtain ⟨subs, evs, h, hev⟩ := ih (emit (if active then .subscribe i else .unsubscribe i)
        { st with observation_subscribers_ := st.observation_subscribers_.set i (some active) })
      refine ⟨subs, (if active then Event.subscribe i else Event.unsubscribe i) :: evs, ?_, ?_⟩
      · rw [h]
        simp [emit]
      · intro e he
        rcases List.mem_cons.mp he with he | he
        · exact ⟨i, he⟩
        · exact hev e he

theorem resetBuffers_eq (W : World D β Obs G) (st : Costmap2DROS D β Obs G) :
    ∃ b, resetBuffers W st
        = { st with buffers := b,
                    log := st.log ++ st.observation_buffers_.map Event.resetLastUpdated }
      ∧ (∀ p ∈ st.observation_buffers_, ∃ t c, (b p).contents = W.buf.resetLastUpdated t c)
      ∧ (∀ p, p ∉ st.observation_buffers_ → b p = st.buffers p) := by
  unfold resetBuffers
  have key : ∀ (l : List Nat) (s : Costmap2DROS D β Obs G),
      ∃ b, l.foldl (fun s p => emit (.resetLastUpdated p)
          { s with buffers := (Function.update s.buffers p
            { s.buffers p with
              contents := W.buf.resetLastUpdated s.log.length (s.buffers p).contents }) }) s
          = { s with buffers := b, log := s.log ++ l.map Event.resetLastUpdated }
        ∧ (∀ p ∈ l, ∃ t c, (b p).contents = W.buf.resetLastUpdated t c)
        ∧ (∀ p, p ∉ l → b p = s.buffers p)
        ∧ (∀ p, (∃ t c, (s.buffers p).contents = W.buf.resetLastUpdated t c) →
            ∃ t c, (b p).contents = W.buf.resetLastUpdated t c) := by
    intro l
    induction l with
    | nil =>
      intro s
      exact ⟨s.buffers, by simp, by simp, by simp, fun p h => h⟩
    | cons q l ih =>
      intro s
      rw [List.foldl_cons]
      obtain ⟨b, h, hin, hout, hkeep⟩ := ih (emit (.resetLastUpdated q)
        { s with buffers := (Function.update s.buffers q
          { s.buffers q with
            contents := W.buf.resetLastUpdated s.log.length (s.buffers q).contents }) })
      refine ⟨b, ?_, ?_, ?_, ?_⟩
      · rw [h]
        simp [emit]
      · intro p hp
        rcases List.mem_cons.mp hp with hp | hp
        · subst hp
          exact hkeep p ⟨s.log.length, (s.buffers p).contents, by simp [emit]⟩
        · exact hin p hp
      · intro p hp
        have hpq : p ≠ q := fun h => hp (h ▸ List.mem_cons_self _ _)
        rw [hout p (fun h => hp (List.mem_cons_of_mem _ h))]
        simp [emit, Function.update_noteq hpq]
      · intro p hp
        apply hkeep
        by_cases hpq : p = q
        · subst hpq
          exact ⟨s.log.length, (s.buffers p).contents, by simp [emit]⟩
        · simpa [emit, Function.update_noteq hpq] using hp
  obtain ⟨b, h, hin, hout, -⟩ := key st.observation_buffers_ st
  exact ⟨b, h, hin, hout⟩

theorem stop_eq (st : Costmap2DROS D β Obs G) :
    ∃ subs evs, stop st
        = { st with stop_updates_ := true, initialized_ := false, stopped_ := true,
                    observation_subscribers_ := subs, log := st.log ++ evs }
      ∧ ∀ e ∈ evs, ∃ i, e = Event.unsubscribe i := by
  obtain ⟨subs, evs, h, hev⟩ := setSubscriptions_eq false { st with stop_updates_ := true }
  refine ⟨subs, evs, ?_, by simpa using hev⟩
  unfold stop
  simp only [h]

theorem stop_flags (st : Costmap2DROS D β Obs G) :
    (stop st).stop_updates_ = true ∧ (stop st).stopped_ = true
      ∧ (stop st).initialized_ = false := by
  obtain ⟨subs, evs, h, -⟩ := stop_eq st
  rw [h]
  exact ⟨rfl, rfl, rfl⟩

theorem start_eq (W : World D β Obs G) (st : Costmap2DROS D β Obs G) :
    ∃ subs b evs, start W st
        = { st with stop_updates_ := false, stopped_ := false,
                    observation_subscribers_ := subs, buffers := b,
                    log := st.log ++ evs ++ st.observation_buffers_.map Event.resetLastUpdated }
      ∧ (∀ e ∈ evs, ∃ i, e = Event.subscribe i)
      ∧ (∀ p ∈ st.observation_buffers_, ∃ t c, (b p).contents = W.buf.resetLastUpdated t c)
      ∧ (∀ p, p ∉ st.observation_buffers_ → b p = st.buffers p) := by
  unfold start
  cases hs : st.stopped_
  · obtain ⟨b, h, hin, hout⟩ := resetBuffers_eq W st
    refine ⟨st.observation_subscribers_, b, [], ?_, by simp, hin, hout⟩
    simp [h, hs]
  · obtain ⟨subs, evs, h, hev⟩ := setSubscriptions_eq true st
    obtain ⟨b, h2, hin, hout⟩ := resetBuffers_eq W
      { setSubscriptions true st with stopped_ := false }
    rw [h] at h2 hin hout
    refine ⟨subs, b, evs, ?_, by simpa using hev, hin, hout⟩
    simp [h, h2]

end Pause

section Foreground

set_option linter.unusedSectionVars false

variable {D β Obs G : Type} [LinearOrderedField D]

theorem Demo.freshPoses_available (joints : Nat → String → Except TfException (Point ℚ))
    (st : Costmap2DROS ℚ Demo.Queue Nat Demo.Grid) (h : 0 ≤ st.transform_tolerance_) :
    getRobotPose (Demo.world Demo.freshPoses joints) st
      = ((true, Demo.poseAt ((st.log.length : ℚ) / 10)),
          emit (.transformPose st.global_frame_ st.robot_base_frame_) st) := by
  simp only [getRobotPose, Demo.world, Demo.listener, Demo.freshPoses, Demo.poseAt, sub_self]
  rw [if_neg (not_lt.mpr h)]

end Foreground

section Restart

set_option linter.unusedSectionVars false

variable {D β Obs G : Type} [LinearOrderedField D]

theorem perform_zero_frequency (W : World D β Obs G) (c : Call) (sys : System D β Obs G)
    (h : (sys.worker = WorkerPc.entry ∨ sys.worker = WorkerPc.returned)
      ∧ sys.ctrl.initialized_ = false) :
    ∃ sys1, perform W 0 c sys = .ok sys1
      ∧ (sys1.worker = WorkerPc.entry ∨ sys1.worker = WorkerPc.returned)
      ∧ sys1.ctrl.initialized_ = false := by
  obtain ⟨hw, hinit⟩ := h
  cases c with
  | start => exact ⟨_, rfl, hw, (start_initialized W sys.ctrl).1.trans hinit⟩
  | stop => exact ⟨_, rfl, hw, (stop_flags sys.ctrl).2.2⟩
  | worker nh_ok =>
    obtain ⟨ctrl, pc⟩ := sys
    rcases hw with hw | hw
    · cases hw
      exact ⟨{ ctrl := ctrl, worker := WorkerPc.returned }, by simp [perform, workerStep],
        Or.inr rfl, hinit⟩
    · cases hw
      exact ⟨_, rfl, Or.inr rfl, hinit⟩

theorem run_zero_frequency (W : World D β Obs G) (calls : List Call) (sys : System D β Obs G)
    (h : (sys.worker = WorkerPc.entry ∨ sys.worker = WorkerPc.returned)
      ∧ sys.ctrl.initialized_ = false) :
    ∃ sys1, run W 0 calls sys = .ok sys1
      ∧ (sys1.worker = WorkerPc.entry ∨ sys1.worker = WorkerPc.returned)
      ∧ sys1.ctrl.initialized_ = false := by
  induction calls generalizing sys with
  | nil => exact ⟨sys, rfl, h⟩
  | cons c cs ih =>
    obtain ⟨sys1, hper, h1⟩ := perform_zero_frequency W c sys h
    rw [run_cons_ok W 0 c cs sys sys1 hper]
    exact ih sys1 h1

theorem restart_flags (W : World D β Obs G) (st : Costmap2DROS D β Obs G) :
    (start W (stop st)).stop_updates_ = false
      ∧ (start W (stop st)).map_update_thread_shutdown_ = st.map_update_thread_shutdown_ := by
  obtain ⟨subs, b, evs, h, -, -, -⟩ := start_eq W (stop st)
  obtain ⟨subs0, evs0, h0, -⟩ := stop_eq st
  rw [h, h0]
  exact ⟨rfl, rfl⟩

/-- C13, the code at an update frequency of zero: the worker thread leaves
`mapUpdateLoop` at `if(frequency == 0.0) return;` and never executes
`initialized_ = true`; after `stop()` and `start()` the flag `initialized_` is
`false` in every state reached by any schedule of further calls and worker
steps, so the loop `while(!initialized_) r.sleep();` of `start()` never ends.
With a frequency other than zero, one pass of the worker whose `updateMap()`
returns sets the flag. -/
theorem start_never_returns_at_zero_frequency (W : World D β Obs G) :
    (∀ (ctrl : Costmap2DROS D β Obs G) (calls : List Call),
        (run W 0 (Call.stop :: Call.start :: calls)
            { ctrl := ctrl, worker := WorkerPc.entry }).state.ctrl.initialized_ = false
          ∧ (run W 0 (Call.stop :: Call.start :: calls)
            { ctrl := ctrl, worker := WorkerPc.entry }).state.worker ≠ WorkerPc.setInitialized)
      ∧ (∀ (frequency : D) (ctrl st' : Costmap2DROS D β Obs G), frequency ≠ 0 →
          ctrl.map_update_thread_shutdown_ = false →
          updateMap W (start W (stop ctrl)) = .ok st' →
          ∃ sys', run W frequency
                [Call.worker true, Call.stop, Call.start, Call.worker true, Call.worker true,
                  Call.worker true]
                { ctrl := ctrl, worker := WorkerPc.entry } = .ok sys'
            ∧ sys'.ctrl.initialized_ = true) := by
  constructor
  · intro ctrl calls
    have hrun : run W 0 (Call.stop :: Call.start :: calls)
          { ctrl := ctrl, worker := WorkerPc.entry }
        = run W 0 calls { ctrl := start W (stop ctrl), worker := WorkerPc.entry } := rfl
    obtain ⟨sys1, hok, hw, hinit⟩ := run_zero_frequency W calls
      { ctrl := start W (stop ctrl), worker := WorkerPc.entry }
      ⟨Or.inl rfl, (start_initialized W (stop ctrl)).1.trans (stop_flags ctrl).2.2⟩
    rw [hrun, hok]
    refine ⟨hinit, ?_⟩
    intro h
    have h' : sys1.worker = WorkerPc.setInitialized := h
    rw [h'] at hw
    rcases hw with hw | hw <;> cases hw
  · intro frequency ctrl st' hf hshut hu
    obtain ⟨h1, h2⟩ := restart_flags W ctrl
    refine ⟨{ ctrl := { st' with initialized_ := true }, worker := WorkerPc.loopHead }, ?_, rfl⟩
    simp [run, perform, workerStep, hf, h1, h2, hshut, hu]

end Restart

/-! ## Footprint clearing and recompute: C14, C15 -/

section FootprintClearing

set_option linter.unusedSectionVars false

variable {D β Obs G : Type} [LinearOrderedField D]

theorem updateMap_eq_clear (W : World D β Obs G) (st : Costmap2DROS D β Obs G)
    (h : (getRobotPose W st).1.1 = true) :
    updateMap W st
      = match clearRobotFootprint W (updateMapWorld W st) with
        | .error e => .error e
        | .ok st4 => .ok (exportMap W st4) := by
  unfold updateMap updateMapWorld
  simp only [h, Bool.not_true, Bool.false_eq_true, if_false]

theorem updateMapWorld_touch (W : World D β Obs G) (st : Costmap2DROS D β Obs G) :
    ∃ g b cur reads m c, updateMapWorld W st = st.touch g st.footprint_spec_ b cur
        (Event.transformPose st.global_frame_ st.robot_base_frame_ :: reads
          ++ ((if st.rolling_window_ then
                [Event.updateOrigin
                  ((getRobotPose W st).1.2.origin.x - W.grid.getSizeInMetersX st.costmap_ / 2)
                  ((getRobotPose W st).1.2.origin.y - W.grid.getSizeInMetersY st.costmap_ / 2)]
              else [])
            ++ [Event.updateWorld (getRobotPose W st).1.2.origin.x
                  (getRobotPose W st).1.2.origin.y m c]))
      ∧ ∀ e ∈ reads, Event.isBufferRead e := by
  obtain ⟨bm, rm, hmt, hrm⟩ := getMarkingObservations_touch W [] (getRobotPose W st).2
  obtain ⟨m, hm⟩ : ∃ m, m = getMarkingObservations W [] (getRobotPose W st).2 := ⟨_, rfl⟩
  rw [← hm, getRobotPose_touch, touch_touch] at hmt
  obtain ⟨c, hc⟩ : ∃ c, c = if m.1.1 then getClearingObservations W [] m.2
      else ((false, []), m.2) := ⟨_, rfl⟩
  have hct : ∃ bc rc,
      c.2 = st.touch st.costmap_ st.footprint_spec_ bc st.current_
          (Event.transformPose st.global_frame_ st.robot_base_frame_ :: rc)
      ∧ ∀ e ∈ rc, Event.isBufferRead e := by
    by_cases hcur : m.1.1 = true
    · obtain ⟨bc, rc, hcl, hrc⟩ := getClearingObservations_touch W [] m.2
      rw [if_pos hcur] at hc
      rw [← hc, hmt, touch_touch] at hcl
      refine ⟨bc, rm ++ rc, hcl, ?_⟩
      intro e he
      rcases List.mem_append.mp he with he | he
      · exact hrm e he
      · exact hrc e he
    · rw [if_neg hcur] at hc
      exact ⟨bm, rm, by rw [hc]; exact hmt, hrm⟩
  obtain ⟨bc, rc, hcl, hrc⟩ := hct
  obtain ⟨g3, h3⟩ := applyObservations_touch W (getRobotPose W st).1.2.origin.x
    (getRobotPose W st).1.2.origin.y c.1.1 m.1.2 c.1.2 c.2
  refine ⟨g3, bc, c.1.1, rc, m.1.2, c.1.2, ?_, hrc⟩
  have hu : updateMapWorld W st = applyObservations W (getRobotPose W st).1.2.origin.x
      (getRobotPose W st).1.2.origin.y c.1.1 m.1.2 c.1.2 c.2 := by
    subst hm hc
    rfl
  rw [hu, h3, hcl]
  simp [Costmap2DROS.touch]

theorem clearRobotFootprintAt_of_ok (W : World D β Obs G) (global_pose : StampedPose D)
    (st s5 : Costmap2DROS D β Obs G) (h : updateRobotFootprint W st = .ok s5) :
    ∃ st' rest, clearRobotFootprintAt W global_pose st = .ok st'
      ∧ st'.log = s5.log
          ++ [Event.setConvexPolygonCost
                (if s5.footprint_spec_.length < 3 then
                  circleFootprint W s5.costmap_ global_pose.origin.x global_pose.origin.y
                    (W.fl (2 * W.math.M_PI / 72)) 73 0 []
                else
                  getOrientedFootprint W.math s5.footprint_spec_ global_pose.origin.x
                    global_pose.origin.y (W.math.getYaw global_pose.rotation) [])
                W.grid.FREE_SPACE] ++ rest := by
  unfold clearRobotFootprintAt
  rw [h]
  dsimp only
  generalize (if s5.footprint_spec_.length < 3 then
      circleFootprint W s5.costmap_ global_pose.origin.x global_pose.origin.y
        (W.fl (2 * W.math.M_PI / 72)) 73 0 []
    else
      getOrientedFootprint W.math s5.footprint_spec_ global_pose.origin.x
        global_pose.origin.y (W.math.getYaw global_pose.rotation) []) = polygon
  split
  · exact ⟨_, [], rfl, by simp [emit]⟩
  · exact ⟨_, _, rfl, by simp [emit]; rfl⟩

theorem updateRobotFootprint_recompute (W : World D β Obs G) (st s5 : Costmap2DROS D β Obs G)
    (h : updateRobotFootprint W st = .ok s5) :
    ∃ evs, s5.log = st.log ++ evs
      ∧ ∀ e ∈ evs, Event.isJointLookup e ∨ ∃ i c, e = Event.updateRadii i c := by
  obtain ⟨evs, hl, hev⟩ := lookupJoints_touch W jointFrames st
  unfold updateRobotFootprint at h
  cases hr : lookupJoints W jointFrames st with
  | error x =>
    rw [hr] at h hl
    obtain ⟨e, s1⟩ := x
    simp only [lookupJointsState] at hl
    cases e with
    | LookupException =>
      simp only [Except.ok.injEq] at h
      subst h
      exact ⟨evs, by rw [hl]; rfl, fun e he => Or.inl (hev e he)⟩
    | ConnectivityException => simp at h
    | ExtrapolationException => simp at h
  | ok x =>
    rw [hr] at h hl
    obtain ⟨jt, s1⟩ := x
    simp only [lookupJointsState] at hl
    dsimp only at h
    split at h
    · simp at h
    · rename_i radii _
      simp only [Except.ok.injEq] at h
      subst h
      refine ⟨evs ++ [Event.updateRadii radii.1 radii.2], ?_, ?_⟩
      · rw [hl]
        simp [emit, Costmap2DROS.touch]
      · intro e he
        rcases List.mem_append.mp he with he | he
        · exact Or.inl (hev e he)
        · exact Or.inr ⟨_, _, List.mem_singleton.mp he⟩

theorem updateRobotFootprint_log (W : World D β Obs G) (st s5 : Costmap2DROS D β Obs G)
    (h : updateRobotFootprint W st = .ok s5) :
    ∃ evs, s5.log = st.log ++ evs
      ∧ ∀ e ∈ evs, Event.isFootprintClearing W.grid.FREE_SPACE e := by
  obtain ⟨g, f, evs, hst, hev⟩ := updateRobotFootprint_touch W st W.grid.FREE_SPACE
  rw [h] at hst
  exact ⟨evs, by rw [show s5 = _ from hst]; rfl, hev⟩

theorem updateMap_of_second_unavailable (W : World D β Obs G) (st : Costmap2DROS D β Obs G)
    (h : (getRobotPose W st).1.1 = true)
    (h2 : (getRobotPose W (updateMapWorld W st)).1.1 = false) :
    ∃ st' evs, updateMap W st = .ok st' ∧ st'.log = st.log ++ evs
      ∧ ∀ polygon cost, Event.setConvexPolygonCost polygon cost ∉ evs := by
  obtain ⟨g, b, cur, reads, m, c, hw, hreads⟩ := updateMapWorld_touch W st
  obtain ⟨evs, hexp, hev⟩ := gridStep_log
    (exportMap_step W (getRobotPose W (updateMapWorld W st)).2)
  refine ⟨exportMap W (getRobotPose W (updateMapWorld W st)).2,
    (Event.transformPose st.global_frame_ st.robot_base_frame_ :: reads
      ++ ((if st.rolling_window_ then
            [Event.updateOrigin
              ((getRobotPose W st).1.2.origin.x - W.grid.getSizeInMetersX st.costmap_ / 2)
              ((getRobotPose W st).1.2.origin.y - W.grid.getSizeInMetersY st.costmap_ / 2)]
          else [])
        ++ [Event.updateWorld (getRobotPose W st).1.2.origin.x
              (getRobotPose W st).1.2.origin.y m c]))
      ++ (Event.transformPose st.global_frame_ st.robot_base_frame_ :: evs), ?_, ?_, ?_⟩
  · rw [updateMap_eq_clear W st h]
    simp only [clearRobotFootprint, h2, Bool.not_false, if_true]
  · rw [hexp, getRobotPose_state, hw]
    simp only [emit, Costmap2DROS.touch, List.append_assoc]
    rfl
  · intro polygon cost hmem
    simp only [List.mem_append, List.mem_cons, List.mem_singleton, List.not_mem_nil,
      or_false] at hmem
    rcases hmem with (hmem | hmem) | hmem | hmem
    · rcases hmem with hmem | hmem
      · cases hmem
      · exact absurd (hreads _ hmem) (by simp [Event.isBufferRead])
    · rcases hmem with hmem | hmem
      · split at hmem
        · simp at hmem
        · simp at hmem
      · cases hmem
    · cases hmem
    · exact absurd (hev _ hmem) (by simp [Event.isExport])

/-- C14, as the code has it. In a cycle whose pose resolution succeeds the grid
is mutated by `updateWorld`, then `clearRobotFootprint()` resolves the pose a
second time. When this resolution succeeds and the footprint recompute
returns, `updateMap` returns after a call of `setConvexPolygonCost` with the
free-space value on the active footprint oriented at the second pose (on the
polygon that the circle loop builds on the circle of the inscribed radius
around it when the footprint has fewer than 3 vertices), made after
`updateWorld`. When the second resolution is
unavailable, `updateMap` returns and the cycle has made no call of
`setConvexPolygonCost` at all. -/
theorem updateMap_clears_footprint (W : World D β Obs G) (st : Costmap2DROS D β Obs G)
    (h : (getRobotPose W st).1.1 = true) :
    (∃ pre m c, (updateMapWorld W st).log
        = st.log ++ pre ++ [Event.updateWorld (getRobotPose W st).1.2.origin.x
            (getRobotPose W st).1.2.origin.y m c])
      ∧ (∀ s5, (getRobotPose W (updateMapWorld W st)).1.1 = true →
          updateRobotFootprint W (getRobotPose W (updateMapWorld W st)).2 = .ok s5 →
          ∃ st' recompute rest, updateMap W st = .ok st'
            ∧ st'.log = (updateMapWorld W st).log
                ++ Event.transformPose st.global_frame_ st.robot_base_frame_ :: recompute
                ++ [Event.setConvexPolygonCost
                      (if s5.footprint_spec_.length < 3 then
                        circleFootprint W s5.costmap_
                          (getRobotPose W (updateMapWorld W st)).1.2.origin.x
                          (getRobotPose W (updateMapWorld W st)).1.2.origin.y
                          (W.fl (2 * W.math.M_PI / 72)) 73 0 []
                      else
                        getOrientedFootprint W.math s5.footprint_spec_
                          (getRobotPose W (updateMapWorld W st)).1.2.origin.x
                          (getRobotPose W (updateMapWorld W st)).1.2.origin.y
                          (W.math.getYaw (getRobotPose W (updateMapWorld W st)).1.2.rotation) [])
                      W.grid.FREE_SPACE]
                ++ rest
            ∧ ∀ e ∈ recompute, Event.isJointLookup e ∨ ∃ i c, e = Event.updateRadii i c)
      ∧ ((getRobotPose W (updateMapWorld W st)).1.1 = false →
          ∃ st' evs, updateMap W st = .ok st' ∧ st'.log = st.log ++ evs
            ∧ ∀ polygon cost, Event.setConvexPolygonCost polygon cost ∉ evs) := by
  refine ⟨?_, ?_, updateMap_of_second_unavailable W st h⟩
  · obtain ⟨g, b, cur, reads, m, c, hw, -⟩ := updateMapWorld_touch W st
    refine ⟨Event.transformPose st.global_frame_ st.robot_base_frame_ :: reads
      ++ (if st.rolling_window_ then
            [Event.updateOrigin
              ((getRobotPose W st).1.2.origin.x - W.grid.getSizeInMetersX st.costmap_ / 2)
              ((getRobotPose W st).1.2.origin.y - W.grid.getSizeInMetersY st.costmap_ / 2)]
          else []), m, c, ?_⟩
    rw [hw]
    simp only [Costmap2DROS.touch, List.append_assoc]
  · intro s5 h2 h5
    obtain ⟨st4, rest, hclear, hlog⟩ := clearRobotFootprintAt_of_ok W
      (getRobotPose W (updateMapWorld W st)).1.2 (getRobotPose W (updateMapWorld W st)).2 s5 h5
    obtain ⟨exports, hexp, -⟩ := gridStep_log (exportMap_step W st4)
    obtain ⟨recompute, hrec, hrecP⟩ := updateRobotFootprint_recompute W _ s5 h5
    refine ⟨exportMap W st4, recompute, rest ++ exports, ?_, ?_, hrecP⟩
    · rw [updateMap_eq_clear W st h]
      simp only [clearRobotFootprint, h2, Bool.not_true, Bool.false_eq_true, if_false, hclear]
    · obtain ⟨g, b, cur, reads, m, c, hw, -⟩ := updateMapWorld_touch W st
      rw [hexp, hlog, hrec, getRobotPose_state]
      have hgf : (updateMapWorld W st).global_frame_ = st.global_frame_ := by rw [hw]; rfl
      have hbf : (updateMapWorld W st).robot_base_frame_ = st.robot_base_frame_ := by
        rw [hw]; rfl
      simp only [emit, hgf, hbf, List.append_assoc, List.cons_append, List.nil_append]

theorem Demo.controller_reads (poses : Nat → Except TfException (StampedPose ℚ))
    (joints : Nat → String → Except TfException (Point ℚ))
    (s : Costmap2DROS ℚ Demo.Queue Nat Demo.Grid) (hm : s.marking_buffers_ = [0])
    (hc : s.clearing_buffers_ = [0, 1]) (hb : s.buffers = Demo.controller.buffers) :
    getMarkingObservations (Demo.world poses joints) [] s
        = ((true, [11, 12]), s.touch s.costmap_ s.footprint_spec_ s.buffers s.current_
            [Event.getObservations 0 [11, 12], Event.isCurrent 0 true])
      ∧ getClearingObservations (Demo.world poses joints) [] s
        = ((true, [11, 12, 21]), s.touch s.costmap_ s.footprint_spec_ s.buffers s.current_
            [Event.getObservations 0 [11, 12], Event.isCurrent 0 true,
              Event.getObservations 1 [21], Event.isCurrent 1 true]) := by
  constructor
  · simp [getMarkingObservations, readBuffer, emit, Costmap2DROS.touch, Demo.world,
      Demo.bufferOps, Demo.controller, hm, hb]
  · simp [getClearingObservations, readBuffer, emit, Costmap2DROS.touch, Demo.world,
      Demo.bufferOps, Demo.controller, hc, hb]
    funext p
    by_cases h0 : p = 0 <;> by_cases h1 : p = 1 <;> simp [Function.update, h0, h1]

theorem Demo.controller_updateMapWorld (poses : Nat → Except TfException (StampedPose ℚ))
    (joints : Nat → String → Except TfException (Point ℚ))
    (hp : poses 0 = .ok (Demo.poseAt 0)) :
    (getRobotPose (Demo.world poses joints) Demo.controller).1 = (true, Demo.poseAt 0)
      ∧ updateMapWorld (Demo.world poses joints) Demo.controller
        = Demo.controller.touch
            (Demo.engine.updateWorld 1 1 [11, 12] [11, 12, 21]
              (Demo.engine.updateOrigin (9 / 10) (9 / 10) Demo.grid0))
            Demo.square Demo.controller.buffers true
            [Event.transformPose "/map" "/base_link", Event.getObservations 0 [11, 12],
              Event.isCurrent 0 true, Event.getObservations 0 [11, 12], Event.isCurrent 0 true,
              Event.getObservations 1 [21], Event.isCurrent 1 true,
              Event.updateOrigin (9 / 10) (9 / 10),
              Event.updateWorld 1 1 [11, 12] [11, 12, 21]] := by
  have hpose : getRobotPose (Demo.world poses joints) Demo.controller
      = ((true, Demo.poseAt 0), emit (.transformPose "/map" "/base_link") Demo.controller) := by
    simp [getRobotPose, Demo.world, Demo.listener, Demo.controller, hp, Demo.poseAt]
    norm_num
  refine ⟨by rw [hpose], ?_⟩
  obtain ⟨hm, -⟩ := Demo.controller_reads poses joints
    (emit (.transformPose "/map" "/base_link") Demo.controller) rfl rfl rfl
  obtain ⟨-, hc⟩ := Demo.controller_reads poses joints
    (getMarkingObservations (Demo.world poses joints) []
      (emit (.transformPose "/map" "/base_link") Demo.controller)).2
    (by rw [hm]; rfl) (by rw [hm]; rfl) (by rw [hm]; rfl)
  unfold updateMapWorld
  simp only [hpose]
  rw [hc, hm]
  simp only [applyObservations, emit, Costmap2DROS.touch, Demo.world, Demo.engine,
    Demo.controller, Demo.grid0, Demo.poseAt, if_true]
  norm_num

theorem Demo.noJoints_updateRobotFootprint (poses : Nat → Except TfException (StampedPose ℚ))
    (s : Costmap2DROS ℚ Demo.Queue Nat Demo.Grid) :
    updateRobotFootprint (Demo.world poses Demo.noJoints) s
      = .ok (emit (.lookupTransform "/base_footprint" "/r_elbow_flex_link") s) := rfl

/-- C14, the claim as stated fails: the transform publisher has stalled, the
pose stamped 0 is accepted by the first resolution of the cycle (at 0 s) and
refused by the resolution of `clearRobotFootprint()` (at 0.9 s, beyond the
tolerance of 0.3 s): the cycle calls `updateWorld` and returns without any call
of `setConvexPolygonCost`. -/
theorem updateMap_without_footprint_clearing :
    (getRobotPose (Demo.world Demo.stalledPoses Demo.noJoints) Demo.controller).1.1 = true
      ∧ ∃ st', updateMap (Demo.world Demo.stalledPoses Demo.noJoints) Demo.controller = .ok st'
          ∧ st'.log
            = [Event.transformPose "/map" "/base_link", Event.getObservations 0 [11, 12],
                Event.isCurrent 0 true, Event.getObservations 0 [11, 12],
                Event.isCurrent 0 true, Event.getObservations 1 [21], Event.isCurrent 1 true,
                Event.updateOrigin (9 / 10) (9 / 10),
                Event.updateWorld 1 1 [11, 12] [11, 12, 21],
                Event.transformPose "/map" "/base_link"]
          ∧ ∀ polygon cost, Event.setConvexPolygonCost polygon cost ∉ st'.log := by
  obtain ⟨hp1, hw⟩ := Demo.controller_updateMapWorld Demo.stalledPoses Demo.noJoints rfl
  have h1 : (getRobotPose (Demo.world Demo.stalledPoses Demo.noJoints) Demo.controller).1.1
      = true := by rw [hp1]
  have h2 : getRobotPose (Demo.world Demo.stalledPoses Demo.noJoints)
        (updateMapWorld (Demo.world Demo.stalledPoses Demo.noJoints) Demo.controller)
      = ((false, Demo.poseAt 0), emit (.transformPose "/map" "/base_link")
          (updateMapWorld (Demo.world Demo.stalledPoses Demo.noJoints) Demo.controller)) := by
    rw [hw]
    simp [getRobotPose, Costmap2DROS.touch, Demo.world, Demo.listener, Demo.stalledPoses,
      Demo.controller, Demo.poseAt]
    norm_num
  refine ⟨h1, emit (.transformPose "/map" "/base_link")
    (updateMapWorld (Demo.world Demo.stalledPoses Demo.noJoints) Demo.controller), ?_, ?_, ?_⟩
  · rw [updateMap_eq_clear _ _ h1]
    simp only [clearRobotFootprint, h2, Bool.not_false, if_true]
    rw [hw]
    rfl
  · rw [hw]
    rfl
  · rw [hw]
    intro polygon cost hmem
    simp [emit, Costmap2DROS.touch, Demo.controller] at hmem

/-- C14 as the code has it, on a concrete input: with a fresh pose at both
resolutions the cycle of the demo controller calls `updateWorld`, resolves the
pose again, fails to look up the first arm link (the footprint stays the
square) and clears the square oriented at the pose. -/
theorem updateMap_clears_footprint_witness :
    ∃ st' recompute rest,
      updateMap (Demo.world Demo.freshPoses Demo.noJoints) Demo.controller = .ok st'
        ∧ st'.log
          = [Event.transformPose "/map" "/base_link", Event.getObservations 0 [11, 12],
              Event.isCurrent 0 true, Event.getObservations 0 [11, 12],
              Event.isCurrent 0 true, Event.getObservations 1 [21], Event.isCurrent 1 true,
              Event.updateOrigin (9 / 10) (9 / 10),
              Event.updateWorld 1 1 [11, 12] [11, 12, 21]]
            ++ Event.transformPose "/map" "/base_link" :: recompute
            ++ [Event.setConvexPolygonCost
                  (getOrientedFootprint Demo.mathLib Demo.square 1 1 0 []) 0]
            ++ rest := by
  have hfresh : Demo.freshPoses 0 = .ok (Demo.poseAt 0) := by simp [Demo.freshPoses]
  obtain ⟨hp1, hw⟩ := Demo.controller_updateMapWorld Demo.freshPoses Demo.noJoints hfresh
  have h2 := Demo.freshPoses_available Demo.noJoints
    (updateMapWorld (Demo.world Demo.freshPoses Demo.noJoints) Demo.controller)
    (by rw [hw]; norm_num [Costmap2DROS.touch, Demo.controller])
  obtain ⟨st', recompute, rest, hok, hlog, -⟩ :=
    (updateMap_clears_footprint (Demo.world Demo.freshPoses Demo.noJoints) Demo.controller
      (by rw [hp1])).2.1 _ (by rw [h2]) (Demo.noJoints_updateRobotFootprint _ _)
  refine ⟨st', recompute, rest, hok, ?_⟩
  rw [hlog, h2, hw]
  simp [emit, Costmap2DROS.touch, Demo.controller, Demo.square, Demo.world, Demo.engine,
    Demo.mathLib, Demo.poseAt]

end FootprintClearing

section FootprintRecompute

set_option linter.unusedSectionVars false

variable {D β Obs G : Type} [LinearOrderedField D]

theorem lookupJoints_error_of_failure (W : World D β Obs G) (fs : List String)
    (st : Costmap2DROS D β Obs G) (k : Nat) (e : TfException) (hk : k < fs.length)
    (hfail : W.tf.lookupTransform (st.log.length + k) "/base_footprint" (fs.getD k "")
      = .error e) :
    ∃ x, lookupJoints W fs st = .error x := by
  induction fs generalizing st k with
  | nil => simp at hk
  | cons f fs ih =>
    unfold lookupJoints
    cases k with
    | zero =>
      simp only [Nat.add_zero, List.getD_cons_zero] at hfail
      rw [hfail]
      exact ⟨_, rfl⟩
    | succ k =>
      cases hl : W.tf.lookupTransform st.log.length "/base_footprint" f with
      | error e1 => exact ⟨_, rfl⟩
      | ok p =>
        dsimp only
        obtain ⟨x, hx⟩ := ih (emit (.lookupTransform "/base_footprint" f) st) k
          (by simpa using hk)
          (by
            have : (emit (Event.lookupTransform "/base_footprint" f) st).log.length + k
                = st.log.length + (k + 1) := by simp [emit]; omega
            rw [this]
            simpa using hfail)
        rw [hx]
        exact ⟨_, rfl⟩

theorem lookupJoints_error_source (W : World D β Obs G) (fs : List String)
    (st : Costmap2DROS D β Obs G) (x : TfException × Costmap2DROS D β Obs G)
    (h : lookupJoints W fs st = .error x) :
    ∃ j, W.tf.lookupTransform (st.log.length + j) "/base_footprint" (fs.getD j "")
      = .error x.1 := by
  induction fs generalizing st with
  | nil => simp [lookupJoints] at h
  | cons f fs ih =>
    unfold lookupJoints at h
    cases hl : W.tf.lookupTransform st.log.length "/base_footprint" f with
    | error e1 =>
      rw [hl] at h
      simp only [Except.error.injEq] at h
      subst h
      exact ⟨0, by simpa using hl⟩
    | ok p =>
      rw [hl] at h
      dsimp only at h
      cases hr : lookupJoints W fs (emit (.lookupTransform "/base_footprint" f) st) with
      | error y =>
        rw [hr] at h
        simp only [Except.error.injEq] at h
        subst h
        obtain ⟨j, hj⟩ := ih _ hr
        refine ⟨j + 1, ?_⟩
        have : (emit (Event.lookupTransform "/base_footprint" f) st).log.length + j
            = st.log.length + (j + 1) := by simp [emit]; omega
        rw [this] at hj
        simpa using hj
      | ok y =>
        rw [hr] at h
        obtain ⟨ps, s2⟩ := y
        simp at h

theorem updateRobotFootprint_of_error (W : World D β Obs G) (st : Costmap2DROS D β Obs G)
    (x : TfException × Costmap2DROS D β Obs G) (h : lookupJoints W jointFrames st = .error x) :
    ∃ evs, (updateRobotFootprint W st).state
        = st.touch st.costmap_ st.footprint_spec_ st.buffers st.current_ evs
      ∧ (∀ e ∈ evs, Event.isJointLookup e)
      ∧ (x.1 = TfException.LookupException →
          updateRobotFootprint W st = .ok (updateRobotFootprint W st).state) := by
  obtain ⟨evs, hl, hev⟩ := lookupJoints_touch W jointFrames st
  rw [h] at hl
  obtain ⟨e, s1⟩ := x
  simp only [lookupJointsState] at hl
  refine ⟨evs, ?_, hev, ?_⟩
  · unfold updateRobotFootprint
    rw [h]
    cases e <;> exact hl
  · intro he
    have he' : e = TfException.LookupException := he
    subst he'
    unfold updateRobotFootprint
    rw [h]
    rfl

/-- C15: when one of the eight kinematic lookups of `updateRobotFootprint`
fails (the lookup of the joint frame number `k`, made at its instant, throws),
the function ends before it writes anything: the active footprint
`footprint_spec_`, the grid with its inscribed and circumscribed radius and
the base footprint are exactly those before the call, and the only
collaborator calls made are kinematic lookups (no `updateRadii`). The function
returns normally when the exception is a `LookupException`. -/
theorem updateRobotFootprint_failure_keeps_footprint (W : World D β Obs G)
    (st : Costmap2DROS D β Obs G) (k : Nat) (e : TfException) (hk : k < jointFrames.length)
    (hfail : W.tf.lookupTransform (st.log.length + k) "/base_footprint"
      (jointFrames.getD k "") = .error e) :
    (updateRobotFootprint W st).state.footprint_spec_ = st.footprint_spec_
      ∧ (updateRobotFootprint W st).state.costmap_ = st.costmap_
      ∧ W.grid.getInscribedRadius (updateRobotFootprint W st).state.costmap_
          = W.grid.getInscribedRadius st.costmap_
      ∧ W.grid.getCircumscribedRadius (updateRobotFootprint W st).state.costmap_
          = W.grid.getCircumscribedRadius st.costmap_
      ∧ (updateRobotFootprint W st).state.base_footprint_spec_ = st.base_footprint_spec_
      ∧ (∃ evs, (updateRobotFootprint W st).state.log = st.log ++ evs
          ∧ ∀ e ∈ evs, Event.isJointLookup e)
      ∧ ((∀ j e1, W.tf.lookupTransform (st.log.length + j) "/base_footprint"
              (jointFrames.getD j "") = .error e1 → e1 = TfException.LookupException) →
          ∃ st', updateRobotFootprint W st = .ok st') := by
  obtain ⟨x, hx⟩ := lookupJoints_error_of_failure W jointFrames st k e hk hfail
  obtain ⟨evs, hst, hev, hret⟩ := updateRobotFootprint_of_error W st x hx
  rw [hst]
  refine ⟨rfl, rfl, rfl, rfl, rfl, ⟨evs, rfl, hev⟩, ?_⟩
  intro hall
  obtain ⟨j, hj⟩ := lookupJoints_error_source W jointFrames st x hx
  exact ⟨_, hret (hall j x.1 hj)⟩

/-- C15, on a concrete input: the robot has no arm links, so the first lookup
fails; the square footprint and the grid of the demo controller are kept and
the function returns. -/
theorem updateRobotFootprint_failure_keeps_footprint_witness :
    (updateRobotFootprint (Demo.world Demo.freshPoses Demo.noJoints)
        Demo.controller).state.footprint_spec_ = Demo.square
      ∧ (updateRobotFootprint (Demo.world Demo.freshPoses Demo.noJoints)
        Demo.controller).state.costmap_ = Demo.grid0
      ∧ ∃ st', updateRobotFootprint (Demo.world Demo.freshPoses Demo.noJoints)
          Demo.controller = .ok st' := by
  obtain ⟨h1, h2, -, -, -, -, h3⟩ :=
    updateRobotFootprint_failure_keeps_footprint (Demo.world Demo.freshPoses Demo.noJoints)
      Demo.controller 0 TfException.LookupException (by decide) rfl
  refine ⟨h1, h2, h3 ?_⟩
  intro j e1 he1
  cases he1
  rfl

end FootprintRecompute

/-! ## Footprint radii: C16 to C18 -/

section Radii

set_option linter.unusedSectionVars false

variable {D : Type} [LinearOrderedField D]

theorem distance_nonneg (M : MathLib D) (hsqrt : ∀ x, 0 ≤ M.sqrt x) (x0 y0 x1 y1 : D) :
    0 ≤ distance M x0 y0 x1 y1 := hsqrt _

theorem distanceToLine_nonneg (M : MathLib D) (hsqrt : ∀ x, 0 ≤ M.sqrt x)
    (pX pY x0 y0 x1 y1 : D) : 0 ≤ distanceToLine M pX pY x0 y0 x1 y1 := by
  unfold distanceToLine
  dsimp only
  split
  · exact hsqrt _
  · split <;> exact hsqrt _

theorem radiiStep_fst_le_snd (M : MathLib D) (acc : D × D) (a b : Point D) :
    (radiiStep M acc a b).1 ≤ (radiiStep M acc a b).2 := by
  unfold radiiStep
  dsimp only
  exact le_trans (min_le_right _ _) (le_trans (min_le_left _ _)
    (le_trans (le_max_left _ _) (le_max_right _ _)))

theorem radiiStep_snd_nonneg (M : MathLib D) (acc : D × D) (a b : Point D) (h : 0 ≤ acc.2) :
    0 ≤ (radiiStep M acc a b).2 :=
  le_trans h (le_max_left _ _)

theorem radiiStep_fst_nonneg (M : MathLib D) (hsqrt : ∀ x, 0 ≤ M.sqrt x) (acc : D × D)
    (a b : Point D) (h : 0 ≤ acc.1) : 0 ≤ (radiiStep M acc a b).1 :=
  le_min h (le_min (distance_nonneg M hsqrt _ _ _ _) (distanceToLine_nonneg M hsqrt _ _ _ _ _ _))

theorem radiiFold_snd_nonneg (M : MathLib D) (l : List (Point D × Point D)) (acc : D × D)
    (h : 0 ≤ acc.2) :
    0 ≤ (l.foldl (fun acc ab => radiiStep M acc ab.1 ab.2) acc).2 := by
  induction l generalizing acc with
  | nil => exact h
  | cons ab l ih => exact ih _ (radiiStep_snd_nonneg M acc ab.1 ab.2 h)

theorem radiiFold_fst_nonneg (M : MathLib D) (hsqrt : ∀ x, 0 ≤ M.sqrt x)
    (l : List (Point D × Point D)) (acc : D × D) (h : 0 ≤ acc.1) :
    0 ≤ (l.foldl (fun acc ab => radiiStep M acc ab.1 ab.2) acc).1 := by
  induction l generalizing acc with
  | nil => exact h
  | cons ab l ih => exact ih _ (radiiStep_fst_nonneg M hsqrt acc ab.1 ab.2 h)

/-- C16: on a footprint of at least 3 vertices `computeRadii` returns a pair
`(inscribed, circumscribed)` with `inscribed ≤ circumscribed` and
`0 ≤ circumscribed`; and `0 ≤ inscribed` as soon as the library `sqrt` returns
no negative number and `DBL_MAX` is not negative. -/
theorem computeRadii_ordered (M : MathLib D) (footprint_spec_ : List (Point D))
    (h3 : 3 ≤ footprint_spec_.length) :
    ∃ r, computeRadii M footprint_spec_ = some r ∧ r.1 ≤ r.2 ∧ 0 ≤ r.2
      ∧ ((∀ x, 0 ≤ M.sqrt x) → 0 ≤ M.DBL_MAX → 0 ≤ r.1) := by
  cases footprint_spec_ with
  | nil => simp at h3
  | cons first rest =>
    refine ⟨_, rfl, radiiStep_fst_le_snd M _ _ _, ?_, ?_⟩
    · exact radiiStep_snd_nonneg M _ _ _ (radiiFold_snd_nonneg M _ _ (le_refl _))
    · intro hsqrt hmax
      exact radiiStep_fst_nonneg M hsqrt _ _ _ (radiiFold_fst_nonneg M hsqrt _ _ hmax)

/-- C16, on a concrete input: the square of half-width 1/4 with the rational
stand-ins of the numeric library. -/
theorem computeRadii_ordered_witness :
    ∃ r, computeRadii Demo.mathLib Demo.square = some r ∧ r.1 ≤ r.2 ∧ 0 ≤ r.2 ∧ 0 ≤ r.1 := by
  obtain ⟨r, h, h1, h2, h3⟩ := computeRadii_ordered Demo.mathLib Demo.square (by decide)
  refine ⟨r, h, h1, h2, h3 ?_ ?_⟩
  · intro x
    simp only [Demo.mathLib]
    positivity
  · simp only [Demo.mathLib]
    positivity

end Radii

section Square

theorem distance_real (M : MathLib ℝ) (hsqrt : M.sqrt = Real.sqrt) (x0 y0 x1 y1 : ℝ) :
    distance M x0 y0 x1 y1 = Real.sqrt ((x1 - x0) ^ 2 + (y1 - y0) ^ 2) := by
  unfold distance
  rw [hsqrt]
  congr 1
  ring

theorem distance_square_vertex (M : MathLib ℝ) (hsqrt : M.sqrt = Real.sqrt) (w x y : ℝ)
    (hw : 0 ≤ w) (hx : x ^ 2 = w ^ 2) (hy : y ^ 2 = w ^ 2) :
    distance M 0 0 x y = w * Real.sqrt 2 := by
  rw [distance_real M hsqrt]
  have : (x - 0) ^ 2 + (y - 0) ^ 2 = w ^ 2 * 2 := by
    rw [sub_zero, sub_zero, hx, hy]
    ring
  rw [this, Real.sqrt_mul (sq_nonneg w), Real.sqrt_sq hw]

theorem distanceToLine_square_edge (M : MathLib ℝ) (hsqrt : M.sqrt = Real.sqrt)
    (w x0 y0 x1 y1 : ℝ) (hw : 0 < w)
    (hdot : (0 - x0) * (x1 - x0) + (0 - y0) * (y1 - y0) = 2 * w ^ 2)
    (hlen : (x1 - x0) * (x1 - x0) + (y1 - y0) * (y1 - y0) = 4 * w ^ 2)
    (hfoot : ((x0 + x1) / 2) ^ 2 + ((y0 + y1) / 2) ^ 2 = w ^ 2) :
    distanceToLine M 0 0 x0 y0 x1 y1 = w := by
  have hparam : ((0 - x0) * (x1 - x0) + (0 - y0) * (y1 - y0))
      / ((x1 - x0) * (x1 - x0) + (y1 - y0) * (y1 - y0)) = 1 / 2 := by
    rw [hdot, hlen]
    have : w ^ 2 ≠ 0 := pow_ne_zero 2 (ne_of_gt hw)
    field_simp
    ring
  unfold distanceToLine
  simp only [hparam]
  rw [if_neg (by norm_num), if_neg (by norm_num), distance_real M hsqrt]
  have : (x0 + 1 / 2 * (x1 - x0) - 0) ^ 2 + (y0 + 1 / 2 * (y1 - y0) - 0) ^ 2 = w ^ 2 := by
    rw [← hfoot]
    ring
  rw [this, Real.sqrt_sq (le_of_lt hw)]

/-- C17: over the real numbers, with `sqrt` the real square root, `computeRadii`
on the square footprint with the vertices `(w, w)`, `(-w, w)`, `(-w, -w)`,
`(w, -w)`, `w > 0`, returns `inscribed = w` and `circumscribed = w * √2`
(`DBL_MAX`, the start value of the minimum, being at least `w`). -/
theorem computeRadii_square (M : MathLib ℝ) (w : ℝ) (hw : 0 < w) (hsqrt : M.sqrt = Real.sqrt)
    (hmax : w ≤ M.DBL_MAX) :
    computeRadii M [⟨w, w, 0⟩, ⟨-w, w, 0⟩, ⟨-w, -w, 0⟩, ⟨w, -w, 0⟩]
      = some (w, w * Real.sqrt 2) := by
  have h2 : w ≤ w * Real.sqrt 2 := by
    have : (1 : ℝ) ≤ Real.sqrt 2 := by
      rw [show (1 : ℝ) = Real.sqrt 1 from Real.sqrt_one.symm]
      exact Real.sqrt_le_sqrt (by norm_num)
    nlinarith
  have hv : ∀ x y : ℝ, x ^ 2 = w ^ 2 → y ^ 2 = w ^ 2 →
      distance M 0 0 x y = w * Real.sqrt 2 :=
    fun x y hx hy => distance_square_vertex M hsqrt w x y (le_of_lt hw) hx hy
  have he : ∀ x0 y0 x1 y1 : ℝ,
      (0 - x0) * (x1 - x0) + (0 - y0) * (y1 - y0) = 2 * w ^ 2 →
      (x1 - x0) * (x1 - x0) + (y1 - y0) * (y1 - y0) = 4 * w ^ 2 →
      ((x0 + x1) / 2) ^ 2 + ((y0 + y1) / 2) ^ 2 = w ^ 2 →
      distanceToLine M 0 0 x0 y0 x1 y1 = w :=
    fun x0 y0 x1 y1 => distanceToLine_square_edge M hsqrt w x0 y0 x1 y1 hw
  have hpos : (0 : ℝ) ≤ w * Real.sqrt 2 := le_trans (le_of_lt hw) h2
  simp only [computeRadii, List.zip_cons_cons, List.zip_nil_right, List.foldl_cons,
    List.foldl_nil, radiiStep, List.getLast_cons_cons, List.getLast_singleton]
  rw [hv w w rfl rfl, hv (-w) w (by ring) rfl, hv (-w) (-w) (by ring) (by ring),
    hv w (-w) rfl (by ring),
    he w w (-w) w (by ring) (by ring) (by ring),
    he (-w) w (-w) (-w) (by ring) (by ring) (by ring),
    he (-w) (-w) w (-w) (by ring) (by ring) (by ring),
    he w (-w) w w (by ring) (by ring) (by ring)]
  simp [min_eq_right h2, min_eq_right hmax, max_eq_left h2, max_eq_right hpos]

/-- C17, on a concrete input: the square of half-width 2 over the real
numbers. -/
theorem computeRadii_square_witness :
    computeRadii
        { sqrt := Real.sqrt, cos := Real.cos, sin := Real.sin,
          getYaw := fun q =>
            Complex.arg ⟨1 - 2 * (q.y ^ 2 + q.z ^ 2), 2 * (q.w * q.z + q.x * q.y)⟩,
          M_PI := Real.pi, DBL_MAX := 2 ^ 1024, convexHull := id }
        [⟨2, 2, 0⟩, ⟨-2, 2, 0⟩, ⟨-2, -2, 0⟩, ⟨2, -2, 0⟩]
      = some (2, 2 * Real.sqrt 2) :=
  computeRadii_square _ 2 (by norm_num) rfl (by norm_num)

end Square

section RadiiFold

set_option linter.unusedSectionVars false

variable {D : Type} [LinearOrderedField D]

theorem vertexAt_of_lt (fp : List (Point D)) (i : Nat) (hi : i < fp.length) :
    vertexAt fp i = fp.get ⟨i, hi⟩ := by
  unfold vertexAt
  rw [Nat.mod_eq_of_lt hi]
  simp [List.getD_eq_getElem, hi]

theorem vertexAt_mem (fp : List (Point D)) (i : Nat) (h : fp ≠ []) : vertexAt fp i ∈ fp := by
  have hpos : 0 < fp.length := List.length_pos.mpr h
  have hlt : i % fp.length < fp.length := Nat.mod_lt _ hpos
  unfold vertexAt
  rw [List.getD_eq_getElem _ _ hlt]
  exact List.getElem_mem _

theorem vertexAt_add_length (fp : List (Point D)) (i : Nat) :
    vertexAt fp (i + fp.length) = vertexAt fp i := by
  unfold vertexAt
  rw [Nat.add_mod_right]

theorem vertexAt_mod_add (fp : List (Point D)) (i k : Nat) :
    vertexAt fp (i % fp.length + k) = vertexAt fp (i + k) := by
  unfold vertexAt
  rw [Nat.add_mod, Nat.mod_mod, ← Nat.add_mod]

theorem exists_vertexAt_of_mem (fp : List (Point D)) (v : Point D) (hv : v ∈ fp) :
    ∃ i < fp.length, vertexAt fp i = v := by
  obtain ⟨i, hi, h⟩ := List.getElem_of_mem hv
  exact ⟨i, hi, by rw [vertexAt_of_lt fp i hi]; exact h⟩

theorem computeRadii_eq_fold (M : MathLib D) (first : Point D) (rest : List (Point D)) :
    computeRadii M (first :: rest)
      = some ((polygonEdges (first :: rest)).foldl (fun acc ab => radiiStep M acc ab.1 ab.2)
          (M.DBL_MAX, 0)) := by
  have hedges : polygonEdges (first :: rest)
      = (first :: rest).zip rest
          ++ [((first :: rest).getLast (List.cons_ne_nil first rest), first)] := by
    apply List.ext_getElem
    · simp [polygonEdges]
    · intro i h1 h2
      have hi : i < rest.length + 1 := by simpa [polygonEdges] using h1
      simp only [polygonEdges, List.getElem_map, List.getElem_range]
      by_cases hlt : i < rest.length
      · rw [List.getElem_append_left (by simp; omega)]
        simp only [List.getElem_zip]
        rw [vertexAt_of_lt _ i (by simp; omega), vertexAt_of_lt _ (i + 1) (by simp; omega)]
        simp
      · have hieq : i = rest.length := by omega
        subst hieq
        rw [List.getElem_append_right (by simp)]
        simp only [List.length_zip, List.length_cons, Nat.le_add_right, inf_of_le_right,
          Nat.sub_self, List.getElem_cons_zero, Prod.mk.injEq]
        constructor
        · rw [vertexAt_of_lt _ _ (by simp), List.getLast_eq_getElem]
          simp
        · unfold vertexAt
          simp
  rw [hedges, List.foldl_append]
  rfl

theorem radiiFold_bounds (M : MathLib D) (l : List (Point D × Point D)) (acc : D × D) :
    (l.foldl (fun acc ab => radiiStep M acc ab.1 ab.2) acc).1 ≤ acc.1
      ∧ acc.2 ≤ (l.foldl (fun acc ab => radiiStep M acc ab.1 ab.2) acc).2
      ∧ (∀ ab ∈ l,
          (l.foldl (fun acc ab => radiiStep M acc ab.1 ab.2) acc).1
              ≤ distance M 0 0 ab.1.x ab.1.y
            ∧ (l.foldl (fun acc ab => radiiStep M acc ab.1 ab.2) acc).1
              ≤ distanceToLine M 0 0 ab.1.x ab.1.y ab.2.x ab.2.y
            ∧ distance M 0 0 ab.1.x ab.1.y
              ≤ (l.foldl (fun acc ab => radiiStep M acc ab.1 ab.2) acc).2
            ∧ distanceToLine M 0 0 ab.1.x ab.1.y ab.2.x ab.2.y
              ≤ (l.foldl (fun acc ab => radiiStep M acc ab.1 ab.2) acc).2) := by
  induction l generalizing acc with
  | nil => simp
  | cons ab l ih =>
    obtain ⟨h1, h2, h3⟩ := ih (radiiStep M acc ab.1 ab.2)
    simp only [List.foldl_cons]
    refine ⟨le_trans h1 (min_le_left _ _), le_trans (le_max_left _ _) h2, ?_⟩
    intro cd hcd
    rcases List.mem_cons.mp hcd with hcd | hcd
    · subst hcd
      exact ⟨le_trans h1 (le_trans (min_le_right _ _) (min_le_left _ _)),
        le_trans h1 (le_trans (min_le_right _ _) (min_le_right _ _)),
        le_trans (le_trans (le_max_left _ _) (le_max_right _ _)) h2,
        le_trans (le_trans (le_max_right _ _) (le_max_right _ _)) h2⟩
    · exact h3 cd hcd

theorem radiiFold_attained (M : MathLib D) (l : List (Point D × Point D)) (acc : D × D) :
    ((l.foldl (fun acc ab => radiiStep M acc ab.1 ab.2) acc).1 = acc.1
        ∨ ∃ ab ∈ l,
          (l.foldl (fun acc ab => radiiStep M acc ab.1 ab.2) acc).1
              = distance M 0 0 ab.1.x ab.1.y
            ∨ (l.foldl (fun acc ab => radiiStep M acc ab.1 ab.2) acc).1
              = distanceToLine M 0 0 ab.1.x ab.1.y ab.2.x ab.2.y)
      ∧ ((l.foldl (fun acc ab => radiiStep M acc ab.1 ab.2) acc).2 = acc.2
        ∨ ∃ ab ∈ l,
          (l.foldl (fun acc ab => radiiStep M acc ab.1 ab.2) acc).2
              = distance M 0 0 ab.1.x ab.1.y
            ∨ (l.foldl (fun acc ab => radiiStep M acc ab.1 ab.2) acc).2
              = distanceToLine M 0 0 ab.1.x ab.1.y ab.2.x ab.2.y) := by
  induction l generalizing acc with
  | nil => simp
  | cons ab l ih =>
    obtain ⟨h1, h2⟩ := ih (radiiStep M acc ab.1 ab.2)
    simp only [List.foldl_cons]
    constructor
    · rcases h1 with h1 | ⟨cd, hcd, h1⟩
      · rw [h1]
        simp only [radiiStep]
        rcases min_choice acc.1 (min (distance M 0 0 ab.1.x ab.1.y)
          (distanceToLine M 0 0 ab.1.x ab.1.y ab.2.x ab.2.y)) with h | h
        · exact Or.inl h
        · right
          refine ⟨ab, List.mem_cons_self _ _, ?_⟩
          rw [h]
          rcases min_choice (distance M 0 0 ab.1.x ab.1.y)
            (distanceToLine M 0 0 ab.1.x ab.1.y ab.2.x ab.2.y) with h' | h'
          · exact Or.inl h'
          · exact Or.inr h'
      · exact Or.inr ⟨cd, List.mem_cons_of_mem _ hcd, h1⟩
    · rcases h2 with h2 | ⟨cd, hcd, h2⟩
      · rw [h2]
        simp only [radiiStep]
        rcases max_choice acc.2 (max (distance M 0 0 ab.1.x ab.1.y)
          (distanceToLine M 0 0 ab.1.x ab.1.y ab.2.x ab.2.y)) with h | h
        · exact Or.inl h
        · right
          refine ⟨ab, List.mem_cons_self _ _, ?_⟩
          rw [h]
          rcases max_choice (distance M 0 0 ab.1.x ab.1.y)
            (distanceToLine M 0 0 ab.1.x ab.1.y ab.2.x ab.2.y) with h' | h'
          · exact Or.inl h'
          · exact Or.inr h'
      · exact Or.inr ⟨cd, List.mem_cons_of_mem _ hcd, h2⟩

end RadiiFold

section Segment

theorem distanceToLine_le_point (M : MathLib ℝ) (hsqrt : M.sqrt = Real.sqrt)
    (ax ay bx by' t : ℝ) (ht0 : 0 ≤ t) (ht1 : t ≤ 1) :
    distanceToLine M 0 0 ax ay bx by'
      ≤ Real.sqrt ((ax + t * (bx - ax)) ^ 2 + (ay + t * (by' - ay)) ^ 2) := by
  have hlen : 0 ≤ (bx - ax) * (bx - ax) + (by' - ay) * (by' - ay) := by nlinarith [sq_nonneg (bx - ax), sq_nonneg (by' - ay)]
  unfold distanceToLine
  dsimp only
  split
  · rename_i hp
    rw [distance_real M hsqrt]
    apply Real.sqrt_le_sqrt
    rcases eq_or_lt_of_le hlen with h0 | hpos
    · rw [← h0] at hp
      simp at hp
    · have hdot : (0 - ax) * (bx - ax) + (0 - ay) * (by' - ay) < 0 := by
        by_contra hc
        exact absurd hp (not_lt.mpr (div_nonneg (not_lt.mp hc) hlen))
      nlinarith [mul_nonneg ht0 ht0, mul_nonneg ht0 (le_of_lt hpos)]
  · split
    · rename_i _ hp
      rw [distance_real M hsqrt]
      apply Real.sqrt_le_sqrt
      rcases eq_or_lt_of_le hlen with h0 | hpos
      · rw [← h0] at hp
        simp at hp
        linarith
      · have hdot : (bx - ax) * (bx - ax) + (by' - ay) * (by' - ay)
            < (0 - ax) * (bx - ax) + (0 - ay) * (by' - ay) := by
          rwa [gt_iff_lt, lt_div_iff₀ hpos, one_mul] at hp
        nlinarith [mul_nonneg (sub_nonneg.mpr ht1) (sub_nonneg.mpr ht1),
          mul_nonneg (sub_nonneg.mpr ht1) (le_of_lt hpos)]
    · rw [distance_real M hsqrt]
      apply Real.sqrt_le_sqrt
      rcases eq_or_lt_of_le hlen with h0 | hpos
      · have hC : bx - ax = 0 := by nlinarith [sq_nonneg (bx - ax), sq_nonneg (by' - ay)]
        have hD : by' - ay = 0 := by nlinarith [sq_nonneg (bx - ax), sq_nonneg (by' - ay)]
        simp [hC, hD]
      · set p := ((0 - ax) * (bx - ax) + (0 - ay) * (by' - ay))
          / ((bx - ax) * (bx - ax) + (by' - ay) * (by' - ay)) with hp
        have hpl : p * ((bx - ax) * (bx - ax) + (by' - ay) * (by' - ay))
            = (0 - ax) * (bx - ax) + (0 - ay) * (by' - ay) := by
          rw [hp]
          field_simp
        nlinarith [mul_nonneg (le_of_lt hpos) (sq_nonneg (t - p))]

theorem distanceToLine_attained (M : MathLib ℝ) (hsqrt : M.sqrt = Real.sqrt)
    (ax ay bx by' : ℝ) :
    ∃ t, 0 ≤ t ∧ t ≤ 1 ∧ distanceToLine M 0 0 ax ay bx by'
      = Real.sqrt ((ax + t * (bx - ax)) ^ 2 + (ay + t * (by' - ay)) ^ 2) := by
  unfold distanceToLine
  dsimp only
  split
  · refine ⟨0, le_refl _, zero_le_one, ?_⟩
    rw [distance_real M hsqrt]
    congr 1
    ring
  · split
    · refine ⟨1, zero_le_one, le_refl _, ?_⟩
      rw [distance_real M hsqrt]
      congr 1
      ring
    · rename_i h0 h1
      refine ⟨_, not_lt.mp h0, not_lt.mp h1, ?_⟩
      rw [distance_real M hsqrt]
      congr 1
      ring

end Segment

section PolygonGeometry

theorem turn_affine (o a : Point ℝ) (x y τ : ℝ) :
    turn o a ⟨τ * x, τ * y, 0⟩ = (1 - τ) * turn o a ⟨0, 0, 0⟩ + τ * turn o a ⟨x, y, 0⟩ := by
  simp only [turn]
  ring

/-- A point of the region that lies on the line of an edge lies on the edge. -/
theorem on_edge_of_on_line (s : ℝ) (p a b c q : Point ℝ)
    (h1 : 0 < s * turn p a b) (h2 : 0 < s * turn a b c) (hq : s * turn a b q = 0)
    (hqp : 0 ≤ s * turn p a q) (hqc : 0 ≤ s * turn b c q) :
    ∃ t, 0 ≤ t ∧ t ≤ 1 ∧ q.x = a.x + t * (b.x - a.x) ∧ q.y = a.y + t * (b.y - a.y) := by
  have hs : s ≠ 0 := by
    rintro rfl
    simp at h1
  have hq0 : turn a b q = 0 := by
    rcases mul_eq_zero.mp hq with h | h
    · exact absurd h hs
    · exact h
  have hlen : 0 < (b.x - a.x) ^ 2 + (b.y - a.y) ^ 2 := by
    by_contra hc
    have hx : b.x - a.x = 0 := by nlinarith [sq_nonneg (b.x - a.x), sq_nonneg (b.y - a.y)]
    have hy : b.y - a.y = 0 := by nlinarith [sq_nonneg (b.x - a.x), sq_nonneg (b.y - a.y)]
    have : turn a b c = 0 := by
      simp only [turn, hx, hy]
      ring
    rw [this] at h2
    simp at h2
  obtain ⟨t, ht⟩ : ∃ t, t = ((q.x - a.x) * (b.x - a.x) + (q.y - a.y) * (b.y - a.y))
      / ((b.x - a.x) ^ 2 + (b.y - a.y) ^ 2) := ⟨_, rfl⟩
  have htl : t * ((b.x - a.x) ^ 2 + (b.y - a.y) ^ 2)
      = (q.x - a.x) * (b.x - a.x) + (q.y - a.y) * (b.y - a.y) := by
    rw [ht]
    field_simp
  simp only [turn] at hq0
  have hx : q.x = a.x + t * (b.x - a.x) := by
    have : (q.x - a.x - t * (b.x - a.x)) * ((b.x - a.x) ^ 2 + (b.y - a.y) ^ 2) = 0 := by
      linear_combination (-(b.x - a.x)) * htl - (b.y - a.y) * hq0
    rcases mul_eq_zero.mp this with h | h
    · linarith
    · exact absurd h (ne_of_gt hlen)
  have hy : q.y = a.y + t * (b.y - a.y) := by
    have : (q.y - a.y - t * (b.y - a.y)) * ((b.x - a.x) ^ 2 + (b.y - a.y) ^ 2) = 0 := by
      linear_combination (-(b.y - a.y)) * htl + (b.x - a.x) * hq0
    rcases mul_eq_zero.mp this with h | h
    · linarith
    · exact absurd h (ne_of_gt hlen)
  have e1 : s * turn p a q = t * (s * turn p a b) := by
    simp only [turn, hx, hy]
    ring
  have e2 : s * turn b c q = (1 - t) * (s * turn a b c) := by
    simp only [turn, hx, hy]
    ring
  refine ⟨t, ?_, ?_, hx, hy⟩
  · rw [e1] at hqp
    exact nonneg_of_mul_nonneg_left hqp h1
  · rw [e2] at hqc
    have := nonneg_of_mul_nonneg_left hqc h2
    linarith

/-- Along a segment that starts where all of finitely many affine constraints
hold and ends where one of them fails, there is a point before the end where
all hold and one holds with equality. -/
theorem exists_exit (n : Nat) (c g : Nat → ℝ) (hc : ∀ j < n, 0 ≤ c j)
    (hviol : ∃ i < n, g i < 0) :
    ∃ τ, 0 ≤ τ ∧ τ < 1 ∧ (∃ i < n, (1 - τ) * c i + τ * g i = 0)
      ∧ ∀ j < n, 0 ≤ (1 - τ) * c j + τ * g j := by
  classical
  obtain ⟨i0, hi0, hg0⟩ := hviol
  have hne : ((Finset.range n).filter (fun j => g j < 0)).Nonempty :=
    ⟨i0, by simp [hi0, hg0]⟩
  obtain ⟨i, hi, hmin⟩ := Finset.exists_min_image _ (fun j => c j / (c j - g j)) hne
  simp only [Finset.mem_filter, Finset.mem_range] at hi hmin
  obtain ⟨hin, hgi⟩ := hi
  have hci := hc i hin
  have hden : 0 < c i - g i := by linarith
  have hτ : c i / (c i - g i) * (c i - g i) = c i := by field_simp
  refine ⟨c i / (c i - g i), div_nonneg hci (le_of_lt hden), ?_, ⟨i, hin, ?_⟩, ?_⟩
  · rw [div_lt_one hden]
    linarith
  · linear_combination -hτ
  · intro j hj
    have hτ0 : 0 ≤ c i / (c i - g i) := div_nonneg hci (le_of_lt hden)
    have hτ1 : c i / (c i - g i) ≤ 1 := by
      rw [div_le_one hden]
      linarith
    by_cases hgj : g j < 0
    · have hle := hmin j ⟨hj, hgj⟩
      have hdenj : 0 < c j - g j := by linarith [hc j hj]
      have hτj : c j / (c j - g j) * (c j - g j) = c j := by field_simp
      nlinarith [mul_le_mul_of_nonneg_right hle (le_of_lt hdenj)]
    · have hgj' : 0 ≤ g j := not_lt.mp hgj
      have := hc j hj
      nlinarith [mul_nonneg (sub_nonneg.mpr hτ1) this, mul_nonneg hτ0 hgj']

theorem vertexAt_mod (fp : List (Point ℝ)) (k : Nat) :
    vertexAt fp (k % fp.length) = vertexAt fp k := by
  have := vertexAt_mod_add fp k 0
  simpa using this

theorem vertexAt_prev_succ (fp : List (Point ℝ)) (i : Nat) (hn : 0 < fp.length) :
    vertexAt fp (i + fp.length - 1 + 1) = vertexAt fp i
      ∧ vertexAt fp (i + fp.length - 1 + 2) = vertexAt fp (i + 1) := by
  have h1 : i + fp.length - 1 + 1 = i + fp.length := by omega
  have h2 : i + fp.length - 1 + 2 = i + 1 + fp.length := by omega
  rw [h1, h2, vertexAt_add_length, vertexAt_add_length]
  exact ⟨rfl, rfl⟩

theorem inside_at (s : ℝ) (fp : List (Point ℝ)) (x y : ℝ) (hq : insidePolygon s fp x y)
    (hn : 0 < fp.length) (k : Nat) :
    0 ≤ s * turn (vertexAt fp k) (vertexAt fp (k + 1)) ⟨x, y, 0⟩ := by
  have := hq (k % fp.length) (Nat.mod_lt _ hn)
  rwa [vertexAt_mod_add fp k 1, vertexAt_mod fp k] at this

theorem strict_at (s : ℝ) (fp : List (Point ℝ)) (hconv : convexPolygon s fp)
    (hn : 0 < fp.length) (k : Nat) :
    0 < s * turn (vertexAt fp k) (vertexAt fp (k + 1)) (vertexAt fp (k + 2)) := by
  have := hconv.2 (k % fp.length) (Nat.mod_lt _ hn)
  rwa [vertexAt_mod_add fp k 1, vertexAt_mod_add fp k 2, vertexAt_mod fp k] at this

theorem inside_le_vertex (s : ℝ) (fp : List (Point ℝ)) (x y : ℝ)
    (hconv : convexPolygon s fp) (hq : insidePolygon s fp x y) (hn : 0 < fp.length) :
    ∃ k < fp.length, x ^ 2 + y ^ 2 ≤ (vertexAt fp k).x ^ 2 + (vertexAt fp k).y ^ 2 := by
  obtain ⟨k, hk, hmax⟩ := Finset.exists_max_image (Finset.range fp.length)
    (fun j => (vertexAt fp j).x * x + (vertexAt fp j).y * y) ⟨0, by simp [hn]⟩
  simp only [Finset.mem_range] at hk hmax
  have hall : ∀ j, (vertexAt fp j).x * x + (vertexAt fp j).y * y
      ≤ (vertexAt fp k).x * x + (vertexAt fp k).y * y := by
    intro j
    have := hmax (j % fp.length) (Nat.mod_lt _ hn)
    rwa [vertexAt_mod] at this
  obtain ⟨hp1, hp2⟩ := vertexAt_prev_succ fp k hn
  have hdet := strict_at s fp hconv hn (k + fp.length - 1)
  have hA := inside_at s fp x y hq hn (k + fp.length - 1)
  have hB := inside_at s fp x y hq hn k
  rw [hp1, hp2] at hdet
  rw [hp1] at hA
  have hb := hall (k + 1)
  have hp := hall (k + fp.length - 1)
  refine ⟨k, hk, ?_⟩
  generalize vertexAt fp (k + fp.length - 1) = p at hdet hA hp
  generalize vertexAt fp (k + 1) = b at hdet hB hb
  generalize vertexAt fp k = a at hdet hA hB hb hp
  have hid : (s * turn p a b) * ((x - a.x) * x + (y - a.y) * y)
      = (s * turn p a ⟨x, y, 0⟩) * ((b.x - a.x) * x + (b.y - a.y) * y)
        + (s * turn a b ⟨x, y, 0⟩) * ((p.x - a.x) * x + (p.y - a.y) * y) := by
    simp only [turn]
    ring
  have hw : (x - a.x) * x + (y - a.y) * y ≤ 0 := by
    by_contra hc
    have hc' : 0 < (x - a.x) * x + (y - a.y) * y := not_le.mp hc
    have hpos := mul_pos hdet hc'
    have h1 : (s * turn p a ⟨x, y, 0⟩) * ((b.x - a.x) * x + (b.y - a.y) * y) ≤ 0 :=
      mul_nonpos_of_nonneg_of_nonpos hA (by linarith)
    have h2 : (s * turn a b ⟨x, y, 0⟩) * ((p.x - a.x) * x + (p.y - a.y) * y) ≤ 0 :=
      mul_nonpos_of_nonneg_of_nonpos hB (by linarith)
    linarith
  nlinarith [sq_nonneg (a.x - x), sq_nonneg (a.y - y)]

theorem sqrt_scaled (x y τ : ℝ) (hτ : 0 ≤ τ) :
    Real.sqrt ((τ * x) ^ 2 + (τ * y) ^ 2) = τ * Real.sqrt (x ^ 2 + y ^ 2) := by
  have : (τ * x) ^ 2 + (τ * y) ^ 2 = τ ^ 2 * (x ^ 2 + y ^ 2) := by ring
  rw [this, Real.sqrt_mul (sq_nonneg τ), Real.sqrt_sq hτ]

/-- A disc around the origin no larger than the distance to every point of
the boundary lies in the region. -/
theorem disc_inside_of_le (s : ℝ) (fp : List (Point ℝ)) (ri r : ℝ)
    (hconv : convexPolygon s fp) (horigin : insidePolygon s fp 0 0) (hn : 0 < fp.length)
    (hB : ∀ i < fp.length, ∀ t, 0 ≤ t → t ≤ 1 →
      ri ≤ Real.sqrt (((vertexAt fp i).x + t * ((vertexAt fp (i + 1)).x - (vertexAt fp i).x)) ^ 2
        + ((vertexAt fp i).y + t * ((vertexAt fp (i + 1)).y - (vertexAt fp i).y)) ^ 2))
    (hr : r ≤ ri) (x y : ℝ) (hxy : Real.sqrt (x ^ 2 + y ^ 2) ≤ r) :
    insidePolygon s fp x y := by
  by_contra hnot
  have hviol : ∃ i < fp.length,
      s * turn (vertexAt fp i) (vertexAt fp (i + 1)) ⟨x, y, 0⟩ < 0 := by
    unfold insidePolygon at hnot
    push_neg at hnot
    exact hnot
  obtain ⟨τ, hτ0, hτ1, ⟨i, hi, hzero⟩, hall⟩ := exists_exit fp.length
    (fun j => s * turn (vertexAt fp j) (vertexAt fp (j + 1)) ⟨0, 0, 0⟩)
    (fun j => s * turn (vertexAt fp j) (vertexAt fp (j + 1)) ⟨x, y, 0⟩)
    horigin hviol
  have haff : ∀ j, s * turn (vertexAt fp j) (vertexAt fp (j + 1)) ⟨τ * x, τ * y, 0⟩
      = (1 - τ) * (s * turn (vertexAt fp j) (vertexAt fp (j + 1)) ⟨0, 0, 0⟩)
        + τ * (s * turn (vertexAt fp j) (vertexAt fp (j + 1)) ⟨x, y, 0⟩) := by
    intro j
    rw [turn_affine]
    ring
  have hBin : insidePolygon s fp (τ * x) (τ * y) := by
    intro j hj
    rw [haff j]
    exact hall j hj
  obtain ⟨hp1, hp2⟩ := vertexAt_prev_succ fp i hn
  have hdet := strict_at s fp hconv hn (i + fp.length - 1)
  have hprev := inside_at s fp _ _ hBin hn (i + fp.length - 1)
  have hnext := inside_at s fp _ _ hBin hn (i + 1)
  rw [hp1, hp2] at hdet
  rw [hp1] at hprev
  obtain ⟨t, ht0, ht1, hx, hy⟩ := on_edge_of_on_line s (vertexAt fp (i + fp.length - 1))
    (vertexAt fp i) (vertexAt fp (i + 1)) (vertexAt fp (i + 2)) ⟨τ * x, τ * y, 0⟩
    hdet (strict_at s fp hconv hn i) (by rw [haff i]; exact hzero) hprev hnext
  have hle := hB i hi t ht0 ht1
  simp only at hx hy
  rw [← hx, ← hy, sqrt_scaled x y τ hτ0] at hle
  have hs0 : 0 ≤ Real.sqrt (x ^ 2 + y ^ 2) := Real.sqrt_nonneg _
  have hr0 : r ≤ 0 := by nlinarith
  have hsq : Real.sqrt (x ^ 2 + y ^ 2) = 0 := le_antisymm (le_trans hxy hr0) hs0
  have hxy0 : x ^ 2 + y ^ 2 = 0 := by
    have := Real.sqrt_eq_zero (by positivity : (0 : ℝ) ≤ x ^ 2 + y ^ 2)
    exact this.mp hsq
  have hx0 : x = 0 := by nlinarith [sq_nonneg x, sq_nonneg y]
  have hy0 : y = 0 := by nlinarith [sq_nonneg x, sq_nonneg y]
  obtain ⟨i', hi', hv⟩ := hviol
  rw [hx0, hy0] at hv
  exact absurd (horigin i' hi') (not_le.mpr hv)

theorem exists_step_in_disc (qx qy n1 n2 r : ℝ) (hq : qx ^ 2 + qy ^ 2 < r ^ 2) :
    ∃ ε, 0 < ε ∧ (qx + ε * n1) ^ 2 + (qy + ε * n2) ^ 2 ≤ r ^ 2 := by
  obtain ⟨K, hK⟩ : ∃ K, K = 2 * |qx * n1 + qy * n2| + (n1 ^ 2 + n2 ^ 2) + 1 := ⟨_, rfl⟩
  have hKpos : 0 < K := by
    rw [hK]
    positivity
  obtain ⟨ε, hε⟩ : ∃ ε, ε = min 1 ((r ^ 2 - (qx ^ 2 + qy ^ 2)) / K) := ⟨_, rfl⟩
  have hε0 : 0 < ε := by
    rw [hε]
    exact lt_min one_pos (div_pos (by linarith) hKpos)
  have hε1 : ε ≤ 1 := by
    rw [hε]
    exact min_le_left _ _
  have hεK : ε * K ≤ r ^ 2 - (qx ^ 2 + qy ^ 2) := by
    have : ε ≤ (r ^ 2 - (qx ^ 2 + qy ^ 2)) / K := by
      rw [hε]
      exact min_le_right _ _
    rwa [le_div_iff₀ hKpos] at this
  refine ⟨ε, hε0, ?_⟩
  have hε2 : ε * ε ≤ ε := by
    have := mul_le_mul_of_nonneg_left hε1 (le_of_lt hε0)
    simpa using this
  have h1 : 2 * ε * (qx * n1 + qy * n2) ≤ 2 * ε * |qx * n1 + qy * n2| :=
    mul_le_mul_of_nonneg_left (le_abs_self _) (by linarith)
  have h2 : ε * ε * (n1 ^ 2 + n2 ^ 2) ≤ ε * (n1 ^ 2 + n2 ^ 2) :=
    mul_le_mul_of_nonneg_right hε2 (by positivity)
  have h3 : ε * K = 2 * ε * |qx * n1 + qy * n2| + ε * (n1 ^ 2 + n2 ^ 2) + ε := by
    rw [hK]
    ring
  have hexp : (qx + ε * n1) ^ 2 + (qy + ε * n2) ^ 2
      = (qx ^ 2 + qy ^ 2) + 2 * ε * (qx * n1 + qy * n2) + ε * ε * (n1 ^ 2 + n2 ^ 2) := by
    ring
  rw [hexp]
  linarith

/-- A disc around the origin that lies in the region is no larger than the
distance to any point of the boundary. -/
theorem le_of_disc_inside (s : ℝ) (fp : List (Point ℝ)) (r : ℝ) (hs : s = 1 ∨ s = -1)
    (hconv : convexPolygon s fp) (hn : 0 < fp.length)
    (hdisc : ∀ x y, Real.sqrt (x ^ 2 + y ^ 2) ≤ r → insidePolygon s fp x y)
    (i : Nat) (hi : i < fp.length) (t : ℝ) :
    r ≤ Real.sqrt (((vertexAt fp i).x + t * ((vertexAt fp (i + 1)).x - (vertexAt fp i).x)) ^ 2
        + ((vertexAt fp i).y + t * ((vertexAt fp (i + 1)).y - (vertexAt fp i).y)) ^ 2) := by
  by_contra hlt
  have hlt' := not_le.mp hlt
  have hstrict := strict_at s fp hconv hn i
  have hdisc' : ∀ x y, Real.sqrt (x ^ 2 + y ^ 2) ≤ r →
      0 ≤ s * turn (vertexAt fp i) (vertexAt fp (i + 1)) ⟨x, y, 0⟩ :=
    fun x y h => hdisc x y h i hi
  clear hdisc hconv hlt
  generalize vertexAt fp i = a at hlt' hstrict hdisc'
  generalize vertexAt fp (i + 1) = b at hlt' hstrict hdisc'
  generalize vertexAt fp (i + 2) = c at hstrict
  have hss : s * s = 1 := by
    rcases hs with h | h <;> rw [h] <;> norm_num
  have hlen : 0 < (b.x - a.x) ^ 2 + (b.y - a.y) ^ 2 := by
    by_contra hc
    have hx : b.x - a.x = 0 := by nlinarith [sq_nonneg (b.x - a.x), sq_nonneg (b.y - a.y)]
    have hy : b.y - a.y = 0 := by nlinarith [sq_nonneg (b.x - a.x), sq_nonneg (b.y - a.y)]
    have : turn a b c = 0 := by
      simp only [turn, hx, hy]
      ring
    rw [this] at hstrict
    simp at hstrict
  have hr0 : 0 < r := lt_of_le_of_lt (Real.sqrt_nonneg _) hlt'
  have hq2 := (Real.sqrt_lt' hr0).mp hlt'
  obtain ⟨ε, hε0, hεin⟩ := exists_step_in_disc _ _ (s * (b.y - a.y)) (-(s * (b.x - a.x))) r hq2
  have hin : Real.sqrt ((a.x + t * (b.x - a.x) + ε * (s * (b.y - a.y))) ^ 2
      + (a.y + t * (b.y - a.y) + ε * -(s * (b.x - a.x))) ^ 2) ≤ r := by
    rw [Real.sqrt_le_left (le_of_lt hr0)]
    exact hεin
  have hmem := hdisc' _ _ hin
  have hval : s * turn a b ⟨a.x + t * (b.x - a.x) + ε * (s * (b.y - a.y)),
        a.y + t * (b.y - a.y) + ε * -(s * (b.x - a.x)), 0⟩
      = -(ε * ((b.x - a.x) ^ 2 + (b.y - a.y) ^ 2)) := by
    simp only [turn]
    linear_combination (-(ε * ((b.x - a.x) ^ 2 + (b.y - a.y) ^ 2))) * hss
  rw [hval] at hmem
  have := mul_pos hε0 hlen
  linarith

/-- C18: over the real numbers, for a convex polygon of at least 3 vertices
(in counter-clockwise order, `s = 1`, or clockwise, `s = -1`) that contains the
origin, `computeRadii` returns `(inscribed, circumscribed)` where `inscribed`
is the minimum distance from the origin to the boundary of the polygon, all
edges and the closing edge included, and an origin-centred disc lies in the
polygon exactly when its radius is at most `inscribed`; `circumscribed` is the
maximum distance of a vertex, no edge distance exceeds it, and an
origin-centred disc contains the polygon exactly when its radius is at least
`circumscribed`. `DBL_MAX`, the start value of the minimum, is at least the
distance of every vertex. -/
theorem computeRadii_inscribed_circumscribed (M : MathLib ℝ)
    (footprint_spec_ : List (Point ℝ)) (s : ℝ) (h3 : 3 ≤ footprint_spec_.length)
    (hsqrt : M.sqrt = Real.sqrt)
    (hmax : ∀ v ∈ footprint_spec_, Real.sqrt (v.x ^ 2 + v.y ^ 2) ≤ M.DBL_MAX)
    (hs : s = 1 ∨ s = -1) (hconvex : convexPolygon s footprint_spec_)
    (horigin : insidePolygon s footprint_spec_ 0 0) :
    ∃ inscribed circumscribed,
      computeRadii M footprint_spec_ = some (inscribed, circumscribed)
      ∧ (∀ x y, onBoundary footprint_spec_ x y → inscribed ≤ Real.sqrt (x ^ 2 + y ^ 2))
      ∧ (∃ x y, onBoundary footprint_spec_ x y ∧ inscribed = Real.sqrt (x ^ 2 + y ^ 2))
      ∧ (∀ r, (∀ x y, Real.sqrt (x ^ 2 + y ^ 2) ≤ r → insidePolygon s footprint_spec_ x y)
          ↔ r ≤ inscribed)
      ∧ (∀ v ∈ footprint_spec_, Real.sqrt (v.x ^ 2 + v.y ^ 2) ≤ circumscribed)
      ∧ (∃ v ∈ footprint_spec_, Real.sqrt (v.x ^ 2 + v.y ^ 2) = circumscribed)
      ∧ (∀ ab ∈ polygonEdges footprint_spec_,
          distanceToLine M 0 0 ab.1.x ab.1.y ab.2.x ab.2.y ≤ circumscribed)
      ∧ (∀ r, (∀ x y, insidePolygon s footprint_spec_ x y → Real.sqrt (x ^ 2 + y ^ 2) ≤ r)
          ↔ circumscribed ≤ r) := by
  have hn : 0 < footprint_spec_.length := by omega
  have hne : footprint_spec_ ≠ [] := List.length_pos.mp hn
  obtain ⟨R, hR⟩ : ∃ R, R = (polygonEdges footprint_spec_).foldl
      (fun acc ab => radiiStep M acc ab.1 ab.2) (M.DBL_MAX, 0) := ⟨_, rfl⟩
  have hcomp : computeRadii M footprint_spec_ = some (R.1, R.2) := by
    cases hfp : footprint_spec_ with
    | nil => exact absurd hfp hne
    | cons first rest =>
      rw [computeRadii_eq_fold, hR, hfp]
  obtain ⟨hb1, hb2, hb3⟩ := radiiFold_bounds M (polygonEdges footprint_spec_) (M.DBL_MAX, 0)
  obtain ⟨ha1, ha2⟩ := radiiFold_attained M (polygonEdges footprint_spec_) (M.DBL_MAX, 0)
  rw [← hR] at hb1 hb2 hb3 ha1 ha2
  have hedge : ∀ i < footprint_spec_.length,
      (vertexAt footprint_spec_ i, vertexAt footprint_spec_ (i + 1))
        ∈ polygonEdges footprint_spec_ :=
    fun i hi => List.mem_map.mpr ⟨i, List.mem_range.mpr hi, rfl⟩
  have hedge' : ∀ ab ∈ polygonEdges footprint_spec_, ∃ i < footprint_spec_.length,
      ab = (vertexAt footprint_spec_ i, vertexAt footprint_spec_ (i + 1)) := by
    intro ab hab
    obtain ⟨i, hi, h⟩ := List.mem_map.mp hab
    exact ⟨i, List.mem_range.mp hi, h.symm⟩
  have hdist : ∀ a : Point ℝ, distance M 0 0 a.x a.y = Real.sqrt (a.x ^ 2 + a.y ^ 2) := by
    intro a
    rw [distance_real M hsqrt]
    simp
  -- the distance to every point of the boundary is at least `R.1`
  have hB : ∀ i < footprint_spec_.length, ∀ t, 0 ≤ t → t ≤ 1 →
      R.1 ≤ Real.sqrt (((vertexAt footprint_spec_ i).x
          + t * ((vertexAt footprint_spec_ (i + 1)).x - (vertexAt footprint_spec_ i).x)) ^ 2
        + ((vertexAt footprint_spec_ i).y
          + t * ((vertexAt footprint_spec_ (i + 1)).y - (vertexAt footprint_spec_ i).y)) ^ 2) :=
    fun i hi t ht0 ht1 => le_trans (hb3 _ (hedge i hi)).2.1
      (distanceToLine_le_point M hsqrt _ _ _ _ t ht0 ht1)
  -- vertex `a` of an edge is its point with parameter 0
  have hvertex : ∀ i < footprint_spec_.length,
      onBoundary footprint_spec_ (vertexAt footprint_spec_ i).x (vertexAt footprint_spec_ i).y :=
    fun i hi => ⟨i, hi, 0, le_refl _, zero_le_one, by ring, by ring⟩
  -- `R.1` is attained on the boundary
  have hA : ∃ x y, onBoundary footprint_spec_ x y ∧ R.1 = Real.sqrt (x ^ 2 + y ^ 2) := by
    rcases ha1 with h | ⟨ab, hab, h⟩
    · refine ⟨_, _, hvertex 0 hn, ?_⟩
      have hle := (hb3 _ (hedge 0 hn)).1
      rw [hdist] at hle
      exact le_antisymm hle (by
        rw [h]
        exact hmax _ (vertexAt_mem footprint_spec_ 0 hne))
    · obtain ⟨i, hi, hiab⟩ := hedge' ab hab
      subst hiab
      rcases h with h | h
      · exact ⟨_, _, hvertex i hi, by rw [h, hdist]⟩
      · obtain ⟨t, ht0, ht1, ht⟩ := distanceToLine_attained M hsqrt
          (vertexAt footprint_spec_ i).x (vertexAt footprint_spec_ i).y
          (vertexAt footprint_spec_ (i + 1)).x (vertexAt footprint_spec_ (i + 1)).y
        exact ⟨_, _, ⟨i, hi, t, ht0, ht1, rfl, rfl⟩, by rw [h, ht]⟩
  -- the vertex distances are at most `R.2`, which is one of them
  have hV : ∀ v ∈ footprint_spec_, Real.sqrt (v.x ^ 2 + v.y ^ 2) ≤ R.2 := by
    intro v hv
    obtain ⟨i, hi, hiv⟩ := exists_vertexAt_of_mem footprint_spec_ v hv
    have := (hb3 _ (hedge i hi)).2.2.1
    rw [hdist] at this
    rw [← hiv]
    exact this
  have hVa : ∃ v ∈ footprint_spec_, Real.sqrt (v.x ^ 2 + v.y ^ 2) = R.2 := by
    rcases ha2 with h | ⟨ab, hab, h⟩
    · refine ⟨vertexAt footprint_spec_ 0, vertexAt_mem _ 0 hne, ?_⟩
      have hle := hV _ (vertexAt_mem footprint_spec_ 0 hne)
      rw [h] at hle ⊢
      exact le_antisymm hle (Real.sqrt_nonneg _)
    · obtain ⟨i, hi, hiab⟩ := hedge' ab hab
      subst hiab
      refine ⟨vertexAt footprint_spec_ i, vertexAt_mem _ i hne, ?_⟩
      rcases h with h | h
      · rw [h, hdist]
      · have hle := hV _ (vertexAt_mem footprint_spec_ i hne)
        refine le_antisymm hle ?_
        rw [h]
        have := distanceToLine_le_point M hsqrt (vertexAt footprint_spec_ i).x
          (vertexAt footprint_spec_ i).y (vertexAt footprint_spec_ (i + 1)).x
          (vertexAt footprint_spec_ (i + 1)).y 0 (le_refl _) zero_le_one
        simpa using this
  refine ⟨R.1, R.2, hcomp, ?_, hA, ?_, hV, hVa, fun ab hab => (hb3 ab hab).2.2.2, ?_⟩
  · rintro x y ⟨i, hi, t, ht0, ht1, hx, hy⟩
    rw [hx, hy]
    exact hB i hi t ht0 ht1
  · intro r
    constructor
    · intro hdisc
      obtain ⟨x, y, ⟨i, hi, t, -, -, hx, hy⟩, hxy⟩ := hA
      rw [hxy, hx, hy]
      exact le_of_disc_inside s footprint_spec_ r hs hconvex hn hdisc i hi t
    · intro hr x y hxy
      exact disc_inside_of_le s footprint_spec_ R.1 r hconvex horigin hn hB hr x y hxy
  · intro r
    constructor
    · intro hall
      obtain ⟨v, hv, hvr⟩ := hVa
      obtain ⟨j, hj, hjv⟩ := exists_vertexAt_of_mem footprint_spec_ v hv
      rw [← hvr]
      apply hall
      intro i hi
      have := hconvex.1 i hi j hj
      rw [hjv] at this
      exact this
    · intro hr x y hin
      obtain ⟨k, hk, hle⟩ := inside_le_vertex s footprint_spec_ x y hconvex hin hn
      exact le_trans (Real.sqrt_le_sqrt hle)
        (le_trans (hV _ (vertexAt_mem footprint_spec_ k hne)) hr)

/-- C18, on a concrete input: the square of half-width 2 around the origin,
vertices in counter-clockwise order, over the real numbers. -/
theorem computeRadii_inscribed_circumscribed_witness :
    ∃ inscribed circumscribed,
      computeRadii
          { sqrt := Real.sqrt, cos := Real.cos, sin := Real.sin,
            getYaw := fun q =>
              Complex.arg ⟨1 - 2 * (q.y ^ 2 + q.z ^ 2), 2 * (q.w * q.z + q.x * q.y)⟩,
            M_PI := Real.pi, DBL_MAX := 2 ^ 1024, convexHull := id }
          [⟨2, 2, 0⟩, ⟨-2, 2, 0⟩, ⟨-2, -2, 0⟩, ⟨2, -2, 0⟩]
        = some (inscribed, circumscribed)
      ∧ (∀ r, (∀ x y, Real.sqrt (x ^ 2 + y ^ 2) ≤ r →
            insidePolygon 1 [⟨2, 2, 0⟩, ⟨-2, 2, 0⟩, ⟨-2, -2, 0⟩, ⟨2, -2, 0⟩] x y)
          ↔ r ≤ inscribed)
      ∧ (∀ r, (∀ x y, insidePolygon 1 [⟨2, 2, 0⟩, ⟨-2, 2, 0⟩, ⟨-2, -2, 0⟩, ⟨2, -2, 0⟩] x y →
            Real.sqrt (x ^ 2 + y ^ 2) ≤ r)
          ↔ circumscribed ≤ r) := by
  obtain ⟨ri, rc, h, -, -, h1, -, -, -, h2⟩ :=
    computeRadii_inscribed_circumscribed
      { sqrt := Real.sqrt, cos := Real.cos, sin := Real.sin,
        getYaw := fun q =>
          Complex.arg ⟨1 - 2 * (q.y ^ 2 + q.z ^ 2), 2 * (q.w * q.z + q.x * q.y)⟩,
        M_PI := Real.pi, DBL_MAX := 2 ^ 1024, convexHull := id }
      [⟨2, 2, 0⟩, ⟨-2, 2, 0⟩, ⟨-2, -2, 0⟩, ⟨2, -2, 0⟩] 1 (by simp) rfl
      (by
        intro v hv
        simp only [List.mem_cons, List.mem_singleton, List.not_mem_nil, or_false] at hv
        rw [Real.sqrt_le_left (by positivity)]
        rcases hv with hv | hv | hv | hv <;> subst hv <;> norm_num)
      (Or.inl rfl)
      (by
        constructor
        · intro i hi j hj
          simp only [List.length_cons, List.length_nil] at hi hj
          interval_cases i <;> interval_cases j <;> norm_num [vertexAt, turn]
        · intro i hi
          simp only [List.length_cons, List.length_nil] at hi
          interval_cases i <;> norm_num [vertexAt, turn])
      (by
        intro i hi
        simp only [List.length_cons, List.length_nil] at hi
        interval_cases i <;> norm_num [vertexAt, turn])
  exact ⟨ri, rc, h, h1, h2⟩

end PolygonGeometry

/-! ## Oriented footprint and padding: C19, C20 -/

section Oriented

set_option linter.unusedSectionVars false

variable {D : Type} [LinearOrderedField D]

/-- C19: `getOrientedFootprint(x, y, theta, oriented_footprint)` appends to the
vector one point per vertex of `footprint_spec_`, in order, the vertex
`(vx, vy)` giving `(x + (vx cos θ - vy sin θ), y + (vx sin θ + vy cos θ))`. At an
angle with cosine 1 and sine 0 (yaw 0) every vertex gives `(x + vx, y + vy)`; at
an angle with cosine -1 and sine 0 (yaw π) every vertex gives
`(x - vx, y - vy)`. -/
theorem getOrientedFootprint_vertices (M : MathLib D) (footprint_spec_ : List (Point D))
    (x y theta : D) (oriented_footprint : List (Point D)) :
    (getOrientedFootprint M footprint_spec_ x y theta oriented_footprint).length
        = oriented_footprint.length + footprint_spec_.length
      ∧ (getOrientedFootprint M footprint_spec_ x y theta oriented_footprint).take
          oriented_footprint.length = oriented_footprint
      ∧ (∀ (i : Nat) (hi : i < footprint_spec_.length),
          (getOrientedFootprint M footprint_spec_ x y theta oriented_footprint)[
              oriented_footprint.length + i]?
            = some { x := x + ((footprint_spec_.get ⟨i, hi⟩).x * M.cos theta
                            - (footprint_spec_.get ⟨i, hi⟩).y * M.sin theta),
                     y := y + ((footprint_spec_.get ⟨i, hi⟩).x * M.sin theta
                            + (footprint_spec_.get ⟨i, hi⟩).y * M.cos theta),
                     z := 0 })
      ∧ (M.cos theta = 1 → M.sin theta = 0 →
          getOrientedFootprint M footprint_spec_ x y theta []
            = footprint_spec_.map (fun v => { x := x + v.x, y := y + v.y, z := 0 }))
      ∧ (M.cos theta = -1 → M.sin theta = 0 →
          getOrientedFootprint M footprint_spec_ x y theta []
            = footprint_spec_.map (fun v => { x := x - v.x, y := y - v.y, z := 0 })) := by
  refine ⟨by simp [getOrientedFootprint], by simp [getOrientedFootprint], ?_, ?_, ?_⟩
  · intro i hi
    simp only [getOrientedFootprint]
    rw [List.getElem?_append_right (Nat.le_add_right _ _), Nat.add_sub_cancel_left]
    simp [hi]
  · intro hc hs
    simp [getOrientedFootprint, hc, hs]
  · intro hc hs
    simp only [getOrientedFootprint, hc, hs, List.nil_append]
    apply List.map_congr_left
    intro v _
    congr 1 <;> ring

/-- C19, on a concrete input: over the real numbers the square at the pose
position `(1, 1)`, with yaw 0 and with yaw π. -/
theorem getOrientedFootprint_vertices_witness :
    getOrientedFootprint
        { sqrt := Real.sqrt, cos := Real.cos, sin := Real.sin,
          getYaw := fun q =>
            Complex.arg ⟨1 - 2 * (q.y ^ 2 + q.z ^ 2), 2 * (q.w * q.z + q.x * q.y)⟩,
          M_PI := Real.pi, DBL_MAX := 2 ^ 1024, convexHull := id }
        [⟨2, 2, 0⟩, ⟨-2, 2, 0⟩, ⟨-2, -2, 0⟩, ⟨2, -2, 0⟩] 1 1 0 []
      = [⟨1 + 2, 1 + 2, 0⟩, ⟨1 + -2, 1 + 2, 0⟩, ⟨1 + -2, 1 + -2, 0⟩, ⟨1 + 2, 1 + -2, 0⟩]
    ∧ getOrientedFootprint
        { sqrt := Real.sqrt, cos := Real.cos, sin := Real.sin,
          getYaw := fun q =>
            Complex.arg ⟨1 - 2 * (q.y ^ 2 + q.z ^ 2), 2 * (q.w * q.z + q.x * q.y)⟩,
          M_PI := Real.pi, DBL_MAX := 2 ^ 1024, convexHull := id }
        [⟨2, 2, 0⟩, ⟨-2, 2, 0⟩, ⟨-2, -2, 0⟩, ⟨2, -2, 0⟩] 1 1 Real.pi []
      = [⟨1 - 2, 1 - 2, 0⟩, ⟨1 - -2, 1 - 2, 0⟩, ⟨1 - -2, 1 - -2, 0⟩, ⟨1 - 2, 1 - -2, 0⟩] :=
  ⟨(getOrientedFootprint_vertices _ _ 1 1 0 []).2.2.2.1 Real.cos_zero Real.sin_zero,
   (getOrientedFootprint_vertices _ _ 1 1 Real.pi []).2.2.2.2 Real.cos_pi Real.sin_pi⟩

end Oriented

section Padding

set_option linter.unusedSectionVars false

variable {D : Type} [LinearOrderedField D]

theorem sign_mul_abs (c p : D) (hp : 0 ≤ p) : |c + sign c * p| = |c| + p := by
  unfold sign
  split
  · rename_i hc
    rw [abs_of_neg hc, abs_of_neg (by linarith)]
    ring
  · rename_i hc
    have hc' : 0 ≤ c := not_lt.mp hc
    rw [abs_of_nonneg hc', abs_of_nonneg (by linarith)]
    ring

theorem loadFootprintPoints_of_numbers (padding : D) (raw : List (XmlRpcValue D × XmlRpcValue D))
    (hnum : ∀ q ∈ raw, (footprintNumber q.1).isSome ∧ (footprintNumber q.2).isSome) :
    loadFootprintPoints padding (raw.map (fun q => XmlRpcValue.TypeArray [q.1, q.2]))
      = .ok (raw.map (fun q =>
          { x := (footprintNumber q.1).getD 0 + sign ((footprintNumber q.1).getD 0) * padding,
            y := (footprintNumber q.2).getD 0 + sign ((footprintNumber q.2).getD 0) * padding,
            z := 0 })) := by
  induction raw with
  | nil => rfl
  | cons q raw ih =>
    obtain ⟨h1, h2⟩ := hnum q (List.mem_cons_self _ _)
    obtain ⟨x, hx⟩ := Option.isSome_iff_exists.mp h1
    obtain ⟨y, hy⟩ := Option.isSome_iff_exists.mp h2
    simp only [List.map_cons, loadFootprintPoints, loadFootprintPoint, hx, hy,
      ih (fun q' hq' => hnum q' (List.mem_cons_of_mem _ hq')), Option.getD_some]

theorem loadRobotFootprint_of_array (footprint_padding : Option D)
    (items : List (XmlRpcValue D)) :
    loadRobotFootprint footprint_padding (some (.TypeArray items))
      = if items.length > 2 then loadFootprintPoints (footprint_padding.getD (1 / 100)) items
        else .error footprintListError := by
  cases footprint_padding <;> rfl

/-- C20: for a well-formed footprint parameter (a list of more than two
entries, each a list of two numbers, integer or double) `loadRobotFootprint`
returns one vertex per entry, in the same order, each coordinate `c` replaced
by `c + sign(c) * padding`; with a padding `p ≥ 0` the absolute value of every
coordinate grows by `p`, and a coordinate equal to zero becomes `+p`. The
padding is the parameter `footprint_padding`, or 0.01 without it. -/
theorem loadRobotFootprint_pads (footprint_padding : Option D)
    (raw : List (XmlRpcValue D × XmlRpcValue D)) (hlen : 2 < raw.length)
    (hnum : ∀ q ∈ raw, (footprintNumber q.1).isSome ∧ (footprintNumber q.2).isSome)
    (hp : 0 ≤ footprint_padding.getD (1 / 100)) :
    loadRobotFootprint footprint_padding
        (some (.TypeArray (raw.map (fun q => XmlRpcValue.TypeArray [q.1, q.2]))))
      = .ok (raw.map (fun q =>
          { x := (footprintNumber q.1).getD 0
                  + sign ((footprintNumber q.1).getD 0) * footprint_padding.getD (1 / 100),
            y := (footprintNumber q.2).getD 0
                  + sign ((footprintNumber q.2).getD 0) * footprint_padding.getD (1 / 100),
            z := 0 }))
      ∧ (∀ c : D, |c + sign c * footprint_padding.getD (1 / 100)|
          = |c| + footprint_padding.getD (1 / 100))
      ∧ (0 : D) + sign 0 * footprint_padding.getD (1 / 100) = footprint_padding.getD (1 / 100)
      ∧ (∀ (i : Int) (d : D), footprintNumber (XmlRpcValue.TypeInt i : XmlRpcValue D) = some (i : D)
          ∧ footprintNumber (XmlRpcValue.TypeDouble d) = some d) := by
  refine ⟨?_, fun c => sign_mul_abs c _ hp, by simp [sign], fun i d => ⟨rfl, rfl⟩⟩
  rw [loadRobotFootprint_of_array]
  simp only [List.length_map, gt_iff_lt, hlen, if_true]
  exact loadFootprintPoints_of_numbers _ raw hnum

/-- C20, on a concrete input: a footprint of three entries with integer and
double coordinates, one of them zero, padded by 1/10. -/
theorem loadRobotFootprint_pads_witness :
    loadRobotFootprint (some (1 / 10 : ℚ))
        (some (.TypeArray [.TypeArray [.TypeInt 1, .TypeDouble (1 / 2)],
          .TypeArray [.TypeInt (-1), .TypeInt 0], .TypeArray [.TypeDouble (-1 / 4), .TypeInt (-2)]]))
      = .ok [⟨11 / 10, 3 / 5, 0⟩, ⟨-11 / 10, 1 / 10, 0⟩, ⟨-7 / 20, -21 / 10, 0⟩] := by
  have h := (loadRobotFootprint_pads (some (1 / 10 : ℚ))
    [(.TypeInt 1, .TypeDouble (1 / 2)), (.TypeInt (-1), .TypeInt 0),
      (.TypeDouble (-1 / 4), .TypeInt (-2))] (by decide)
    (by
      intro q hq
      simp only [List.mem_cons, List.mem_singleton, List.not_mem_nil, or_false] at hq
      rcases hq with hq | hq | hq <;> subst hq <;> exact ⟨rfl, rfl⟩)
    (by norm_num)).1
  rw [show ([(XmlRpcValue.TypeInt 1, XmlRpcValue.TypeDouble (1 / 2 : ℚ)),
        (.TypeInt (-1), .TypeInt 0), (.TypeDouble (-1 / 4), .TypeInt (-2))].map
        (fun q => XmlRpcValue.TypeArray [q.1, q.2]))
      = [.TypeArray [.TypeInt 1, .TypeDouble (1 / 2)],
          .TypeArray [.TypeInt (-1), .TypeInt 0],
          .TypeArray [.TypeDouble (-1 / 4), .TypeInt (-2)]] from rfl] at h
  rw [h]
  simp only [List.map_cons, List.map_nil, footprintNumber, Option.getD_some, sign]
  norm_num

end Padding

/-! ## C21: the footprint parameter is rejected exactly when malformed -/

section FootprintErrors

set_option linter.unusedSectionVars false

variable {D : Type} [LinearOrderedField D]

theorem footprintNumber_eq_none (c : XmlRpcValue D) :
    footprintNumber c = none ↔ (∀ i, c ≠ .TypeInt i) ∧ ∀ d, c ≠ .TypeDouble d := by
  cases c <;> simp [footprintNumber]

theorem loadFootprintPoint_error_iff (padding : D) (point : XmlRpcValue D) :
    (∃ msg, loadFootprintPoint padding point = .error msg)
      ↔ (¬ ∃ coords, point = .TypeArray coords ∧ coords.length = 2)
        ∨ ∃ coords, point = .TypeArray coords
            ∧ ∃ c ∈ coords, (∀ i, c ≠ .TypeInt i) ∧ ∀ d, c ≠ .TypeDouble d := by
  cases point with
  | TypeArray coords =>
    match coords with
    | [] => simp [loadFootprintPoint]
    | [p0] =>
      simp only [loadFootprintPoint, Except.error.injEq, exists_eq', XmlRpcValue.TypeArray.injEq,
        true_iff]
      left
      rintro ⟨coords, h, hl⟩
      subst h
      simp at hl
    | [p0, p1] =>
      simp only [loadFootprintPoint]
      cases h0 : footprintNumber p0 with
      | none =>
        simp only [Except.error.injEq, exists_eq', true_iff]
        right
        exact ⟨_, rfl, p0, by simp, (footprintNumber_eq_none p0).mp h0⟩
      | some x =>
        cases h1 : footprintNumber p1 with
        | none =>
          simp only [Except.error.injEq, exists_eq', true_iff]
          right
          exact ⟨_, rfl, p1, by simp, (footprintNumber_eq_none p1).mp h1⟩
        | some y =>
          constructor
          · rintro ⟨msg, h⟩
            cases h
          · rintro (h | ⟨coords, h, c, hc, hn⟩)
            · exact absurd ⟨_, rfl, rfl⟩ h
            · cases h
              simp only [List.mem_cons, List.mem_singleton, List.not_mem_nil, or_false] at hc
              rcases hc with hc | hc
              · subst hc
                rw [(footprintNumber_eq_none c).mpr hn] at h0
                exact absurd h0 (by simp)
              · subst hc
                rw [(footprintNumber_eq_none c).mpr hn] at h1
                exact absurd h1 (by simp)
    | p0 :: p1 :: p2 :: rest =>
      simp only [loadFootprintPoint, Except.error.injEq, exists_eq', XmlRpcValue.TypeArray.injEq,
        true_iff]
      left
      rintro ⟨coords, h, hl⟩
      subst h
      simp at hl
  | _ => simp [loadFootprintPoint]

theorem loadFootprintPoints_error_iff (padding : D) (items : List (XmlRpcValue D)) :
    (∃ msg, loadFootprintPoints padding items = .error msg)
      ↔ ∃ point ∈ items, ∃ msg, loadFootprintPoint padding point = .error msg := by
  induction items with
  | nil => simp [loadFootprintPoints]
  | cons point rest ih =>
    simp only [loadFootprintPoints, List.mem_cons, exists_eq_or_imp]
    cases hp : loadFootprintPoint padding point with
    | error e => simp
    | ok pt =>
      cases hr : loadFootprintPoints padding rest with
      | error e =>
        rw [hr] at ih
        simp only [Except.error.injEq, exists_eq', true_iff] at ih
        simpa using ih
      | ok pts =>
        rw [hr] at ih
        have ih' : ¬ ∃ point ∈ rest, ∃ msg, loadFootprintPoint padding point = .error msg :=
          fun h => by
            obtain ⟨msg, hm⟩ := ih.mpr h
            cases hm
        constructor
        · rintro ⟨msg, h⟩
          cases h
        · rintro (⟨msg, h⟩ | h)
          · cases h
          · exact absurd h ih'

theorem loadFootprintPoint_error_msg (padding : D) (point : XmlRpcValue D) (msg : String)
    (h : loadFootprintPoint padding point = .error msg) :
    msg = footprintPointError ∨ msg = footprintNumberError := by
  unfold loadFootprintPoint at h
  split at h
  · split at h
    · cases h
      exact Or.inr rfl
    · split at h
      · cases h
        exact Or.inr rfl
      · cases h
  · cases h
    exact Or.inl rfl

theorem loadFootprintPoints_error_msg (padding : D) (items : List (XmlRpcValue D))
    (msg : String) (h : loadFootprintPoints padding items = .error msg) :
    msg = footprintPointError ∨ msg = footprintNumberError := by
  induction items with
  | nil => cases h
  | cons point rest ih =>
    simp only [loadFootprintPoints] at h
    cases hp : loadFootprintPoint padding point with
    | error e =>
      rw [hp] at h
      cases h
      exact loadFootprintPoint_error_msg padding point _ hp
    | ok pt =>
      rw [hp] at h
      cases hr : loadFootprintPoints padding rest with
      | error e =>
        rw [hr] at h
        cases h
        exact ih hr
      | ok pts =>
        rw [hr] at h
        cases h

/-- C21: `loadRobotFootprint` throws (a `std::runtime_error`, with one of its
three messages) if and only if the parameter `footprint` is present and
malformed: not a list, or fewer than 3 entries, or an entry that is not a list
of exactly 2 elements, or a coordinate that is neither an integer nor a
double. Without the parameter it returns the empty footprint. -/
theorem loadRobotFootprint_error_iff_malformed (footprint_padding : Option D)
    (footprint : Option (XmlRpcValue D)) :
    ((∃ msg, loadRobotFootprint footprint_padding footprint = .error msg)
        ↔ ∃ footprint_list, footprint = some footprint_list
            ∧ malformedFootprint footprint_list)
      ∧ (∀ msg, loadRobotFootprint footprint_padding footprint = .error msg →
          msg = footprintListError ∨ msg = footprintPointError ∨ msg = footprintNumberError)
      ∧ loadRobotFootprint footprint_padding none = .ok [] := by
  refine ⟨?_, ?_, by cases footprint_padding <;> rfl⟩
  · cases footprint with
    | none =>
      have h : loadRobotFootprint footprint_padding none = .ok [] := by
        cases footprint_padding <;> rfl
      rw [h]
      constructor
      · rintro ⟨msg, h⟩
        cases h
      · rintro ⟨v, h, -⟩
        cases h
    | some footprint_list =>
      have hnotlist : ∀ v : XmlRpcValue D, (∀ items, v ≠ .TypeArray items) →
          loadRobotFootprint footprint_padding (some v) = .error footprintListError := by
        intro v hv
        cases v with
        | TypeArray items => exact absurd rfl (hv items)
        | _ => cases footprint_padding <;> rfl
      constructor
      · rintro ⟨msg, h⟩
        refine ⟨footprint_list, rfl, ?_⟩
        by_cases hl : ∃ items, footprint_list = .TypeArray items
        · obtain ⟨items, rfl⟩ := hl
          right
          refine ⟨items, rfl, ?_⟩
          rw [loadRobotFootprint_of_array] at h
          by_cases hlen : items.length > 2
          · rw [if_pos hlen] at h
            right
            obtain ⟨point, hpt, hperr⟩ :=
              (loadFootprintPoints_error_iff _ items).mp ⟨msg, h⟩
            rcases (loadFootprintPoint_error_iff _ point).mp hperr with hp | hp
            · exact Or.inl ⟨point, hpt, hp⟩
            · exact Or.inr ⟨point, hpt, hp⟩
          · left
            omega
        · left
          intro items hi
          exact hl ⟨items, hi⟩
      · rintro ⟨v, hv, hm⟩
        cases hv
        rcases hm with hm | ⟨items, rfl, hm⟩
        · exact ⟨_, hnotlist _ hm⟩
        · rw [loadRobotFootprint_of_array]
          by_cases hlen : items.length > 2
          · rw [if_pos hlen]
            apply (loadFootprintPoints_error_iff _ items).mpr
            rcases hm with hm | ⟨point, hpt, hp⟩ | ⟨point, hpt, hp⟩
            · omega
            · exact ⟨point, hpt, (loadFootprintPoint_error_iff _ point).mpr (Or.inl hp)⟩
            · exact ⟨point, hpt, (loadFootprintPoint_error_iff _ point).mpr (Or.inr hp)⟩
          · rw [if_neg hlen]
            exact ⟨_, rfl⟩
  · intro msg h
    cases footprint with
    | none =>
      have h0 : loadRobotFootprint footprint_padding none = .ok [] := by
        cases footprint_padding <;> rfl
      rw [h0] at h
      cases h
    | some footprint_list =>
      by_cases hl : ∃ items, footprint_list = .TypeArray items
      · obtain ⟨items, rfl⟩ := hl
        rw [loadRobotFootprint_of_array] at h
        by_cases hlen : items.length > 2
        · rw [if_pos hlen] at h
          exact Or.inr (loadFootprintPoints_error_msg _ items msg h)
        · rw [if_neg hlen] at h
          cases h
          exact Or.inl rfl
      · have h1 : loadRobotFootprint footprint_padding (some footprint_list)
            = .error footprintListError := by
          cases footprint_list with
          | TypeArray items => exact absurd ⟨items, rfl⟩ hl
          | _ => cases footprint_padding <;> rfl
        rw [h1] at h
        cases h
        exact Or.inl rfl

end FootprintErrors

/-! ## C22: `distanceToLine` is the distance to the closed segment -/

section SegmentDistance

theorem distanceToLine_translate (M : MathLib ℝ) (pX pY x0 y0 x1 y1 : ℝ) :
    distanceToLine M pX pY x0 y0 x1 y1
      = distanceToLine M 0 0 (x0 - pX) (y0 - pY) (x1 - pX) (y1 - pY) := by
  have e1 : x1 - pX - (x0 - pX) = x1 - x0 := by ring
  have e2 : y1 - pY - (y0 - pY) = y1 - y0 := by ring
  have e3 : 0 - (x0 - pX) = pX - x0 := by ring
  have e4 : 0 - (y0 - pY) = pY - y0 := by ring
  unfold distanceToLine
  simp only [e1, e2, e3, e4]
  split
  · unfold distance
    congr 1
    ring
  · split
    · unfold distance
      congr 1
      ring
    · unfold distance
      congr 1
      ring

theorem distanceToLine_perpendicular (M : MathLib ℝ) (hsqrt : M.sqrt = Real.sqrt)
    (pX pY x0 y0 x1 y1 : ℝ) (hseg : x0 ≠ x1 ∨ y0 ≠ y1)
    (h0 : 0 ≤ ((pX - x0) * (x1 - x0) + (pY - y0) * (y1 - y0))
      / ((x1 - x0) * (x1 - x0) + (y1 - y0) * (y1 - y0)))
    (h1 : ((pX - x0) * (x1 - x0) + (pY - y0) * (y1 - y0))
      / ((x1 - x0) * (x1 - x0) + (y1 - y0) * (y1 - y0)) ≤ 1) :
    distanceToLine M pX pY x0 y0 x1 y1
      = |(x1 - x0) * (pY - y0) - (y1 - y0) * (pX - x0)|
        / Real.sqrt ((x1 - x0) ^ 2 + (y1 - y0) ^ 2) := by
  have hlen : 0 < (x1 - x0) * (x1 - x0) + (y1 - y0) * (y1 - y0) := by
    rcases hseg with h | h
    · have : x1 - x0 ≠ 0 := sub_ne_zero.mpr (Ne.symm h)
      nlinarith [mul_self_pos.mpr this, mul_self_nonneg (y1 - y0)]
    · have : y1 - y0 ≠ 0 := sub_ne_zero.mpr (Ne.symm h)
      nlinarith [mul_self_pos.mpr this, mul_self_nonneg (x1 - x0)]
  unfold distanceToLine
  simp only
  rw [if_neg (not_lt.mpr h0), if_neg (not_lt.mpr h1), distance_real M hsqrt]
  have hne : (x1 - x0) * (x1 - x0) + (y1 - y0) * (y1 - y0) ≠ 0 := ne_of_gt hlen
  have hsq : (x0 + ((pX - x0) * (x1 - x0) + (pY - y0) * (y1 - y0))
          / ((x1 - x0) * (x1 - x0) + (y1 - y0) * (y1 - y0)) * (x1 - x0) - pX) ^ 2
        + (y0 + ((pX - x0) * (x1 - x0) + (pY - y0) * (y1 - y0))
          / ((x1 - x0) * (x1 - x0) + (y1 - y0) * (y1 - y0)) * (y1 - y0) - pY) ^ 2
      = ((x1 - x0) * (pY - y0) - (y1 - y0) * (pX - x0)) ^ 2
        / ((x1 - x0) ^ 2 + (y1 - y0) ^ 2) := by
    have hne' : (x1 - x0) ^ 2 + (y1 - y0) ^ 2 ≠ 0 := by
      rw [pow_two, pow_two]
      exact hne
    field_simp
    ring
  rw [hsq, Real.sqrt_div (sq_nonneg _), Real.sqrt_sq_eq_abs]

/-- C22: over the real numbers, with `sqrt` the real square root, for every
point `P = (pX, pY)` and every segment from `(x0, y0)` to `(x1, y1)` with
distinct end points, `distanceToLine` returns the distance from `P` to the
closed segment: it is at most the distance from `P` to every point
`(x0, y0) + t * ((x1, y1) - (x0, y0))`, `0 ≤ t ≤ 1`, and it is the distance to
one of them. With the projection parameter
`param = ((P - (x0, y0)) · ((x1, y1) - (x0, y0))) / |(x1, y1) - (x0, y0)|²`, the
value is the distance to `(x0, y0)` when `param < 0`, the distance to
`(x1, y1)` when `param > 1`, and otherwise the perpendicular distance from `P`
to the line of the segment. -/
theorem distanceToLine_is_segment_distance (M : MathLib ℝ) (hsqrt : M.sqrt = Real.sqrt)
    (pX pY x0 y0 x1 y1 : ℝ) (hseg : x0 ≠ x1 ∨ y0 ≠ y1) :
    (∀ t, 0 ≤ t → t ≤ 1 →
        distanceToLine M pX pY x0 y0 x1 y1
          ≤ Real.sqrt ((x0 + t * (x1 - x0) - pX) ^ 2 + (y0 + t * (y1 - y0) - pY) ^ 2))
      ∧ (∃ t, 0 ≤ t ∧ t ≤ 1 ∧
        distanceToLine M pX pY x0 y0 x1 y1
          = Real.sqrt ((x0 + t * (x1 - x0) - pX) ^ 2 + (y0 + t * (y1 - y0) - pY) ^ 2))
      ∧ (((pX - x0) * (x1 - x0) + (pY - y0) * (y1 - y0))
            / ((x1 - x0) * (x1 - x0) + (y1 - y0) * (y1 - y0)) < 0 →
          distanceToLine M pX pY x0 y0 x1 y1 = Real.sqrt ((x0 - pX) ^ 2 + (y0 - pY) ^ 2))
      ∧ (1 < ((pX - x0) * (x1 - x0) + (pY - y0) * (y1 - y0))
            / ((x1 - x0) * (x1 - x0) + (y1 - y0) * (y1 - y0)) →
          distanceToLine M pX pY x0 y0 x1 y1 = Real.sqrt ((x1 - pX) ^ 2 + (y1 - pY) ^ 2))
      ∧ (0 ≤ ((pX - x0) * (x1 - x0) + (pY - y0) * (y1 - y0))
            / ((x1 - x0) * (x1 - x0) + (y1 - y0) * (y1 - y0)) →
          ((pX - x0) * (x1 - x0) + (pY - y0) * (y1 - y0))
            / ((x1 - x0) * (x1 - x0) + (y1 - y0) * (y1 - y0)) ≤ 1 →
          distanceToLine M pX pY x0 y0 x1 y1
            = |(x1 - x0) * (pY - y0) - (y1 - y0) * (pX - x0)|
              / Real.sqrt ((x1 - x0) ^ 2 + (y1 - y0) ^ 2)) := by
  refine ⟨?_, ?_, ?_, ?_, distanceToLine_perpendicular M hsqrt pX pY x0 y0 x1 y1 hseg⟩
  · intro t ht0 ht1
    rw [distanceToLine_translate]
    have h := distanceToLine_le_point M hsqrt (x0 - pX) (y0 - pY) (x1 - pX) (y1 - pY) t ht0 ht1
    have e : (x0 - pX + t * (x1 - pX - (x0 - pX))) ^ 2 + (y0 - pY + t * (y1 - pY - (y0 - pY))) ^ 2
        = (x0 + t * (x1 - x0) - pX) ^ 2 + (y0 + t * (y1 - y0) - pY) ^ 2 := by ring
    rwa [e] at h
  · obtain ⟨t, ht0, ht1, h⟩ :=
      distanceToLine_attained M hsqrt (x0 - pX) (y0 - pY) (x1 - pX) (y1 - pY)
    refine ⟨t, ht0, ht1, ?_⟩
    rw [distanceToLine_translate, h]
    congr 1
    ring
  · intro hp
    unfold distanceToLine
    simp only
    rw [if_pos hp, distance_real M hsqrt]
  · intro hp
    unfold distanceToLine
    simp only
    rw [if_neg (not_lt.mpr (le_trans zero_le_one (le_of_lt hp))), if_pos hp,
      distance_real M hsqrt]

/-- C22, on a concrete input: the point `(1, 2)` and the segment from `(0, 0)`
to `(4, 0)`; the projection falls inside the segment and the distance is the
perpendicular distance 2. -/
theorem distanceToLine_is_segment_distance_witness :
    distanceToLine
        { sqrt := Real.sqrt, cos := Real.cos, sin := Real.sin,
          getYaw := fun q =>
            Complex.arg ⟨1 - 2 * (q.y ^ 2 + q.z ^ 2), 2 * (q.w * q.z + q.x * q.y)⟩,
          M_PI := Real.pi, DBL_MAX := 2 ^ 1024, convexHull := id }
        1 2 0 0 4 0 = 2 := by
  have h := (distanceToLine_is_segment_distance
    { sqrt := Real.sqrt, cos := Real.cos, sin := Real.sin,
      getYaw := fun q =>
        Complex.arg ⟨1 - 2 * (q.y ^ 2 + q.z ^ 2), 2 * (q.w * q.z + q.x * q.y)⟩,
      M_PI := Real.pi, DBL_MAX := 2 ^ 1024, convexHull := id }
    rfl 1 2 0 0 4 0 (Or.inl (by norm_num))).2.2.2.2 (by norm_num) (by norm_num)
  rw [h]
  have h16 : Real.sqrt ((4 - 0) ^ 2 + (0 - 0) ^ 2) = 4 := by
    rw [show ((4 : ℝ) - 0) ^ 2 + (0 - 0) ^ 2 = 4 ^ 2 by norm_num]
    exact Real.sqrt_sq (by norm_num)
  rw [h16]
  norm_num

end SegmentDistance

/-! ## C23: the point set of the footprint recompute -/

section HullInput

set_option linter.unusedSectionVars false

variable {D β Obs G : Type} [LinearOrderedField D]

theorem lookupJoints_ok (W : World D β Obs G) (fs : List String)
    (st : Costmap2DROS D β Obs G) (joint : Nat → Point D)
    (h : ∀ k < fs.length,
      W.tf.lookupTransform (st.log.length + k) "/base_footprint" (fs.getD k "")
        = .ok (joint k)) :
    ∃ st1, lookupJoints W fs st = .ok ((List.range fs.length).map joint, st1) := by
  induction fs generalizing st joint with
  | nil => exact ⟨st, rfl⟩
  | cons f fs ih =>
    have h0 := h 0 (by simp)
    simp only [Nat.add_zero, List.getD_cons_zero] at h0
    obtain ⟨st1, hst1⟩ := ih (emit (.lookupTransform "/base_footprint" f) st)
      (fun k => joint (k + 1))
      (by
        intro k hk
        have e : (emit (Event.lookupTransform "/base_footprint" f) st).log.length + k
            = st.log.length + (k + 1) := by simp [emit]; omega
        rw [e]
        simpa using h (k + 1) (by simpa using hk))
    refine ⟨st1, ?_⟩
    unfold lookupJoints
    rw [h0]
    dsimp only
    rw [hst1]
    simp only [List.length_cons, List.range_succ_eq_map, List.map_cons, List.map_map]
    rfl

theorem updateRobotFootprint_of_ok (W : World D β Obs G) (st st1 : Costmap2DROS D β Obs G)
    (jt : List (Point D)) (h : lookupJoints W jointFrames st = .ok (jt, st1)) :
    (updateRobotFootprint W st).state.footprint_spec_
        = (W.math.convexHull (all_pts (jointPoints jt) st.base_footprint_spec_)).map
            (fun q => ({ x := q.1, y := q.2, z := 0 } : Point D))
      ∧ (updateRobotFootprint W st).state.base_footprint_spec_ = st.base_footprint_spec_
      ∧ (W.math.convexHull (all_pts (jointPoints jt) st.base_footprint_spec_) ≠ [] →
          ∃ st', updateRobotFootprint W st = .ok st') := by
  obtain ⟨evs, hl, -⟩ := lookupJoints_touch W jointFrames st
  rw [h] at hl
  simp only [lookupJointsState] at hl
  have hbase : st1.base_footprint_spec_ = st.base_footprint_spec_ := by
    rw [hl]
    rfl
  unfold updateRobotFootprint
  rw [h]
  dsimp only
  rw [hbase]
  cases hr : computeRadii W.math
      ((W.math.convexHull (all_pts (jointPoints jt) st.base_footprint_spec_)).map
        (fun q => ({ x := q.1, y := q.2, z := 0 } : Point D))) with
  | none =>
    refine ⟨rfl, rfl, ?_⟩
    intro hne
    exfalso
    cases hh : W.math.convexHull (all_pts (jointPoints jt) st.base_footprint_spec_) with
    | nil => exact hne hh
    | cons q qs =>
      rw [hh] at hr
      simp [computeRadii] at hr
  | some radii => exact ⟨rfl, rfl, fun _ => ⟨_, rfl⟩⟩

theorem padJoint_eq (c : D) :
    (c < 0 → padJoint c = c - 1 / 10) ∧ (0 ≤ c → padJoint c = c + 1 / 10) := by
  unfold padJoint
  constructor
  · intro h
    rw [if_pos h]
  · intro h
    rw [if_neg (not_lt.mpr h)]

theorem insideFootprint_of_hull (hull_pts pts : List (D × D)) (h : isConvexHullOf hull_pts pts)
    (q : D × D) (hq : q ∈ pts) :
    insideFootprint (hull_pts.map (fun q => ({ x := q.1, y := q.2, z := 0 } : Point D)))
      q.1 q.2 := by
  unfold insideFootprint
  have hset : {p : D × D | ∃ v ∈ hull_pts.map
        (fun q => ({ x := q.1, y := q.2, z := 0 } : Point D)), p = (v.x, v.y)}
      = {p : D × D | p ∈ hull_pts} := by
    ext p
    simp only [List.mem_map, Set.mem_setOf_eq]
    constructor
    · rintro ⟨v, ⟨u, hu, rfl⟩, rfl⟩
      exact hu
    · intro hp
      exact ⟨_, ⟨p, hp, rfl⟩, rfl⟩
  rw [hset, h.2]
  exact subset_convexHull D _ hq

theorem segment_mem_of_between (a b x : D) (hab : a < b) (hx : a ≤ x ∧ x ≤ b) (p q : D × D)
    (u : D × D) (hu : u = ((b - x) / (b - a)) • p + ((x - a) / (b - a)) • q) :
    u ∈ segment D p q := by
  have hba : 0 < b - a := sub_pos.mpr hab
  refine ⟨(b - x) / (b - a), (x - a) / (b - a), div_nonneg (sub_nonneg.mpr hx.2) (le_of_lt hba),
    div_nonneg (sub_nonneg.mpr hx.1) (le_of_lt hba), ?_, hu.symm⟩
  field_simp

theorem rectangle_subset_convexHull (a b c d x y : D) (hab : a < b) (hcd : c < d)
    (hx : a ≤ x ∧ x ≤ b) (hy : c ≤ y ∧ y ≤ d) (s : Set (D × D))
    (h1 : (a, c) ∈ s) (h2 : (b, c) ∈ s) (h3 : (b, d) ∈ s) (h4 : (a, d) ∈ s) :
    (x, y) ∈ convexHull D s := by
  have hconv := convex_convexHull D s
  have hba : b - a ≠ 0 := ne_of_gt (sub_pos.mpr hab)
  have hdc : d - c ≠ 0 := ne_of_gt (sub_pos.mpr hcd)
  have p1 : (x, c) ∈ convexHull D s := by
    apply hconv.segment_subset (subset_convexHull D s h1) (subset_convexHull D s h2)
    apply segment_mem_of_between a b x hab hx
    ext
    · simp only [Prod.fst_add, Prod.smul_fst, smul_eq_mul]
      field_simp
      ring
    · simp only [Prod.snd_add, Prod.smul_snd, smul_eq_mul]
      field_simp
      ring
  have p2 : (x, d) ∈ convexHull D s := by
    apply hconv.segment_subset (subset_convexHull D s h4) (subset_convexHull D s h3)
    apply segment_mem_of_between a b x hab hx
    ext
    · simp only [Prod.fst_add, Prod.smul_fst, smul_eq_mul]
      field_simp
      ring
    · simp only [Prod.snd_add, Prod.smul_snd, smul_eq_mul]
      field_simp
      ring
  apply hconv.segment_subset p1 p2
  apply segment_mem_of_between c d y hcd hy
  ext
  · simp only [Prod.fst_add, Prod.smul_fst, smul_eq_mul]
    field_simp
    ring
  · simp only [Prod.snd_add, Prod.smul_snd, smul_eq_mul]
    field_simp
    ring

theorem Demo.convexHull_arm :
    Demo.convexHull [(1 / 10, -1 / 5), (1 / 10, 1 / 5), (3 / 5, -1 / 5), (3 / 5, 1 / 5),
        (3 / 4, -1 / 4), (3 / 4, 1 / 4), (1 / 4, 1 / 4), (-1 / 4, 1 / 4), (-1 / 4, -1 / 4),
        (1 / 4, -1 / 4)]
      = [(-1 / 4, -1 / 4), (3 / 4, -1 / 4), (3 / 4, 1 / 4), (-1 / 4, 1 / 4)] := by
  simp only [Demo.convexHull, List.insertionSort, List.orderedInsert]
  norm_num [Demo.pushHull, Demo.cross, List.orderedInsert]

theorem Demo.isConvexHullOf_arm :
    isConvexHullOf
      (Demo.convexHull [(1 / 10, -1 / 5), (1 / 10, 1 / 5), (3 / 5, -1 / 5), (3 / 5, 1 / 5),
        (3 / 4, -1 / 4), (3 / 4, 1 / 4), (1 / 4, 1 / 4), (-1 / 4, 1 / 4), (-1 / 4, -1 / 4),
        (1 / 4, -1 / 4)])
      [(1 / 10, -1 / 5), (1 / 10, 1 / 5), (3 / 5, -1 / 5), (3 / 5, 1 / 5),
        (3 / 4, -1 / 4), (3 / 4, 1 / 4), (1 / 4, 1 / 4), (-1 / 4, 1 / 4), (-1 / 4, -1 / 4),
        (1 / 4, -1 / 4)] := by
  rw [Demo.convexHull_arm]
  have hsub : ∀ q ∈ [((-1 / 4 : ℚ), (-1 / 4 : ℚ)), (3 / 4, -1 / 4), (3 / 4, 1 / 4),
      (-1 / 4, 1 / 4)],
      q ∈ [((1 / 10 : ℚ), (-1 / 5 : ℚ)), (1 / 10, 1 / 5), (3 / 5, -1 / 5), (3 / 5, 1 / 5),
        (3 / 4, -1 / 4), (3 / 4, 1 / 4), (1 / 4, 1 / 4), (-1 / 4, 1 / 4), (-1 / 4, -1 / 4),
        (1 / 4, -1 / 4)] := by
    intro q hq
    simp only [List.mem_cons, List.mem_singleton, List.not_mem_nil, or_false] at hq ⊢
    tauto
  refine ⟨hsub, ?_⟩
  apply le_antisymm
  · exact convexHull_mono (fun q hq => hsub q hq)
  · apply convexHull_min _ (convex_convexHull ℚ _)
    intro q hq
    obtain ⟨x, y⟩ := q
    have hq' : (-1 / 4 : ℚ) ≤ x ∧ x ≤ 3 / 4 ∧ (-1 / 4 : ℚ) ≤ y ∧ y ≤ 1 / 4 := by
      simp only [Set.mem_setOf_eq, List.mem_cons, List.mem_singleton, List.not_mem_nil,
        or_false, Prod.mk.injEq] at hq
      rcases hq with h | h | h | h | h | h | h | h | h | h <;> obtain ⟨rfl, rfl⟩ := h <;>
        norm_num
    exact rectangle_subset_convexHull (-1 / 4) (3 / 4) (-1 / 4) (1 / 4) x y (by norm_num)
      (by norm_num) ⟨hq'.1, hq'.2.1⟩ ⟨hq'.2.2.1, hq'.2.2.2⟩ _ (by simp) (by simp) (by simp)
      (by simp)

/-- C23: when the eight kinematic lookups of `updateRobotFootprint` succeed
(each at its instant), the point list handed to `cv::convexHull` is: the right
elbow, the left elbow, the right wrist, the left wrist, the midpoint of the two
finger tips of the right gripper and the midpoint of the two finger tips of
the left gripper, each with `z` dropped and with both coordinates padded (`c`
becomes `c - 0.1` for `c < 0` and `c + 0.1` otherwise, so zero becomes `+0.1`),
followed by the vertices of the base footprint as they are; the finger tips
themselves are not in the list. The active footprint becomes the output of the
hull on that list, the base footprint is kept. When the output is the convex
hull of the list, the function returns, and every point of the list, so every
padded kinematic point and every vertex of the base footprint, lies inside the
new active footprint. -/
theorem updateRobotFootprint_hull_of_joints (W : World D β Obs G)
    (st : Costmap2DROS D β Obs G)
    (r_elbow l_elbow r_wrist l_wrist rr_tip rl_tip lr_tip ll_tip : Point D)
    (h0 : W.tf.lookupTransform st.log.length "/base_footprint" "/r_elbow_flex_link"
      = .ok r_elbow)
    (h1 : W.tf.lookupTransform (st.log.length + 1) "/base_footprint" "/l_elbow_flex_link"
      = .ok l_elbow)
    (h2 : W.tf.lookupTransform (st.log.length + 2) "/base_footprint" "/r_wrist_roll_link"
      = .ok r_wrist)
    (h3 : W.tf.lookupTransform (st.log.length + 3) "/base_footprint" "/l_wrist_roll_link"
      = .ok l_wrist)
    (h4 : W.tf.lookupTransform (st.log.length + 4) "/base_footprint"
      "/r_gripper_r_finger_tip_link" = .ok rr_tip)
    (h5 : W.tf.lookupTransform (st.log.length + 5) "/base_footprint"
      "/r_gripper_l_finger_tip_link" = .ok rl_tip)
    (h6 : W.tf.lookupTransform (st.log.length + 6) "/base_footprint"
      "/l_gripper_r_finger_tip_link" = .ok lr_tip)
    (h7 : W.tf.lookupTransform (st.log.length + 7) "/base_footprint"
      "/l_gripper_l_finger_tip_link" = .ok ll_tip) :
    ∃ pts : List (D × D),
      pts = [(padJoint r_elbow.x, padJoint r_elbow.y), (padJoint l_elbow.x, padJoint l_elbow.y),
              (padJoint r_wrist.x, padJoint r_wrist.y), (padJoint l_wrist.x, padJoint l_wrist.y),
              (padJoint (rr_tip.x / 2 + rl_tip.x / 2), padJoint (rr_tip.y / 2 + rl_tip.y / 2)),
              (padJoint (lr_tip.x / 2 + ll_tip.x / 2), padJoint (lr_tip.y / 2 + ll_tip.y / 2))]
            ++ st.base_footprint_spec_.map (fun p => (p.x, p.y))
        ∧ (updateRobotFootprint W st).state.footprint_spec_
            = (W.math.convexHull pts).map (fun q => ({ x := q.1, y := q.2, z := 0 } : Point D))
        ∧ (updateRobotFootprint W st).state.base_footprint_spec_ = st.base_footprint_spec_
        ∧ (∀ c : D, (c < 0 → padJoint c = c - 1 / 10) ∧ (0 ≤ c → padJoint c = c + 1 / 10))
        ∧ (isConvexHullOf (W.math.convexHull pts) pts →
            (∃ st', updateRobotFootprint W st = .ok st')
              ∧ (∀ q ∈ pts,
                  insideFootprint (updateRobotFootprint W st).state.footprint_spec_ q.1 q.2)
              ∧ ∀ v ∈ st.base_footprint_spec_,
                  insideFootprint (updateRobotFootprint W st).state.footprint_spec_ v.x v.y) := by
  obtain ⟨st1, hst1⟩ := lookupJoints_ok W jointFrames st
    (fun k => [r_elbow, l_elbow, r_wrist, l_wrist, rr_tip, rl_tip, lr_tip, ll_tip].getD k
      ⟨0, 0, 0⟩)
    (by
      intro k hk
      have hk' : k < 8 := hk
      interval_cases k
      · exact h0
      · exact h1
      · exact h2
      · exact h3
      · exact h4
      · exact h5
      · exact h6
      · exact h7)
  have hjt : (List.range jointFrames.length).map
      (fun k => [r_elbow, l_elbow, r_wrist, l_wrist, rr_tip, rl_tip, lr_tip, ll_tip].getD k
        ⟨0, 0, 0⟩)
      = [r_elbow, l_elbow, r_wrist, l_wrist, rr_tip, rl_tip, lr_tip, ll_tip] := rfl
  rw [hjt] at hst1
  obtain ⟨hfp, hbase, hret⟩ := updateRobotFootprint_of_ok W st st1 _ hst1
  have hpts : all_pts
      (jointPoints [r_elbow, l_elbow, r_wrist, l_wrist, rr_tip, rl_tip, lr_tip, ll_tip])
      st.base_footprint_spec_
      = [(padJoint r_elbow.x, padJoint r_elbow.y), (padJoint l_elbow.x, padJoint l_elbow.y),
          (padJoint r_wrist.x, padJoint r_wrist.y), (padJoint l_wrist.x, padJoint l_wrist.y),
          (padJoint (rr_tip.x / 2 + rl_tip.x / 2), padJoint (rr_tip.y / 2 + rl_tip.y / 2)),
          (padJoint (lr_tip.x / 2 + ll_tip.x / 2), padJoint (lr_tip.y / 2 + ll_tip.y / 2))]
        ++ st.base_footprint_spec_.map (fun p => (p.x, p.y)) := by
    have hr : (List.range 10).filter (fun i => ¬ (i > 3 ∧ i < 8)) = [0, 1, 2, 3, 8, 9] := by
      decide
    unfold all_pts
    rw [hr]
    rfl
  rw [hpts] at hfp hret
  refine ⟨_, rfl, hfp, hbase, padJoint_eq, ?_⟩
  intro hhull
  have hne : W.math.convexHull
      ([(padJoint r_elbow.x, padJoint r_elbow.y), (padJoint l_elbow.x, padJoint l_elbow.y),
          (padJoint r_wrist.x, padJoint r_wrist.y), (padJoint l_wrist.x, padJoint l_wrist.y),
          (padJoint (rr_tip.x / 2 + rl_tip.x / 2), padJoint (rr_tip.y / 2 + rl_tip.y / 2)),
          (padJoint (lr_tip.x / 2 + ll_tip.x / 2), padJoint (lr_tip.y / 2 + ll_tip.y / 2))]
        ++ st.base_footprint_spec_.map (fun p => (p.x, p.y))) ≠ [] := by
    intro hnil
    have hin := insideFootprint_of_hull _ _ hhull (padJoint r_elbow.x, padJoint r_elbow.y)
      (by simp)
    rw [hnil] at hin
    simp [insideFootprint] at hin
  have hall : ∀ q ∈ [(padJoint r_elbow.x, padJoint r_elbow.y),
        (padJoint l_elbow.x, padJoint l_elbow.y),
        (padJoint r_wrist.x, padJoint r_wrist.y), (padJoint l_wrist.x, padJoint l_wrist.y),
        (padJoint (rr_tip.x / 2 + rl_tip.x / 2), padJoint (rr_tip.y / 2 + rl_tip.y / 2)),
        (padJoint (lr_tip.x / 2 + ll_tip.x / 2), padJoint (lr_tip.y / 2 + ll_tip.y / 2))]
        ++ st.base_footprint_spec_.map (fun p => (p.x, p.y)),
      insideFootprint (updateRobotFootprint W st).state.footprint_spec_ q.1 q.2 := by
    intro q hq
    rw [hfp]
    exact insideFootprint_of_hull _ _ hhull q hq
  refine ⟨hret hne, hall, ?_⟩
  intro v hv
  exact hall (v.x, v.y) (List.mem_append_right _ (List.mem_map.mpr ⟨v, hv, rfl⟩))

/-- C23, on a concrete input: the arms of the demo robot are stretched forward
(the right elbow is at `x = 0`, so its padded `x` is `+0.1`); the padded
gripper points `(3/4, ±1/4)` and two vertices of the square base footprint are
the vertices of the new footprint, and the padded right elbow and a vertex of
the base footprint lie inside it. -/
theorem updateRobotFootprint_hull_of_joints_witness :
    (updateRobotFootprint (Demo.world Demo.freshPoses Demo.armJoints)
        Demo.controller).state.footprint_spec_
        = [⟨-1 / 4, -1 / 4, 0⟩, ⟨3 / 4, -1 / 4, 0⟩, ⟨3 / 4, 1 / 4, 0⟩, ⟨-1 / 4, 1 / 4, 0⟩]
      ∧ (∃ st', updateRobotFootprint (Demo.world Demo.freshPoses Demo.armJoints)
          Demo.controller = .ok st')
      ∧ insideFootprint (updateRobotFootprint (Demo.world Demo.freshPoses Demo.armJoints)
          Demo.controller).state.footprint_spec_ (1 / 10) (-1 / 5)
      ∧ insideFootprint (updateRobotFootprint (Demo.world Demo.freshPoses Demo.armJoints)
          Demo.controller).state.footprint_spec_ (1 / 4) (1 / 4) := by
  obtain ⟨pts, hpts, hfp, -, -, hin⟩ :=
    updateRobotFootprint_hull_of_joints (Demo.world Demo.freshPoses Demo.armJoints)
      Demo.controller ⟨0, -1 / 10, 4 / 5⟩ ⟨0, 1 / 10, 4 / 5⟩ ⟨1 / 2, -1 / 10, 4 / 5⟩
      ⟨1 / 2, 1 / 10, 4 / 5⟩ ⟨13 / 20, -1 / 5, 4 / 5⟩ ⟨13 / 20, -1 / 10, 4 / 5⟩
      ⟨13 / 20, 1 / 10, 4 / 5⟩ ⟨13 / 20, 1 / 5, 4 / 5⟩
      (by simp [Demo.world, Demo.listener, Demo.armJoints])
      (by simp [Demo.world, Demo.listener, Demo.armJoints])
      (by simp [Demo.world, Demo.listener, Demo.armJoints])
      (by simp [Demo.world, Demo.listener, Demo.armJoints])
      (by simp [Demo.world, Demo.listener, Demo.armJoints])
      (by simp [Demo.world, Demo.listener, Demo.armJoints])
      (by simp [Demo.world, Demo.listener, Demo.armJoints])
      (by simp [Demo.world, Demo.listener, Demo.armJoints])
  have hp : pts = [(1 / 10, -1 / 5), (1 / 10, 1 / 5), (3 / 5, -1 / 5), (3 / 5, 1 / 5),
      (3 / 4, -1 / 4), (3 / 4, 1 / 4), (1 / 4, 1 / 4), (-1 / 4, 1 / 4), (-1 / 4, -1 / 4),
      (1 / 4, -1 / 4)] := by
    rw [hpts]
    simp only [padJoint, Demo.controller, Demo.square, List.map_cons, List.map_nil,
      List.cons_append, List.nil_append]
    norm_num
  subst hp
  have hh : (Demo.world Demo.freshPoses Demo.armJoints).math.convexHull
      [(1 / 10, -1 / 5), (1 / 10, 1 / 5), (3 / 5, -1 / 5), (3 / 5, 1 / 5),
        (3 / 4, -1 / 4), (3 / 4, 1 / 4), (1 / 4, 1 / 4), (-1 / 4, 1 / 4), (-1 / 4, -1 / 4),
        (1 / 4, -1 / 4)]
      = [(-1 / 4, -1 / 4), (3 / 4, -1 / 4), (3 / 4, 1 / 4), (-1 / 4, 1 / 4)] :=
    Demo.convexHull_arm
  obtain ⟨hret, hall, -⟩ := hin Demo.isConvexHullOf_arm
  refine ⟨?_, hret, hall (1 / 10, -1 / 5) (by simp), hall (1 / 4, 1 / 4) (by simp)⟩
  rw [hfp, hh]
  rfl

end HullInput

/-! ## C24: the window of `getCostmapWindowCopy` -/

section WindowCopy

set_option linter.unusedSectionVars false

variable {D β Obs G : Type} [LinearOrderedField D]

theorem clamp_mono (o S a b : D) (h : a ≤ b) : min (max a o) S ≤ min (max b o) S :=
  min_le_min (max_le_max h (le_refl o)) (le_refl S)

theorem getCostmapWindowCopy_size_nonneg (W : World D β Obs G)
    (win_center_x win_center_y win_size_x win_size_y : D) (st : Costmap2DROS D β Obs G)
    (hx : 0 ≤ win_size_x) (hy : 0 ≤ win_size_y) :
    0 ≤ (getCostmapWindowCopy W win_center_x win_center_y win_size_x win_size_y st).size_x
      ∧ 0 ≤ (getCostmapWindowCopy W win_center_x win_center_y win_size_x win_size_y st).size_y
      := by
  simp only [getCostmapWindowCopy, sub_nonneg]
  exact ⟨clamp_mono _ _ _ _ (by linarith), clamp_mono _ _ _ _ (by linarith)⟩

theorem clamp_legal_iff (o S : D) :
    (∀ c s : D, 0 ≤ s →
        o ≤ min (max (c - s) o) S ∧ min (max (c - s) o) S ≤ o + S
          ∧ o ≤ min (max (c + s) o) S ∧ min (max (c + s) o) S ≤ o + S)
      ↔ 0 ≤ o ∧ o ≤ S := by
  constructor
  · intro h
    have hoS : o ≤ S := by
      by_contra hc
      have hlt : S < o := not_le.mp hc
      have h1 := (h o 0 (le_refl 0)).1
      rw [sub_zero, max_self, min_eq_right (le_of_lt hlt)] at h1
      exact absurd h1 (not_le.mpr hlt)
    refine ⟨?_, hoS⟩
    have h2 := (h S 0 (le_refl 0)).2.1
    rw [sub_zero, max_eq_left hoS, min_self] at h2
    linarith
  · rintro ⟨h0, hoS⟩ c s _
    have key : ∀ a : D, o ≤ min (max a o) S ∧ min (max a o) S ≤ o + S := fun a =>
      ⟨le_min (le_max_right _ _) hoS, le_trans (min_le_right _ _) (by linarith)⟩
    exact ⟨(key _).1, (key _).2, (key _).1, (key _).2⟩

/-- C24: the window that `getCostmapWindowCopy` computes has a non-negative
size whenever the requested size is non-negative, but it is not always within
the grid: on each axis the lower-left and upper-right coordinates lie in
`[origin, origin + sizeInMeters]` for every requested centre and non-negative
size if and only if `0 ≤ origin ≤ sizeInMeters`, the clamp being made against
`sizeInMeters` where `origin + sizeInMeters` is the upper end of the grid. -/
theorem getCostmapWindowCopy_legal_iff (W : World D β Obs G) (st : Costmap2DROS D β Obs G) :
    (∀ win_center_x win_center_y win_size_x win_size_y : D,
        0 ≤ win_size_x → 0 ≤ win_size_y →
        0 ≤ (getCostmapWindowCopy W win_center_x win_center_y win_size_x win_size_y st).size_x
          ∧ 0 ≤ (getCostmapWindowCopy W win_center_x win_center_y win_size_x win_size_y
              st).size_y)
      ∧ ((∀ win_center_x win_center_y win_size_x win_size_y : D,
            0 ≤ win_size_x → 0 ≤ win_size_y →
            W.grid.getOriginX st.costmap_
                ≤ (getCostmapWindowCopy W win_center_x win_center_y win_size_x win_size_y st).ll_x
              ∧ (getCostmapWindowCopy W win_center_x win_center_y win_size_x win_size_y st).ll_x
                ≤ W.grid.getOriginX st.costmap_ + W.grid.getSizeInMetersX st.costmap_
              ∧ W.grid.getOriginX st.costmap_
                ≤ (getCostmapWindowCopy W win_center_x win_center_y win_size_x win_size_y st).ur_x
              ∧ (getCostmapWindowCopy W win_center_x win_center_y win_size_x win_size_y st).ur_x
                ≤ W.grid.getOriginX st.costmap_ + W.grid.getSizeInMetersX st.costmap_)
          ↔ 0 ≤ W.grid.getOriginX st.costmap_
            ∧ W.grid.getOriginX st.costmap_ ≤ W.grid.getSizeInMetersX st.costmap_)
      ∧ ((∀ win_center_x win_center_y win_size_x win_size_y : D,
            0 ≤ win_size_x → 0 ≤ win_size_y →
            W.grid.getOriginY st.costmap_
                ≤ (getCostmapWindowCopy W win_center_x win_center_y win_size_x win_size_y st).ll_y
              ∧ (getCostmapWindowCopy W win_center_x win_center_y win_size_x win_size_y st).ll_y
                ≤ W.grid.getOriginY st.costmap_ + W.grid.getSizeInMetersY st.costmap_
              ∧ W.grid.getOriginY st.costmap_
                ≤ (getCostmapWindowCopy W win_center_x win_center_y win_size_x win_size_y st).ur_y
              ∧ (getCostmapWindowCopy W win_center_x win_center_y win_size_x win_size_y st).ur_y
                ≤ W.grid.getOriginY st.costmap_ + W.grid.getSizeInMetersY st.costmap_)
          ↔ 0 ≤ W.grid.getOriginY st.costmap_
            ∧ W.grid.getOriginY st.costmap_ ≤ W.grid.getSizeInMetersY st.costmap_) := by
  refine ⟨fun cx cy sx sy hx hy => getCostmapWindowCopy_size_nonneg W cx cy sx sy st hx hy,
    ?_, ?_⟩
  · rw [← clamp_legal_iff]
    simp only [getCostmapWindowCopy]
    constructor
    · intro h c s hs
      exact h c 0 s 0 hs (le_refl 0)
    · intro h cx _ sx _ hx _
      exact h cx sx hx
  · rw [← clamp_legal_iff]
    simp only [getCostmapWindowCopy]
    constructor
    · intro h c s hs
      exact h 0 c 0 s (le_refl 0) hs
    · intro h _ cy _ sy _ hy
      exact h cy sy hy

/-- C24, a request that gets a window outside the grid: on the grid that covers
`[1, 1.2] × [1, 1.2]` (origin `(1, 1)`, size in meters `0.2`) the request
centred at `(1.1, 1.1)` with the size `0.05` gets the window with both corners
at `(0.2, 0.2)`, below the origin of the grid on both axes. -/
theorem getCostmapWindowCopy_outside_grid :
    getCostmapWindowCopy (Demo.world Demo.freshPoses Demo.noJoints) (11 / 10) (11 / 10)
        (1 / 20) (1 / 20) Demo.rolledController
      = { ll_x := 1 / 5, ll_y := 1 / 5, ur_x := 1 / 5, ur_y := 1 / 5, size_x := 0, size_y := 0 }
      ∧ (Demo.world Demo.freshPoses Demo.noJoints).grid.getOriginX Demo.rolledController.costmap_
          = 1
      ∧ (Demo.world Demo.freshPoses Demo.noJoints).grid.getSizeInMetersX
          Demo.rolledController.costmap_ = 1 / 5
      ∧ (getCostmapWindowCopy (Demo.world Demo.freshPoses Demo.noJoints) (11 / 10) (11 / 10)
          (1 / 20) (1 / 20) Demo.rolledController).ll_x
        < (Demo.world Demo.freshPoses Demo.noJoints).grid.getOriginX
          Demo.rolledController.costmap_ := by
  simp only [getCostmapWindowCopy, Demo.world, Demo.engine, Demo.rolledController,
    Demo.rolledGrid, Demo.grid0]
  norm_num

end WindowCopy

/-! ## The circle loop of `clearRobotFootprint` -/

section CircleLoop

set_option linter.unusedSectionVars false

variable {D β Obs G : Type} [LinearOrderedField D]

theorem circleFootprint_fuel_aux (W : World D β Obs G) (g : G) (x y u s : D)
    (hu0 : 0 ≤ u) (hu : u ≤ 1 / 5402) (hpi : 0 < W.math.M_PI)
    (hs : 2 * W.math.M_PI / 72 * (1 - u) ≤ s)
    (hfl : ∀ a, 0 ≤ a → a * (1 - u) ≤ W.fl a) (m : Nat) :
    ∀ (k n : Nat) (angle : D) (acc : List (Point D)), k + m = 73 →
      (k : D) * s * (1 - (k : D) * u) ≤ angle →
      circleFootprint W g x y s (m + n) angle acc = circleFootprint W g x y s m angle acc := by
  have hs0 : 0 ≤ s := by
    have h1 : 0 ≤ 2 * W.math.M_PI / 72 * (1 - u) :=
      mul_nonneg (by positivity) (by linarith)
    linarith
  induction m with
  | zero =>
    intro k n angle acc hk hangle
    have hk' : k = 73 := by omega
    subst hk'
    have hend : ¬ angle < 2 * W.math.M_PI := by
      apply not_lt.mpr
      have h73 : (0 : D) ≤ 1 - 73 * u := by linarith
      have h1 : 73 * (2 * W.math.M_PI / 72 * (1 - u)) * (1 - 73 * u)
          ≤ 73 * s * (1 - 73 * u) :=
        mul_le_mul_of_nonneg_right (mul_le_mul_of_nonneg_left hs (by norm_num)) h73
      have h2 : 2 * W.math.M_PI ≤ 73 * (2 * W.math.M_PI / 72 * (1 - u)) * (1 - 73 * u) := by
        have e : 73 * (2 * W.math.M_PI / 72 * (1 - u)) * (1 - 73 * u) - 2 * W.math.M_PI
            = 2 * W.math.M_PI / 72 * ((1 - 5402 * u) + 5329 * u ^ 2) := by ring
        have h3 : 0 ≤ 2 * W.math.M_PI / 72 * ((1 - 5402 * u) + 5329 * u ^ 2) :=
          mul_nonneg (by positivity) (by have := sq_nonneg u; linarith)
        linarith
      have hc : ((73 : ℕ) : D) = 73 := by norm_num
      rw [hc] at hangle
      linarith
    cases n with
    | zero => rfl
    | succ n => simp only [Nat.zero_add, circleFootprint, if_neg hend]
  | succ m ih =>
    intro k n angle acc hk hangle
    have hfuel : m + 1 + n = (m + n) + 1 := by omega
    rw [hfuel]
    simp only [circleFootprint]
    split
    · apply ih (k + 1) n _ _ (by omega)
      have hk72 : (k : D) ≤ 72 := by
        have : k ≤ 72 := by omega
        exact_mod_cast this
      have hk0 : (0 : D) ≤ (k : D) := Nat.cast_nonneg k
      have hku' : (k : D) * u ≤ 72 * (1 / 5402) := mul_le_mul hk72 hu hu0 (by norm_num)
      have hku : 0 ≤ 1 - (k : D) * u := by linarith
      have ha0 : 0 ≤ angle := le_trans (mul_nonneg (mul_nonneg hk0 hs0) hku) hangle
      have h1 : (angle + s) * (1 - u) ≤ W.fl (angle + s) := hfl _ (by linarith)
      have h2 : ((k : D) * s * (1 - (k : D) * u) + s) * (1 - u) ≤ (angle + s) * (1 - u) :=
        mul_le_mul_of_nonneg_right (by linarith) (by linarith)
      have e : ((k : D) * s * (1 - (k : D) * u) + s) * (1 - u)
          = ((k : D) + 1) * s * (1 - ((k : D) + 1) * u)
            + s * ((k : D) * u + ((k : D) * u) ^ 2) := by ring
      have h3 : 0 ≤ s * ((k : D) * u + ((k : D) * u) ^ 2) :=
        mul_nonneg hs0 (add_nonneg (mul_nonneg hk0 hu0) (sq_nonneg _))
      push_cast
      linarith
    · rfl

/-- The fuel given to the circle loop does not cut it: when the rounding `fl`
has a relative error of at most `u ≤ 1/5402` from below, the test
`angle < 2 * M_PI` fails after at most 73 passes, and any larger fuel gives
the same polygon. -/
theorem circleFootprint_fuel (W : World D β Obs G) (g : G) (x y u : D)
    (hu0 : 0 ≤ u) (hu : u ≤ 1 / 5402) (hpi : 0 < W.math.M_PI)
    (hfl : ∀ a, 0 ≤ a → a * (1 - u) ≤ W.fl a) (n : Nat) :
    circleFootprint W g x y (W.fl (2 * W.math.M_PI / 72)) (73 + n) 0 []
      = circleFootprint W g x y (W.fl (2 * W.math.M_PI / 72)) 73 0 [] := by
  have hs : 2 * W.math.M_PI / 72 * (1 - u) ≤ W.fl (2 * W.math.M_PI / 72) :=
    hfl _ (by positivity)
  exact circleFootprint_fuel_aux W g x y u _ hu0 hu hpi hs hfl 73 0 n 0 [] (by omega)
    (by simp)

theorem circleFootprint_length_le (W : World D β Obs G) (g : G) (x y s : D) (fuel : Nat) :
    ∀ (angle : D) (acc : List (Point D)),
      (circleFootprint W g x y s fuel angle acc).length ≤ acc.length + fuel := by
  induction fuel with
  | zero =>
    intro angle acc
    simp [circleFootprint]
  | succ fuel ih =>
    intro angle acc
    simp only [circleFootprint]
    split
    · refine le_trans (ih _ _) ?_
      simp only [List.length_append, List.length_singleton]
      omega
    · omega

theorem circleFootprint_length_ge (W : World D β Obs G) (g : G) (x y u s : D)
    (hu0 : 0 ≤ u) (hu : u ≤ 1 / 5402) (hpi : 0 < W.math.M_PI) (hs0 : 0 ≤ s)
    (hs : s ≤ 2 * W.math.M_PI / 72 * (1 + u))
    (hfl : ∀ a, 0 ≤ a → 0 ≤ W.fl a ∧ W.fl a ≤ a * (1 + u)) (m : Nat) :
    ∀ (k fuel : Nat) (angle : D) (acc : List (Point D)), k + m = 72 → m ≤ fuel →
      0 ≤ angle → angle ≤ (k : D) * s * (1 + (k : D) * u) →
      acc.length + m ≤ (circleFootprint W g x y s fuel angle acc).length := by
  induction m with
  | zero =>
    intro k fuel angle acc _ _ _ _
    have hmono : ∀ (f : Nat) (a : D) (l : List (Point D)),
        l.length ≤ (circleFootprint W g x y s f a l).length := by
      intro f
      induction f with
      | zero =>
        intro a l
        simp [circleFootprint]
      | succ f ihf =>
        intro a l
        simp only [circleFootprint]
        split
        · refine le_trans ?_ (ihf _ _)
          simp
        · exact le_refl _
    simpa using hmono fuel angle acc
  | succ m ih =>
    intro k fuel angle acc hk hfuel ha0 hangle
    obtain ⟨fuel', rfl⟩ : ∃ f, fuel = f + 1 := ⟨fuel - 1, by omega⟩
    have hk71 : (k : D) ≤ 71 := by
      have : k ≤ 71 := by omega
      exact_mod_cast this
    have hk0 : (0 : D) ≤ (k : D) := Nat.cast_nonneg k
    have hlt : angle < 2 * W.math.M_PI := by
      have h1 : (k : D) * s * (1 + (k : D) * u)
          ≤ 71 * (2 * W.math.M_PI / 72 * (1 + u)) * (1 + 71 * u) := by
        have hA : (k : D) * s ≤ 71 * (2 * W.math.M_PI / 72 * (1 + u)) :=
          mul_le_mul hk71 hs hs0 (by norm_num)
        have hB : 1 + (k : D) * u ≤ 1 + 71 * u := by
          have := mul_le_mul_of_nonneg_right hk71 hu0
          linarith
        exact mul_le_mul hA hB (by have := mul_nonneg hk0 hu0; linarith)
          (le_trans (mul_nonneg hk0 hs0) hA)
      have h2 : 71 * (2 * W.math.M_PI / 72 * (1 + u)) * (1 + 71 * u) < 2 * W.math.M_PI := by
        have e : 2 * W.math.M_PI - 71 * (2 * W.math.M_PI / 72 * (1 + u)) * (1 + 71 * u)
            = 2 * W.math.M_PI / 72 * (1 - 5112 * u - 5041 * u ^ 2) := by ring
        have hu2 : u ^ 2 ≤ u * (1 / 5402) := by
          rw [pow_two]
          exact mul_le_mul_of_nonneg_left hu hu0
        have h3 : 0 < 2 * W.math.M_PI / 72 * (1 - 5112 * u - 5041 * u ^ 2) :=
          mul_pos (by positivity) (by linarith)
        linarith
      linarith
    simp only [circleFootprint, if_pos hlt]
    have hstep := ih (k + 1) fuel' (W.fl (angle + s))
      (acc ++ [{ x := W.grid.getInscribedRadius g * W.math.cos angle + x,
                 y := W.grid.getInscribedRadius g * W.math.sin angle + y, z := 0 }])
      (by omega) (by omega) (hfl _ (by linarith)).1
      (by
        have h1 : W.fl (angle + s) ≤ (angle + s) * (1 + u) := (hfl _ (by linarith)).2
        have h2 : (angle + s) * (1 + u)
            ≤ ((k : D) * s * (1 + (k : D) * u) + s) * (1 + u) :=
          mul_le_mul_of_nonneg_right (by linarith) (by linarith)
        have e : ((k : D) + 1) * s * (1 + ((k : D) + 1) * u)
            = ((k : D) * s * (1 + (k : D) * u) + s) * (1 + u)
              + s * ((k : D) * u * (1 - (k : D) * u)) := by ring
        have hku' : (k : D) * u ≤ 71 * (1 / 5402) := mul_le_mul hk71 hu hu0 (by norm_num)
        have hku : 0 ≤ 1 - (k : D) * u := by linarith
        have h3 : 0 ≤ s * ((k : D) * u * (1 - (k : D) * u)) :=
          mul_nonneg hs0 (mul_nonneg (mul_nonneg hk0 hu0) hku)
        push_cast
        linarith)
    simp only [List.length_append, List.length_singleton] at hstep
    omega

/-- The polygon of the circle loop has 72 or 73 vertices when the rounding
`fl` has a relative error of at most `u ≤ 1/5402`: 72 full steps do not pass
`2 * M_PI` by more than the rounding, and the 73rd pass ends the loop. -/
theorem circleFootprint_length (W : World D β Obs G) (g : G) (x y u : D)
    (hu0 : 0 ≤ u) (hu : u ≤ 1 / 5402) (hpi : 0 < W.math.M_PI)
    (hfl : ∀ a, 0 ≤ a → a * (1 - u) ≤ W.fl a ∧ W.fl a ≤ a * (1 + u)) :
    72 ≤ (circleFootprint W g x y (W.fl (2 * W.math.M_PI / 72)) 73 0 []).length
      ∧ (circleFootprint W g x y (W.fl (2 * W.math.M_PI / 72)) 73 0 []).length ≤ 73 := by
  have hfl0 : ∀ a, 0 ≤ a → 0 ≤ W.fl a ∧ W.fl a ≤ a * (1 + u) := fun a ha =>
    ⟨le_trans (mul_nonneg ha (by linarith)) (hfl a ha).1, (hfl a ha).2⟩
  have hq : (0 : D) ≤ 2 * W.math.M_PI / 72 := by positivity
  constructor
  · have h := circleFootprint_length_ge W g x y u (W.fl (2 * W.math.M_PI / 72)) hu0 hu hpi
      (hfl0 _ hq).1 (hfl0 _ hq).2 hfl0 72 0 73 0 [] (by omega) (by omega) (le_refl 0)
      (by simp)
    simpa using h
  · simpa using circleFootprint_length_le W g x y (W.fl (2 * W.math.M_PI / 72)) 73 0 []

theorem circleFootprint_exact_aux (W : World D β Obs G) (g : G) (x y : D)
    (hpi : 0 < W.math.M_PI) (hfl : ∀ a, W.fl a = a) (m : Nat) :
    ∀ (k fuel : Nat) (acc : List (Point D)), k + m = 72 → m ≤ fuel →
      (circleFootprint W g x y (2 * W.math.M_PI / 72) fuel
        ((k : D) * (2 * W.math.M_PI / 72)) acc).length = acc.length + m := by
  induction m with
  | zero =>
    intro k fuel acc hk _
    have hk' : k = 72 := by omega
    subst hk'
    have hend : ¬ ((72 : ℕ) : D) * (2 * W.math.M_PI / 72) < 2 * W.math.M_PI := by
      have : ((72 : ℕ) : D) * (2 * W.math.M_PI / 72) = 2 * W.math.M_PI := by
        push_cast
        ring
      rw [this]
      exact lt_irrefl _
    cases fuel with
    | zero => rfl
    | succ fuel => simp only [circleFootprint, if_neg hend, Nat.add_zero]
  | succ m ih =>
    intro k fuel acc hk hfuel
    obtain ⟨fuel', rfl⟩ : ∃ f, fuel = f + 1 := ⟨fuel - 1, by omega⟩
    have hlt : (k : D) * (2 * W.math.M_PI / 72) < 2 * W.math.M_PI := by
      have hk71 : (k : D) ≤ 71 := by
        have : k ≤ 71 := by omega
        exact_mod_cast this
      have hq : 0 < 2 * W.math.M_PI / 72 := by positivity
      have := mul_le_mul_of_nonneg_right hk71 (le_of_lt hq)
      linarith
    have hstep : W.fl ((k : D) * (2 * W.math.M_PI / 72) + 2 * W.math.M_PI / 72)
        = ((k + 1 : ℕ) : D) * (2 * W.math.M_PI / 72) := by
      rw [hfl]
      push_cast
      ring
    simp only [circleFootprint, if_pos hlt, hstep]
    rw [ih (k + 1) fuel' _ (by omega) (by omega)]
    simp only [List.length_append, List.length_singleton]
    omega

/-- The polygon of the circle loop has 72 vertices when the sums are exact. -/
theorem circleFootprint_exact (W : World D β Obs G) (g : G) (x y : D)
    (hpi : 0 < W.math.M_PI) (hfl : ∀ a, W.fl a = a) :
    (circleFootprint W g x y (W.fl (2 * W.math.M_PI / 72)) 73 0 []).length = 72 := by
  have h := circleFootprint_exact_aux W g x y hpi hfl 72 0 73 [] (by omega) (by omega)
  rw [hfl]
  simpa using h

theorem circleFootprint_length_of_run (W : World D β Obs G) (g : G) (x y s : D)
    (a : ℕ → D) (n : ℕ) (hstep : ∀ k < n, W.fl (a k + s) = a (k + 1))
    (hlt : ∀ k < n, a k < 2 * W.math.M_PI) (m : ℕ) :
    ∀ (k fuel : ℕ) (acc : List (Point D)), k + m = n →
      fuel = m ∨ (m ≤ fuel ∧ ¬ a n < 2 * W.math.M_PI) →
      (circleFootprint W g x y s fuel (a k) acc).length = acc.length + m := by
  induction m with
  | zero =>
    intro k fuel acc hk hfuel
    have hk' : k = n := by omega
    subst hk'
    rcases hfuel with hfuel | ⟨-, hend⟩
    · subst hfuel
      rfl
    · cases fuel with
      | zero => rfl
      | succ fuel => simp only [circleFootprint, if_neg hend, Nat.add_zero]
  | succ m ih =>
    intro k fuel acc hk hfuel
    have hpos : 1 ≤ fuel := by
      rcases hfuel with hfuel | ⟨hfuel, -⟩ <;> omega
    obtain ⟨fuel', rfl⟩ : ∃ f, fuel = f + 1 := ⟨fuel - 1, by omega⟩
    have hfuel' : fuel' = m ∨ (m ≤ fuel' ∧ ¬ a n < 2 * W.math.M_PI) := by
      rcases hfuel with hfuel | ⟨hfuel, hend⟩
      · exact Or.inl (by omega)
      · exact Or.inr ⟨by omega, hend⟩
    simp only [circleFootprint, if_pos (hlt k (by omega)), hstep k (by omega)]
    rw [ih (k + 1) fuel' _ (by omega) hfuel']
    simp only [List.length_append, List.length_singleton]
    omega

theorem Demo.roundToDouble_eq (x : ℚ) (e N : ℤ) (hx : 0 < x)
    (he : (2 : ℚ) ^ e ≤ x ∧ x < 2 ^ (e + 1))
    (hN : (N : ℚ) - 1 / 2 < x / 2 ^ (e - 52) ∧ x / 2 ^ (e - 52) < N + 1 / 2) :
    Demo.roundToDouble x = N * 2 ^ (e - 52) := by
  have hlog : Int.log 2 x = e := by
    apply le_antisymm
    · have := (Int.lt_zpow_iff_log_lt (b := 2) (by norm_num) hx).mp he.2
      omega
    · exact (Int.zpow_le_iff_le_log (b := 2) (by norm_num) hx).mp he.1
  unfold Demo.roundToDouble
  rw [if_neg (ne_of_gt hx)]
  simp only [abs_of_pos hx, hlog, if_neg (not_lt.mpr (le_of_lt hx)), one_mul]
  congr 1
  by_cases hge : (N : ℚ) ≤ x / 2 ^ (e - 52)
  · have hf : ⌊x / 2 ^ (e - 52)⌋ = N :=
      Int.floor_eq_iff.mpr ⟨hge, by linarith [hN.2]⟩
    rw [hf, if_pos (by linarith [hN.2])]
  · have hf : ⌊x / 2 ^ (e - 52)⌋ = N - 1 :=
      Int.floor_eq_iff.mpr ⟨by push_cast; linarith [hN.1], by push_cast; linarith [not_le.mp hge]⟩
    rw [hf, if_neg (by push_cast; linarith [hN.1]), if_pos (by push_cast; linarith [hN.1])]
    push_cast
    ring

/-- The relative error of the rounding to a `double` is at most `2^-53`. -/
theorem Demo.roundToDouble_error (a : ℚ) (ha : 0 ≤ a) :
    a * (1 - 1 / 2 ^ 53) ≤ Demo.roundToDouble a
      ∧ Demo.roundToDouble a ≤ a * (1 + 1 / 2 ^ 53) := by
  rcases eq_or_lt_of_le ha with h0 | hpos
  · subst h0
    simp [Demo.roundToDouble]
  · have hq : (0 : ℚ) < 2 ^ (Int.log 2 a - 52) := zpow_pos (by norm_num) _
    have he : (2 : ℚ) ^ Int.log 2 a ≤ a := Int.zpow_log_le_self (by norm_num) hpos
    have hqe : (2 : ℚ) ^ (Int.log 2 a - 52) * 2 ^ 53 = 2 * 2 ^ Int.log 2 a := by
      rw [zpow_sub₀ (by norm_num : (2 : ℚ) ≠ 0)]
      field_simp
      norm_num
      ring
    have hn : a / 2 ^ (Int.log 2 a - 52) * 2 ^ (Int.log 2 a - 52) = a :=
      div_mul_cancel₀ a (ne_of_gt hq)
    have key : ∀ N : ℤ, a / 2 ^ (Int.log 2 a - 52) - 1 / 2 ≤ N →
        (N : ℚ) ≤ a / 2 ^ (Int.log 2 a - 52) + 1 / 2 →
        a * (1 - 1 / 2 ^ 53) ≤ N * 2 ^ (Int.log 2 a - 52)
          ∧ (N : ℚ) * 2 ^ (Int.log 2 a - 52) ≤ a * (1 + 1 / 2 ^ 53) := by
      intro N h1 h2
      have h1' := mul_le_mul_of_nonneg_right h1 (le_of_lt hq)
      have h2' := mul_le_mul_of_nonneg_right h2 (le_of_lt hq)
      rw [sub_mul, hn] at h1'
      rw [add_mul, hn] at h2'
      have hhalf : 1 / 2 * (2 : ℚ) ^ (Int.log 2 a - 52) ≤ a * (1 / 2 ^ 53) := by
        have : (2 : ℚ) ^ (Int.log 2 a - 52) = 2 * 2 ^ Int.log 2 a / 2 ^ 53 := by
          rw [← hqe]
          field_simp
        rw [this]
        have h53 : (0 : ℚ) < 2 ^ 53 := by positivity
        rw [show 1 / 2 * (2 * (2 : ℚ) ^ Int.log 2 a / 2 ^ 53)
          = 2 ^ Int.log 2 a * (1 / 2 ^ 53) by ring]
        exact mul_le_mul_of_nonneg_right he (by positivity)
      constructor <;> linarith
    have hfl := Int.floor_le (a / 2 ^ (Int.log 2 a - 52))
    have hfl' := Int.lt_floor_add_one (a / 2 ^ (Int.log 2 a - 52))
    unfold Demo.roundToDouble
    rw [if_neg (ne_of_gt hpos)]
    simp only [abs_of_pos hpos, if_neg (not_lt.mpr (le_of_lt hpos)), one_mul]
    split_ifs with c1 c2 c3
    · exact key _ (by linarith) (by linarith)
    · exact key _ (by push_cast; linarith) (by push_cast; linarith)
    · exact key _ (by linarith) (by linarith)
    · exact key _ (by push_cast; linarith) (by push_cast; linarith)

theorem Demo.doubleAngles_step (k : ℕ) (hk : k < 73) :
    Demo.roundToDouble ((Demo.doubleAngles.getD k 0 : ℚ) / 2 ^ 56
        + 6288211335136391 / 2 ^ 56)
      = (Demo.doubleAngles.getD (k + 1) 0 : ℚ) / 2 ^ 56 := by
  interval_cases k
  · rw [show Demo.doubleAngles.getD 0 0 = 0 from rfl,
      show Demo.doubleAngles.getD (0 + 1) 0 = 6288211335136391 from rfl]
    exact (Demo.roundToDouble_eq _ (-4) 6288211335136391 (by norm_num) (by norm_num) (by norm_num)).trans
      (by norm_num)
  · rw [show Demo.doubleAngles.getD 1 0 = 6288211335136391 from rfl,
      show Demo.doubleAngles.getD (1 + 1) 0 = 12576422670272782 from rfl]
    exact (Demo.roundToDouble_eq _ (-3) 6288211335136391 (by norm_num) (by norm_num) (by norm_num)).trans
      (by norm_num)
  · rw [show Demo.doubleAngles.getD 2 0 = 12576422670272782 from rfl,
      show Demo.doubleAngles.getD (2 + 1) 0 = 18864634005409172 from rfl]
    exact (Demo.roundToDouble_eq _ (-2) 4716158501352293 (by norm_num) (by norm_num) (by norm_num)).trans
      (by norm_num)
  · rw [show Demo.doubleAngles.getD 3 0 = 18864634005409172 from rfl,
      show Demo.doubleAngles.getD (3 + 1) 0 = 25152845340545564 from rfl]
    exact (Demo.roundToDouble_eq _ (-2) 6288211335136391 (by norm_num) (by norm_num) (by norm_num)).trans
      (by norm_num)
  · rw [show Demo.doubleAngles.getD 4 0 = 25152845340545564 from rfl,
      show Demo.doubleAngles.getD (4 + 1) 0 = 31441056675681956 from rfl]
    exact (Demo.roundToDouble_eq _ (-2) 7860264168920489 (by norm_num) (by norm_num) (by norm_num)).trans
      (by norm_num)
  · rw [show Demo.doubleAngles.getD 5 0 = 31441056675681956 from rfl,
      show Demo.doubleAngles.getD (5 + 1) 0 = 37729268010818344 from rfl]
    exact (Demo.roundToDouble_eq _ (-1) 4716158501352293 (by norm_num) (by norm_num) (by norm_num)).trans
      (by norm_num)
  · rw [show Demo.doubleAngles.getD 6 0 = 37729268010818344 from rfl,
      show Demo.doubleAngles.getD (6 + 1) 0 = 44017479345954736 from rfl]
    exact (Demo.roundToDouble_eq _ (-1) 5502184918244342 (by norm_num) (by norm_num) (by norm_num)).trans
      (by norm_num)
  · rw [show Demo.doubleAngles.getD 7 0 = 44017479345954736 from rfl,
      show Demo.doubleAngles.getD (7 + 1) 0 = 50305690681091128 from rfl]
    exact (Demo.roundToDouble_eq _ (-1) 6288211335136391 (by norm_num) (by norm_num) (by norm_num)).trans
      (by norm_num)
  · rw [show Demo.doubleAngles.getD 8 0 = 50305690681091128 from rfl,
      show Demo.doubleAngles.getD (8 + 1) 0 = 56593902016227520 from rfl]
    exact (Demo.roundToDouble_eq _ (-1) 7074237752028440 (by norm_num) (by norm_num) (by norm_num)).trans
      (by norm_num)
  · rw [show Demo.doubleAngles.getD 9 0 = 56593902016227520 from rfl,
      show Demo.doubleAngles.getD (9 + 1) 0 = 62882113351363912 from rfl]
    exact (Demo.roundToDouble_eq _ (-1) 7860264168920489 (by norm_num) (by norm_num) (by norm_num)).trans
      (by norm_num)
  · rw [show Demo.doubleAngles.getD 10 0 = 62882113351363912 from rfl,
      show Demo.doubleAngles.getD (10 + 1) 0 = 69170324686500304 from rfl]
    exact (Demo.roundToDouble_eq _ (-1) 8646290585812538 (by norm_num) (by norm_num) (by norm_num)).trans
      (by norm_num)
  · rw [show Demo.doubleAngles.getD 11 0 = 69170324686500304 from rfl,
      show Demo.doubleAngles.getD (11 + 1) 0 = 75458536021636688 from rfl]
    exact (Demo.roundToDouble_eq _ (0) 4716158501352293 (by norm_num) (by norm_num) (by norm_num)).trans
      (by norm_num)
  · rw [show Demo.doubleAngles.getD 12 0 = 75458536021636688 from rfl,
      show Demo.doubleAngles.getD (12 + 1) 0 = 81746747356773072 from rfl]
    exact (Demo.roundToDouble_eq _ (0) 5109171709798317 (by norm_num) (by norm_num) (by norm_num)).trans
      (by norm_num)
  · rw [show Demo.doubleAngles.getD 13 0 = 81746747356773072 from rfl,
      show Demo.doubleAngles.getD (13 + 1) 0 = 88034958691909456 from rfl]
    exact (Demo.roundToDouble_eq _ (0) 5502184918244341 (by norm_num) (by norm_num) (by norm_num)).trans
      (by norm_num)
  · rw [show Demo.doubleAngles.getD 14 0 = 88034958691909456 from rfl,
      show Demo.doubleAngles.getD (14 + 1) 0 = 94323170027045840 from rfl]
    exact (Demo.roundToDouble_eq _ (0) 5895198126690365 (by norm_num) (by norm_num) (by norm_num)).trans
      (by norm_num)
  · rw [show Demo.doubleAngles.getD 15 0 = 94323170027045840 from rfl,
      show Demo.doubleAngles.getD (15 + 1) 0 = 100611381362182224 from rfl]
    exact (Demo.roundToDouble_eq _ (0) 6288211335136389 (by norm_num) (by norm_num) (by norm_num)).trans
      (by norm_num)
  · rw [show Demo.doubleAngles.getD 16 0 = 100611381362182224 from rfl,
      show Demo.doubleAngles.getD (16 + 1) 0 = 106899592697318608 from rfl]
    exact (Demo.roundToDouble_eq _ (0) 6681224543582413 (by norm_num) (by norm_num) (by norm_num)).trans
      (by norm_num)
  · rw [show Demo.doubleAngles.getD 17 0 = 106899592697318608 from rfl,
      show Demo.doubleAngles.getD (17 + 1) 0 = 113187804032454992 from rfl]
    exact (Demo.roundToDouble_eq _ (0) 7074237752028437 (by norm_num) (by norm_num) (by norm_num)).trans
      (by norm_num)
  · rw [show Demo.doubleAngles.getD 18 0 = 113187804032454992 from rfl,
      show Demo.doubleAngles.getD (18 + 1) 0 = 119476015367591376 from rfl]
    exact (Demo.roundToDouble_eq _ (0) 7467250960474461 (by norm_num) (by norm_num) (by norm_num)).trans
      (by norm_num)
  · rw [show Demo.doubleAngles.getD 19 0 = 119476015367591376 from rfl,
      show Demo.doubleAngles.getD (19 + 1) 0 = 125764226702727760 from rfl]
    exact (Demo.roundToDouble_eq _ (0) 7860264168920485 (by norm_num) (by norm_num) (by norm_num)).trans
      (by norm_num)
  · rw [show Demo.doubleAngles.getD 20 0 = 125764226702727760 from rfl,
      show Demo.doubleAngles.getD (20 + 1) 0 = 132052438037864144 from rfl]
    exact (Demo.roundToDouble_eq _ (0) 8253277377366509 (by norm_num) (by norm_num) (by norm_num)).trans
      (by norm_num)
  · rw [show Demo.doubleAngles.getD 21 0 = 132052438037864144 from rfl,
      show Demo.doubleAngles.getD (21 + 1) 0 = 138340649373000528 from rfl]
    exact (Demo.roundToDouble_eq _ (0) 8646290585812533 (by norm_num) (by norm_num) (by norm_num)).trans
      (by norm_num)
  · rw [show Demo.doubleAngles.getD 22 0 = 138340649373000528 from rfl,
      show Demo.doubleAngles.getD (22 + 1) 0 = 144628860708136928 from rfl]
    exact (Demo.roundToDouble_eq _ (1) 4519651897129279 (by norm_num) (by norm_num) (by norm_num)).trans
      (by norm_num)
  · rw [show Demo.doubleAngles.getD 23 0 = 144628860708136928 from rfl,
      show Demo.doubleAngles.getD (23 + 1) 0 = 150917072043273312 from rfl]
    exact (Demo.roundToDouble_eq _ (1) 4716158501352291 (by norm_num) (by norm_num) (by norm_num)).trans
      (by norm_num)
  · rw [show Demo.doubleAngles.getD 24 0 = 150917072043273312 from rfl,
      show Demo.doubleAngles.getD (24 + 1) 0 = 157205283378409696 from rfl]
    exact (Demo.roundToDouble_eq _ (1) 4912665105575303 (by norm_num) (by norm_num) (by norm_num)).trans
      (by norm_num)
  · rw [show Demo.doubleAngles.getD 25 0 = 157205283378409696 from rfl,
      show Demo.doubleAngles.getD (25 + 1) 0 = 163493494713546080 from rfl]
    exact (Demo.roundToDouble_eq _ (1) 5109171709798315 (by norm_num) (by norm_num) (by norm_num)).trans
      (by norm_num)
  · rw [show Demo.doubleAngles.getD 26 0 = 163493494713546080 from rfl,
      show Demo.doubleAngles.getD (26 + 1) 0 = 169781706048682464 from rfl]
    exact (Demo.roundToDouble_eq _ (1) 5305678314021327 (by norm_num) (by norm_num) (by norm_num)).trans
      (by norm_num)
  · rw [show Demo.doubleAngles.getD 27 0 = 169781706048682464 from rfl,
      show Demo.doubleAngles.getD (27 + 1) 0 = 176069917383818848 from rfl]
    exact (Demo.roundToDouble_eq _ (1) 5502184918244339 (by norm_num) (by norm_num) (by norm_num)).trans
      (by norm_num)
  · rw [show Demo.doubleAngles.getD 28 0 = 176069917383818848 from rfl,
      show Demo.doubleAngles.getD (28 + 1) 0 = 182358128718955232 from rfl]
    exact (Demo.roundToDouble_eq _ (1) 5698691522467351 (by norm_num) (by norm_num) (by norm_num)).trans
      (by norm_num)
  · rw [show Demo.doubleAngles.getD 29 0 = 182358128718955232 from rfl,
      show Demo.doubleAngles.getD (29 + 1) 0 = 188646340054091616 from rfl]
    exact (Demo.roundToDouble_eq _ (1) 5895198126690363 (by norm_num) (by norm_num) (by norm_num)).trans
      (by norm_num)
  · rw [show Demo.doubleAngles.getD 30 0 = 188646340054091616 from rfl,
      show Demo.doubleAngles.getD (30 + 1) 0 = 194934551389228000 from rfl]
    exact (Demo.roundToDouble_eq _ (1) 6091704730913375 (by norm_num) (by norm_num) (by norm_num)).trans
      (by norm_num)
  · rw [show Demo.doubleAngles.getD 31 0 = 194934551389228000 from rfl,
      show Demo.doubleAngles.getD (31 + 1) 0 = 201222762724364384 from rfl]
    exact (Demo.roundToDouble_eq _ (1) 6288211335136387 (by norm_num) (by norm_num) (by norm_num)).trans
      (by norm_num)
  · rw [show Demo.doubleAngles.getD 32 0 = 201222762724364384 from rfl,
      show Demo.doubleAngles.getD (32 + 1) 0 = 207510974059500768 from rfl]
    exact (Demo.roundToDouble_eq _ (1) 6484717939359399 (by norm_num) (by norm_num) (by norm_num)).trans
      (by norm_num)
  · rw [show Demo.doubleAngles.getD 33 0 = 207510974059500768 from rfl,
      show Demo.doubleAngles.getD (33 + 1) 0 = 213799185394637152 from rfl]
    exact (Demo.roundToDouble_eq _ (1) 6681224543582411 (by norm_num) (by norm_num) (by norm_num)).trans
      (by norm_num)
  · rw [show Demo.doubleAngles.getD 34 0 = 213799185394637152 from rfl,
      show Demo.doubleAngles.getD (34 + 1) 0 = 220087396729773536 from rfl]
    exact (Demo.roundToDouble_eq _ (1) 6877731147805423 (by norm_num) (by norm_num) (by norm_num)).trans
      (by norm_num)
  · rw [show Demo.doubleAngles.getD 35 0 = 220087396729773536 from rfl,
      show Demo.doubleAngles.getD (35 + 1) 0 = 226375608064909920 from rfl]
    exact (Demo.roundToDouble_eq _ (1) 7074237752028435 (by norm_num) (by norm_num) (by norm_num)).trans
      (by norm_num)
  · rw [show Demo.doubleAngles.getD 36 0 = 226375608064909920 from rfl,
      show Demo.doubleAngles.getD (36 + 1) 0 = 232663819400046304 from rfl]
    exact (Demo.roundToDouble_eq _ (1) 7270744356251447 (by norm_num) (by norm_num) (by norm_num)).trans
      (by norm_num)
  · rw [show Demo.doubleAngles.getD 37 0 = 232663819400046304 from rfl,
      show Demo.doubleAngles.getD (37 + 1) 0 = 238952030735182688 from rfl]
    exact (Demo.roundToDouble_eq _ (1) 7467250960474459 (by norm_num) (by norm_num) (by norm_num)).trans
      (by norm_num)
  · rw [show Demo.doubleAngles.getD 38 0 = 238952030735182688 from rfl,
      show Demo.doubleAngles.getD (38 + 1) 0 = 245240242070319072 from rfl]
    exact (Demo.roundToDouble_eq _ (1) 7663757564697471 (by norm_num) (by norm_num) (by norm_num)).trans
      (by norm_num)
  · rw [show Demo.doubleAngles.getD 39 0 = 245240242070319072 from rfl,
      show Demo.doubleAngles.getD (39 + 1) 0 = 251528453405455456 from rfl]
    exact (Demo.roundToDouble_eq _ (1) 7860264168920483 (by norm_num) (by norm_num) (by norm_num)).trans
      (by norm_num)
  · rw [show Demo.doubleAngles.getD 40 0 = 251528453405455456 from rfl,
      show Demo.doubleAngles.getD (40 + 1) 0 = 257816664740591840 from rfl]
    exact (Demo.roundToDouble_eq _ (1) 8056770773143495 (by norm_num) (by norm_num) (by norm_num)).trans
      (by norm_num)
  · rw [show Demo.doubleAngles.getD 41 0 = 257816664740591840 from rfl,
      show Demo.doubleAngles.getD (41 + 1) 0 = 264104876075728224 from rfl]
    exact (Demo.roundToDouble_eq _ (1) 8253277377366507 (by norm_num) (by norm_num) (by norm_num)).trans
      (by norm_num)
  · rw [show Demo.doubleAngles.getD 42 0 = 264104876075728224 from rfl,
      show Demo.doubleAngles.getD (42 + 1) 0 = 270393087410864608 from rfl]
    exact (Demo.roundToDouble_eq _ (1) 8449783981589519 (by norm_num) (by norm_num) (by norm_num)).trans
      (by norm_num)
  · rw [show Demo.doubleAngles.getD 43 0 = 270393087410864608 from rfl,
      show Demo.doubleAngles.getD (43 + 1) 0 = 276681298746000992 from rfl]
    exact (Demo.roundToDouble_eq _ (1) 8646290585812531 (by norm_num) (by norm_num) (by norm_num)).trans
      (by norm_num)
  · rw [show Demo.doubleAngles.getD 44 0 = 276681298746000992 from rfl,
      show Demo.doubleAngles.getD (44 + 1) 0 = 282969510081137376 from rfl]
    exact (Demo.roundToDouble_eq _ (1) 8842797190035543 (by norm_num) (by norm_num) (by norm_num)).trans
      (by norm_num)
  · rw [show Demo.doubleAngles.getD 45 0 = 282969510081137376 from rfl,
      show Demo.doubleAngles.getD (45 + 1) 0 = 289257721416273792 from rfl]
    exact (Demo.roundToDouble_eq _ (2) 4519651897129278 (by norm_num) (by norm_num) (by norm_num)).trans
      (by norm_num)
  · rw [show Demo.doubleAngles.getD 46 0 = 289257721416273792 from rfl,
      show Demo.doubleAngles.getD (46 + 1) 0 = 295545932751410176 from rfl]
    exact (Demo.roundToDouble_eq _ (2) 4617905199240784 (by norm_num) (by norm_num) (by norm_num)).trans
      (by norm_num)
  · rw [show Demo.doubleAngles.getD 47 0 = 295545932751410176 from rfl,
      show Demo.doubleAngles.getD (47 + 1) 0 = 301834144086546560 from rfl]
    exact (Demo.roundToDouble_eq _ (2) 4716158501352290 (by norm_num) (by norm_num) (by norm_num)).trans
      (by norm_num)
  · rw [show Demo.doubleAngles.getD 48 0 = 301834144086546560 from rfl,
      show Demo.doubleAngles.getD (48 + 1) 0 = 308122355421682944 from rfl]
    exact (Demo.roundToDouble_eq _ (2) 4814411803463796 (by norm_num) (by norm_num) (by norm_num)).trans
      (by norm_num)
  · rw [show Demo.doubleAngles.getD 49 0 = 308122355421682944 from rfl,
      show Demo.doubleAngles.getD (49 + 1) 0 = 314410566756819328 from rfl]
    exact (Demo.roundToDouble_eq _ (2) 4912665105575302 (by norm_num) (by norm_num) (by norm_num)).trans
      (by norm_num)
  · rw [show Demo.doubleAngles.getD 50 0 = 314410566756819328 from rfl,
      show Demo.doubleAngles.getD (50 + 1) 0 = 320698778091955712 from rfl]
    exact (Demo.roundToDouble_eq _ (2) 5010918407686808 (by norm_num) (by norm_num) (by norm_num)).trans
      (by norm_num)
  · rw [show Demo.doubleAngles.getD 51 0 = 320698778091955712 from rfl,
      show Demo.doubleAngles.getD (51 + 1) 0 = 326986989427092096 from rfl]
    exact (Demo.roundToDouble_eq _ (2) 5109171709798314 (by norm_num) (by norm_num) (by norm_num)).trans
      (by norm_num)
  · rw [show Demo.doubleAngles.getD 52 0 = 326986989427092096 from rfl,
      show Demo.doubleAngles.getD (52 + 1) 0 = 333275200762228480 from rfl]
    exact (Demo.roundToDouble_eq _ (2) 5207425011909820 (by norm_num) (by norm_num) (by norm_num)).trans
      (by norm_num)
  · rw [show Demo.doubleAngles.getD 53 0 = 333275200762228480 from rfl,
      show Demo.doubleAngles.getD (53 + 1) 0 = 339563412097364864 from rfl]
    exact (Demo.roundToDouble_eq _ (2) 5305678314021326 (by norm_num) (by norm_num) (by norm_num)).trans
      (by norm_num)
  · rw [show Demo.doubleAngles.getD 54 0 = 339563412097364864 from rfl,
      show Demo.doubleAngles.getD (54 + 1) 0 = 345851623432501248 from rfl]
    exact (Demo.roundToDouble_eq _ (2) 5403931616132832 (by norm_num) (by norm_num) (by norm_num)).trans
      (by norm_num)
  · rw [show Demo.doubleAngles.getD 55 0 = 345851623432501248 from rfl,
      show Demo.doubleAngles.getD (55 + 1) 0 = 352139834767637632 from rfl]
    exact (Demo.roundToDouble_eq _ (2) 5502184918244338 (by norm_num) (by norm_num) (by norm_num)).trans
      (by norm_num)
  · rw [show Demo.doubleAngles.getD 56 0 = 352139834767637632 from rfl,
      show Demo.doubleAngles.getD (56 + 1) 0 = 358428046102774016 from rfl]
    exact (Demo.roundToDouble_eq _ (2) 5600438220355844 (by norm_num) (by norm_num) (by norm_num)).trans
      (by norm_num)
  · rw [show Demo.doubleAngles.getD 57 0 = 358428046102774016 from rfl,
      show Demo.doubleAngles.getD (57 + 1) 0 = 364716257437910400 from rfl]
    exact (Demo.roundToDouble_eq _ (2) 5698691522467350 (by norm_num) (by norm_num) (by norm_num)).trans
      (by norm_num)
  · rw [show Demo.doubleAngles.getD 58 0 = 364716257437910400 from rfl,
      show Demo.doubleAngles.getD (58 + 1) 0 = 371004468773046784 from rfl]
    exact (Demo.roundToDouble_eq _ (2) 5796944824578856 (by norm_num) (by norm_num) (by norm_num)).trans
      (by norm_num)
  · rw [show Demo.doubleAngles.getD 59 0 = 371004468773046784 from rfl,
      show Demo.doubleAngles.getD (59 + 1) 0 = 377292680108183168 from rfl]
    exact (Demo.roundToDouble_eq _ (2) 5895198126690362 (by norm_num) (by norm_num) (by norm_num)).trans
      (by norm_num)
  · rw [show Demo.doubleAngles.getD 60 0 = 377292680108183168 from rfl,
      show Demo.doubleAngles.getD (60 + 1) 0 = 383580891443319552 from rfl]
    exact (Demo.roundToDouble_eq _ (2) 5993451428801868 (by norm_num) (by norm_num) (by norm_num)).trans
      (by norm_num)
  · rw [show Demo.doubleAngles.getD 61 0 = 383580891443319552 from rfl,
      show Demo.doubleAngles.getD (61 + 1) 0 = 389869102778455936 from rfl]
    exact (Demo.roundToDouble_eq _ (2) 6091704730913374 (by norm_num) (by norm_num) (by norm_num)).trans
      (by norm_num)
  · rw [show Demo.doubleAngles.getD 62 0 = 389869102778455936 from rfl,
      show Demo.doubleAngles.getD (62 + 1) 0 = 396157314113592320 from rfl]
    exact (Demo.roundToDouble_eq _ (2) 6189958033024880 (by norm_num) (by norm_num) (by norm_num)).trans
      (by norm_num)
  · rw [show Demo.doubleAngles.getD 63 0 = 396157314113592320 from rfl,
      show Demo.doubleAngles.getD (63 + 1) 0 = 402445525448728704 from rfl]
    exact (Demo.roundToDouble_eq _ (2) 6288211335136386 (by norm_num) (by norm_num) (by norm_num)).trans
      (by norm_num)
  · rw [show Demo.doubleAngles.getD 64 0 = 402445525448728704 from rfl,
      show Demo.doubleAngles.getD (64 + 1) 0 = 408733736783865088 from rfl]
    exact (Demo.roundToDouble_eq _ (2) 6386464637247892 (by norm_num) (by norm_num) (by norm_num)).trans
      (by norm_num)
  · rw [show Demo.doubleAngles.getD 65 0 = 408733736783865088 from rfl,
      show Demo.doubleAngles.getD (65 + 1) 0 = 415021948119001472 from rfl]
    exact (Demo.roundToDouble_eq _ (2) 6484717939359398 (by norm_num) (by norm_num) (by norm_num)).trans
      (by norm_num)
  · rw [show Demo.doubleAngles.getD 66 0 = 415021948119001472 from rfl,
      show Demo.doubleAngles.getD (66 + 1) 0 = 421310159454137856 from rfl]
    exact (Demo.roundToDouble_eq _ (2) 6582971241470904 (by norm_num) (by norm_num) (by norm_num)).trans
      (by norm_num)
  · rw [show Demo.doubleAngles.getD 67 0 = 421310159454137856 from rfl,
      show Demo.doubleAngles.getD (67 + 1) 0 = 427598370789274240 from rfl]
    exact (Demo.roundToDouble_eq _ (2) 6681224543582410 (by norm_num) (by norm_num) (by norm_num)).trans
      (by norm_num)
  · rw [show Demo.doubleAngles.getD 68 0 = 427598370789274240 from rfl,
      show Demo.doubleAngles.getD (68 + 1) 0 = 433886582124410624 from rfl]
    exact (Demo.roundToDouble_eq _ (2) 6779477845693916 (by norm_num) (by norm_num) (by norm_num)).trans
      (by norm_num)
  · rw [show Demo.doubleAngles.getD 69 0 = 433886582124410624 from rfl,
      show Demo.doubleAngles.getD (69 + 1) 0 = 440174793459547008 from rfl]
    exact (Demo.roundToDouble_eq _ (2) 6877731147805422 (by norm_num) (by norm_num) (by norm_num)).trans
      (by norm_num)
  · rw [show Demo.doubleAngles.getD 70 0 = 440174793459547008 from rfl,
      show Demo.doubleAngles.getD (70 + 1) 0 = 446463004794683392 from rfl]
    exact (Demo.roundToDouble_eq _ (2) 6975984449916928 (by norm_num) (by norm_num) (by norm_num)).trans
      (by norm_num)
  · rw [show Demo.doubleAngles.getD 71 0 = 446463004794683392 from rfl,
      show Demo.doubleAngles.getD (71 + 1) 0 = 452751216129819776 from rfl]
    exact (Demo.roundToDouble_eq _ (2) 7074237752028434 (by norm_num) (by norm_num) (by norm_num)).trans
      (by norm_num)
  · rw [show Demo.doubleAngles.getD 72 0 = 452751216129819776 from rfl,
      show Demo.doubleAngles.getD (72 + 1) 0 = 459039427464956160 from rfl]
    exact (Demo.roundToDouble_eq _ (2) 7172491054139940 (by norm_num) (by norm_num) (by norm_num)).trans
      (by norm_num)

theorem Demo.doubleAngles_lt (k : ℕ) (hk : k < 73) :
    (Demo.doubleAngles.getD k 0 : ℚ) / 2 ^ 56 < 2 * Demo.M_PI := by
  have h : ∀ j < 73, Demo.doubleAngles.getD j 0 ≤ 452751216129819776 := by decide
  have h1 : (Demo.doubleAngles.getD k 0 : ℚ) ≤ 452751216129819776 := by
    exact_mod_cast h k hk
  have h2 : (Demo.doubleAngles.getD k 0 : ℚ) / 2 ^ 56 ≤ 452751216129819776 / 2 ^ 56 :=
    div_le_div_of_nonneg_right h1 (by positivity)
  refine lt_of_le_of_lt h2 ?_
  norm_num [Demo.M_PI]

/-- The circle loop of `clearRobotFootprint` in binary64 arithmetic, with
`M_PI` the `double` nearest to π: the loop makes 73 passes (the rounded sum of
72 steps is `6.283185307179581`, below `2 * M_PI = 6.283185307179586`), so the
polygon handed to `setConvexPolygonCost` has 73 vertices, and the test
`angle < 2 * M_PI` fails after the 73rd pass: more fuel gives the same
polygon. -/
theorem Demo.circleFootprint_double (poses : Nat → Except TfException (StampedPose ℚ))
    (joints : Nat → String → Except TfException (Point ℚ)) (g : Demo.Grid) (x y : ℚ) :
    (circleFootprint (Demo.doubleWorld poses joints) g x y
        ((Demo.doubleWorld poses joints).fl (2 * (Demo.doubleWorld poses joints).math.M_PI / 72))
        73 0 []).length = 73
      ∧ ∀ n, circleFootprint (Demo.doubleWorld poses joints) g x y
          ((Demo.doubleWorld poses joints).fl
            (2 * (Demo.doubleWorld poses joints).math.M_PI / 72)) (73 + n) 0 []
        = circleFootprint (Demo.doubleWorld poses joints) g x y
          ((Demo.doubleWorld poses joints).fl
            (2 * (Demo.doubleWorld poses joints).math.M_PI / 72)) 73 0 [] := by
  have hs : (Demo.doubleWorld poses joints).fl
      (2 * (Demo.doubleWorld poses joints).math.M_PI / 72) = 6288211335136391 / 2 ^ 56 := by
    show Demo.roundToDouble (2 * Demo.M_PI / 72) = 6288211335136391 / 2 ^ 56
    exact (Demo.roundToDouble_eq _ (-4) 6288211335136391 (by norm_num [Demo.M_PI])
      (by norm_num [Demo.M_PI]) (by norm_num [Demo.M_PI])).trans (by norm_num)
  constructor
  · rw [hs]
    have h := circleFootprint_length_of_run (Demo.doubleWorld poses joints) g x y
      (6288211335136391 / 2 ^ 56) (fun k => (Demo.doubleAngles.getD k 0 : ℚ) / 2 ^ 56) 73
      (fun k hk => Demo.doubleAngles_step k hk) (fun k hk => Demo.doubleAngles_lt k hk)
      73 0 73 [] (by omega) (Or.inl rfl)
    have h0 : ((Demo.doubleAngles.getD 0 0 : ℕ) : ℚ) / 2 ^ 56 = 0 := by
      rw [show Demo.doubleAngles.getD 0 0 = 0 from rfl]
      norm_num
    simp only [h0] at h
    simpa using h
  · intro n
    exact circleFootprint_fuel (Demo.doubleWorld poses joints) g x y (1 / 2 ^ 53)
      (by positivity) (by norm_num) (by show (0 : ℚ) < Demo.M_PI; norm_num [Demo.M_PI])
      (fun a ha => (Demo.roundToDouble_error a ha).1) n

end CircleLoop

end costmap_2d
